import Mathlib

/-!
# easydbus: dispatch router, RPC engine and reactor bridge

A shallow embedding of `src/bus.c` and `src/easydbus_lua.c`.

* Lua values are the inductive `LVal`; a Lua stack is a list, index 1 first.
* A table is its sequence part `t[1..#t]` (as delimited by `lua_rawlen`)
  together with the remaining key/value pairs in traversal order.
* Effects on the outside world (messages handed to the connection, task
  resumptions, callback invocations, reference counting of the inbound
  message) are recorded as a list of `Event`s in program order.
-/

set_option autoImplicit false

namespace Easydbus

/-! ## Lua values -/

/-- Keys under which the C code stores and looks up values. -/
inductive Key where
  | int (i : Int)
  | str (s : String)
  | bool (b : Bool)
  | light (p : Nat)
  deriving DecidableEq, Repr

/-- Lua values. `light` is a light userdata (a C pointer), `func` a Lua function,
`cfunc` a C closure, `thread` a coroutine, `userdata` a full userdata.  Numbers are
restricted to integers; a string is read by the C code as a NUL-terminated `const char *`. -/
inductive LVal where
  | nil
  | bool (b : Bool)
  | num (n : Int)
  | str (s : String)
  | light (p : Nat)
  | func (f : Nat)
  | cfunc (name : String)
  | thread (t : Nat)
  | userdata (u : Nat)
  | table (arr : List LVal) (hash : List (Key × LVal))

abbrev Stack := List LVal

/-- Key denoted by a value; `none` for nil and for values the C code never uses as keys. -/
def LVal.toKey : LVal → Option Key
  | .bool b => some (.bool b)
  | .num n => some (.int n)
  | .str s => some (.str s)
  | .light p => some (.light p)
  | _ => none

def LVal.isTable : LVal → Bool
  | .table _ _ => true
  | _ => false

def LVal.isFunction : LVal → Bool
  | .func _ => true
  | .cfunc _ => true
  | _ => false

def LVal.isNil : LVal → Bool
  | .nil => true
  | _ => false

/-- First value stored under `k` in an association list, nil when there is none. -/
def assocGet (kv : List (Key × LVal)) (k : Key) : LVal :=
  match kv.find? (fun e => decide (e.1 = k)) with
  | some e => e.2
  | none => .nil

/-- Raw access `t[k]` for a key. A non-table yields nil. -/
def rawgetKey (t : LVal) (k : Key) : LVal :=
  match t with
  | .table arr hash =>
    match k with
    | .int i => if 1 ≤ i ∧ i ≤ arr.length then arr.getD (i - 1).toNat .nil else assocGet hash k
    | _ => assocGet hash k
  | _ => .nil

/-- Raw access `t[v]`; a nil key yields nil. -/
def rawget (t : LVal) (v : LVal) : LVal :=
  match v.toKey with
  | some k => rawgetKey t k
  | none => .nil

def rawgeti (t : LVal) (i : Int) : LVal := rawgetKey t (.int i)

/-- `lua_rawlen` on a table: the length of its sequence part. -/
def rawlen : LVal → Nat
  | .table arr _ => arr.length
  | .str s => s.utf8ByteSize
  | _ => 0

/-- `lua_tostring`: strings and numbers convert, everything else is NULL. -/
def lua_tostring : LVal → Option String
  | .str s => some s
  | .num n => some (toString n)
  | _ => none

/-- `luaL_tolstring` without metamethods, on a possibly absent stack slot. -/
def luaL_tolstring : Option LVal → String
  | some (.str s) => s
  | some (.num n) => toString n
  | some (.bool true) => "true"
  | some (.bool false) => "false"
  | some .nil => "nil"
  | some (.light p) => "userdata: " ++ toString p
  | some (.func f) => "function: " ++ toString f
  | some (.cfunc n) => "function: " ++ n
  | some (.thread t) => "thread: " ++ toString t
  | some (.userdata u) => "userdata: " ++ toString u
  | some (.table _ _) => "table"
  | none => "no value"

/-- A C string argument of a printf-style format; NULL prints as `(null)`. -/
def cstr (s : Option String) : String := s.getD "(null)"

/-! ## Stack primitives -/

def absidx (s : Stack) (i : Int) : Int :=
  if 0 < i then i else (s.length : Int) + 1 + i

/-- Value in slot `i` (positive from the bottom, negative from the top); `none` outside. -/
def lua_at (s : Stack) (i : Int) : Option LVal :=
  let a := absidx s i
  if 1 ≤ a then s[(a - 1).toNat]? else none

def lua_val (s : Stack) (i : Int) : LVal := (lua_at s i).getD .nil

def lua_gettop (s : Stack) : Int := s.length

def lua_push (s : Stack) (v : LVal) : Stack := s ++ [v]

def lua_pop (s : Stack) (n : Nat) : Stack := s.take (s.length - n)

/-- Value a C string argument pushes: the string, or nil for NULL. -/
def strKey : Option String → LVal
  | some s => .str s
  | none => .nil

def lua_pushstring (s : Stack) (str : Option String) : Stack := lua_push s (strKey str)

def lua_pushlightuserdata (s : Stack) (p : Nat) : Stack := lua_push s (.light p)

/-- `lua_rawget(L, idx)`: replaces the key on top by `t[key]`, `t` being slot `idx`. -/
def lua_rawget (s : Stack) (idx : Int) : Stack :=
  lua_push (lua_pop s 1) (rawget (lua_val s idx) (lua_val s (-1)))

/-- `lua_rawget(L, LUA_REGISTRYINDEX)`. -/
def lua_rawget_registry (s : Stack) (registry : LVal) : Stack :=
  lua_push (lua_pop s 1) (rawget registry (lua_val s (-1)))

def lua_rawgeti (s : Stack) (idx : Int) (n : Int) : Stack :=
  lua_push s (rawgeti (lua_val s idx) n)

def lua_istable (s : Stack) (idx : Int) : Bool := (lua_val s idx).isTable

/-- `lua_isnil`: false on an empty slot (type `LUA_TNONE`). -/
def lua_isnil (s : Stack) (idx : Int) : Bool :=
  match lua_at s idx with
  | some v => v.isNil
  | none => false

/-! ## Messages and events -/

inductive MsgType where
  | method_call
  | method_return
  | error
  | signal
  deriving DecidableEq, Repr

/-- A bus message. `body` is the value sequence the codec (`push_msg`, `range_to_msg`)
decodes from or encodes into the message, `signature` the signature handed to the
encoder, `reply_to` the inbound message (by address) a reply answers. -/
structure DBusMessage where
  type : MsgType
  path : Option String := none
  interface : Option String := none
  member : Option String := none
  destination : Option String := none
  error_name : Option String := none
  reply_to : Option Nat := none
  signature : Option String := none
  body : List LVal := []

inductive DBusHandlerResult where
  | HANDLED
  | NOT_YET_HANDLED
  deriving DecidableEq, Repr

/-- Observable effects, in program order. -/
inductive Event where
  /-- Effect of `dbus_connection_send(conn, m, NULL)`. -/
  | send (conn : Nat) (m : DBusMessage)
  /-- Effect of `ed_resume`: task `thread` is started on `fn` with `args`. -/
  | resume (thread : Nat) (fn : Option LVal) (args : List LVal)
  /-- A `lua_call(L, n, 0)` made on `fn` with `args`. When `fn` is not a function nothing
  is run: Lua raises an error, which the function making the call records. -/
  | call (fn : LVal) (args : List LVal)
  /-- Effect of `dbus_message_ref(msg)`. -/
  | msg_ref (msg : Nat)
  /-- Effect of `dbus_message_unref(msg)`. -/
  | msg_unref (msg : Nat)

def Event.isResume : Event → Bool
  | .resume _ _ _ => true
  | _ => false

def Event.isSend : Event → Bool
  | .send _ _ => true
  | _ => false

def DBUS_ERROR_FAILED : String := "org.freedesktop.DBus.Error.Failed"
def DBUS_ERROR_UNKNOWN_OBJECT : String := "org.freedesktop.DBus.Error.UnknownObject"
def DBUS_ERROR_UNKNOWN_INTERFACE : String := "org.freedesktop.DBus.Error.UnknownInterface"
def DBUS_ERROR_UNKNOWN_METHOD : String := "org.freedesktop.DBus.Error.UnknownMethod"

/-- `dbus_message_new_error(msg, name, text)`: an error reply to the message at `msg`. -/
def dbus_message_new_error (msg : Nat) (name : String) (text : String) : DBusMessage :=
  { type := .error, error_name := some name, reply_to := some msg,
    signature := some "s", body := [.str text] }

/-- `dbus_message_new_method_return(msg)`: an empty method return for the message at `msg`. -/
def dbus_message_new_method_return (msg : Nat) : DBusMessage :=
  { type := .method_return, reply_to := some msg }

/-- `dbus_message_new_method_call`. -/
def dbus_message_new_method_call (dest object_path interface_name method_name : String) :
    DBusMessage :=
  { type := .method_call, destination := some dest, path := some object_path,
    interface := some interface_name, member := some method_name }

/-- Modelled from the spec: `range_to_msg` (utils.c, absent) is the codec that encodes the stack
slots `first .. last - 1` into the body of `m` under the signature `sig`. -/
def range_to_msg (m : DBusMessage) (s : Stack) (first last : Int) (sig : Option String) :
    DBusMessage :=
  { m with signature := sig, body := (s.drop (first - 1).toNat).take (last - first).toNat }

/-- Modelled from the spec: `push_msg` (utils.c, absent) is the codec that pushes the values
decoded from the body of `m` and returns their number. -/
def push_msg (s : Stack) (m : DBusMessage) : Stack × Int :=
  (s ++ m.body, m.body.length)

/-- Modelled from the spec: `ed_resume` (compat layer, absent) is `lua_resume` on a task
that has not started: the function is the slot just below the top `nargs` values. -/
def ed_resume (thread : Nat) (T : Stack) (nargs : Int) : Event :=
  if 0 ≤ nargs ∧ nargs + 1 ≤ T.length then
    .resume thread (T[T.length - nargs.toNat - 1]?) (T.drop (T.length - nargs.toNat))
  else
    .resume thread none []

/-- The loop of `unpack_table`: pushes `t[start] .. t[stop]`, `t` being slot `table_index`. -/
def unpack_table (s : Stack) (table_index : Int) (start stop : Int) : Stack :=
  (List.range (stop + 1 - start).toNat).foldl
    (fun acc (j : Nat) => lua_rawgeti acc table_index (start + (j : Int))) s

/-- Outcome of a message callback. -/
structure Dispatch where
  result : DBusHandlerResult
  /-- Effects in program order. -/
  events : List Event
  /-- Stack of the main state `state->L` on return. -/
  main : Stack
  /-- Stack of the task created for the message, at its last use. -/
  task : Stack

/-! ## Dispatch of method calls (`interface_method_call`) -/

/-- The invocation record pushed as last argument of a handler. -/
def invocation (T : Stack) (connection msg : Nat) : LVal :=
  .table [.light connection, .light msg, rawgeti (lua_val T 5) 2] []

/-- Embedding of `interface_method_call`; `m` is the message at address `msg`, `tid` the
task `lua_newthread` creates, `registry` the Lua registry, `main` the main stack. -/
def interface_method_call (registry : LVal) (main : Stack) (tid : Nat)
    (connection : Nat) (msg : Nat) (m : DBusMessage) : Dispatch :=
  if m.type ≠ .method_call then
    ⟨.NOT_YET_HANDLED, [], main, []⟩
  else
    let main1 := lua_push main (.thread tid)
    let T : Stack := []
    let T := lua_pushlightuserdata T connection
    let T := lua_rawget_registry T registry
    let T := lua_rawgeti T (-1) 2
    let T := lua_pushstring T m.path
    let T := lua_rawget T (-2)
    if !lua_istable T (-1) then
      let reply := dbus_message_new_error msg DBUS_ERROR_UNKNOWN_OBJECT
        ("No such object path '" ++ cstr m.path ++ "'")
      ⟨.HANDLED, [.send connection reply], main1, T⟩
    else
      let T := lua_pushstring T m.interface
      let T := lua_rawget T (-2)
      if !lua_istable T (-1) then
        let reply := dbus_message_new_error msg DBUS_ERROR_UNKNOWN_INTERFACE
          ("No such interface '" ++ cstr m.interface ++ "' at object path '"
            ++ cstr m.path ++ "'")
        ⟨.HANDLED, [.send connection reply], main1, T⟩
      else
        let T := lua_pushstring T m.member
        let T := lua_rawget T (-2)
        if !lua_istable T (-1) then
          let reply := dbus_message_new_error msg DBUS_ERROR_UNKNOWN_METHOD
            ("No such method '" ++ cstr m.member ++ "' in interface '" ++ cstr m.interface
              ++ "' at object path '" ++ cstr m.path ++ "'")
          ⟨.HANDLED, [.send connection reply], main1, T⟩
        else
          let n_args : Int := rawlen (lua_val T 5)
          let T := unpack_table T 5 3 n_args
          let p := push_msg T m
          let T := p.1
          let n_params := p.2
          let T := lua_push T (.cfunc "interface_method_return")
          let T := lua_push T (invocation T connection msg)
          ⟨.HANDLED, [.msg_ref msg, ed_resume tid T (n_args + n_params - 1)],
            lua_pop main1 1, T⟩

/-- The handler table of a connection: slot 2 of the table registered under it. -/
def handlersOf (registry : LVal) (connection : Nat) : LVal :=
  rawgeti (rawget registry (.light connection)) 2

/-- The signal table of a connection: slot 3 of the table registered under it. -/
def signalsOf (registry : LVal) (connection : Nat) : LVal :=
  rawgeti (rawget registry (.light connection)) 3

/-! ## Replies of handlers (`interface_method_return`) -/

/-- `lua_touserdata`: the address held by a light userdata, NULL (0) otherwise. -/
def lua_touserdata (s : Stack) (idx : Int) : Nat :=
  match lua_val s idx with
  | .light p => p
  | .userdata u => u
  | _ => 0

/-- Embedding of `interface_method_return`. `L` holds the invocation record in slot 1 and
the handler results above it. A failed `luaL_argcheck` is the `error` result. -/
def interface_method_return (L : Stack) : Except String (List Event) :=
  let n_args := lua_gettop L
  if !lua_istable L 1 then
    .error "bad argument #1 (table expected)"
  else
    let L1 := lua_rawgeti L 1 1
    let L1 := lua_rawgeti L1 1 2
    let L1 := lua_rawgeti L1 1 3
    let conn := lua_touserdata L1 (-3)
    let msg := lua_touserdata L1 (-2)
    let out_sig := lua_tostring (lua_val L1 (-1))
    let L1 := lua_pop L1 3
    if lua_isnil L1 2 then
      let reply := dbus_message_new_error msg DBUS_ERROR_FAILED (luaL_tolstring (lua_at L1 3))
      .ok [.msg_unref msg, .send conn reply]
    else
      let reply := dbus_message_new_method_return msg
      let reply := range_to_msg reply L1 2 (n_args + 1) out_sig
      .ok [.msg_unref msg, .send conn reply]

/-! ## Dispatch of signals (`signal_callback`) -/

/-- Embedding of `signal_callback`; parameters as for `interface_method_call`. -/
def signal_callback (registry : LVal) (main : Stack) (tid : Nat)
    (conn : Nat) (m : DBusMessage) : Dispatch :=
  if m.type ≠ .signal then
    ⟨.NOT_YET_HANDLED, [], main, []⟩
  else
    let main1 := lua_push main (.thread tid)
    let L : Stack := []
    let L := lua_pushlightuserdata L conn
    let L := lua_rawget_registry L registry
    let L := lua_rawgeti L (-1) 3
    let L := lua_push L (.str (cstr m.path ++ ":" ++ cstr m.interface ++ ":" ++ cstr m.member))
    let L := lua_rawget L (-2)
    if !lua_istable L (-1) then
      ⟨.NOT_YET_HANDLED, [], lua_pop main1 1, L⟩
    else
      let n_args : Int := rawlen (lua_val L 3)
      let L := unpack_table L 3 1 n_args
      let p := push_msg L m
      ⟨.HANDLED, [ed_resume tid p.1 (n_args + p.2 - 1)], lua_pop main1 1, p.1⟩

/-! ## Introspection (`sb_*`, `introspect_handler`) -/

/-- The string buffer `struct sb`: `str` is the text written so far, `len` the allocated
size, `offset` the write position. `overrun` tells whether some `strcpy` has written
beyond the `len` bytes allocated at that moment; once it has, the behaviour of the program
is undefined and `str` describes no buffer. -/
structure sb where
  str : String
  len : Nat
  offset : Nat
  overrun : Bool

def SB_STEP : Nat := 4096

def sb_init : sb := { str := "", len := SB_STEP, offset := 0, overrun := false }

/-- Embedding of `sb_addstring`: grows the allocation by one step when the chunk does not
fit, copies the chunk at `offset`, advances `offset`. `strcpy` writes the `chunk_len`
bytes of the chunk and the terminating NUL from `offset` on; they lie inside the
allocation iff `offset + chunk_len + 1 <= len`. -/
def sb_addstring (b : sb) (chunk : String) : sb :=
  let chunk_len := chunk.utf8ByteSize
  let len := if chunk_len + b.offset > b.len then b.len + SB_STEP else b.len
  { str := b.str ++ chunk, len := len, offset := b.offset + chunk_len,
    overrun := b.overrun || decide (len < b.offset + chunk_len + 1) }

/-- The value a key has on the stack. -/
def Key.toVal : Key → LVal
  | .int i => .num i
  | .str s => .str s
  | .bool b => .bool b
  | .light p => .light p

/-- Key/value pairs of a table in the order `lua_next` visits them; nil values are
not stored in a table. -/
def pairsOf : LVal → List (Key × LVal)
  | .table arr hash =>
    ((arr.enum.map (fun e => (Key.int ((e.1 : Int) + 1), e.2))) ++ hash).filter
      (fun e => !e.2.isNil)
  | _ => []

def Key.isString : Key → Bool
  | .str _ => true
  | _ => false

/-- One signature argument, emitted when the signature is a non-empty string. -/
def introspect_arg (b : sb) (sig : Option String) (tail : String) : sb :=
  match sig with
  | some s =>
    if s ≠ "" then
      let b := sb_addstring b "      <arg type=\""
      let b := sb_addstring b s
      sb_addstring b tail
    else b
  | none => b

/-- Body of the inner `lua_next` loop: one method of an interface. -/
def introspect_method (b : sb) (e : Key × LVal) : sb :=
  let method := lua_tostring e.1.toVal
  let b := sb_addstring b "    <method name=\""
  let b := sb_addstring b (cstr method)
  let b := sb_addstring b "\">\n"
  let in_sig := lua_tostring (rawgeti e.2 1)
  let b := introspect_arg b in_sig "\" direction=\"in\"/>\n"
  let out_sig := lua_tostring (rawgeti e.2 2)
  let b := introspect_arg b out_sig "\" direction=\"out\"/>\n"
  sb_addstring b "    </method>\n"

/-- Body of the outer `lua_next` loop: one entry of the table registered at the path. -/
def introspect_interface (b : sb) (e : Key × LVal) : sb :=
  if !e.1.isString then b
  else
    let interface := lua_tostring e.1.toVal
    let b := sb_addstring b "  <interface name=\""
    let b := sb_addstring b (cstr interface)
    let b := sb_addstring b "\">\n"
    let b := (pairsOf e.2).foldl introspect_method b
    sb_addstring b "  </interface>\n"

/-- Body of the subnode loop. -/
def introspect_node (b : sb) (e : Key × LVal) : sb :=
  let b := sb_addstring b "  <node name=\""
  let b := sb_addstring b (cstr (lua_tostring e.1.toVal))
  sb_addstring b "\"/>\n"

def DBUS_INTERFACE_INTROSPECTABLE : String := "org.freedesktop.DBus.Introspectable"
def DBUS_INTERFACE_PEER : String := "org.freedesktop.DBus.Peer"

def introspect_header : String :=
  "<!DOCTYPE node PUBLIC \"-//freedesktop//DTD D-BUS Object Introspection 1.0//EN\"\n" ++
  "\"http://www.freedesktop.org/standards/dbus/1.0/introspect.dtd\">\n" ++
  "<node>\n"

def introspect_standard : String :=
  "  <interface name=\"" ++ DBUS_INTERFACE_INTROSPECTABLE ++ "\">\n" ++
  "    <method name=\"Introspect\">\n" ++
  "      <arg name=\"xml_data\" type=\"s\" direction=\"out\"/>\n" ++
  "    </method>\n" ++
  "  </interface>\n" ++
  "  <interface name=\"" ++ DBUS_INTERFACE_PEER ++ "\">\n" ++
  "    <method name=\"Ping\"/>\n" ++
  "    <method name=\"GetMachineId\">\n" ++
  "      <arg name=\"machine_uuid\" type=\"s\" direction=\"out\"/>\n" ++
  "    </method>\n" ++
  "  </interface>\n"

/-- The buffer `introspect_handler` builds for the table `node` registered at a path. -/
def introspect_buffer (node : LVal) : sb :=
  let b := sb_init
  let b := sb_addstring b introspect_header
  let b := (pairsOf node).foldl introspect_interface b
  let b := sb_addstring b introspect_standard
  let b := (pairsOf (rawgeti node 1)).foldl introspect_node b
  sb_addstring b "</node>\n"

/-- Embedding of `introspect_handler`, run on the main state: the effects and the stack
left, or `none` when a `strcpy` of `sb_addstring` wrote beyond the allocated buffer, after
which nothing is defined. -/
def introspect_handler (registry : LVal) (main : Stack) (conn : Nat) (msg : Nat)
    (path : Option String) : Option (List Event × Stack) :=
  let L := lua_pushlightuserdata main conn
  let L := lua_rawget_registry L registry
  let L := lua_rawgeti L (-1) 2
  let L := lua_pushstring L path
  let L := lua_rawget L (-2)
  if !lua_istable L (-1) then
    let reply := dbus_message_new_error msg DBUS_ERROR_UNKNOWN_OBJECT
      ("No such object path '" ++ cstr path ++ "'")
    some ([.send conn reply], L)
  else
    let reply := dbus_message_new_method_return msg
    let b := introspect_buffer (lua_val L (-1))
    if b.overrun then none
    else
      let reply := { reply with signature := some "s", body := [.str b.str] }
      some ([.send conn reply], main)

/-- The document sent for a path, when one is sent. -/
def introspect_document (registry : LVal) (main : Stack) (conn : Nat) (msg : Nat)
    (path : Option String) : Option String :=
  match introspect_handler registry main conn msg path with
  | some ([.send _ r], _) =>
    match r.type, r.body with
    | .method_return, [.str doc] => some doc
    | _, _ => none
  | _ => none

/-! ### The document as the interface description words it -/

/-- An `<arg type=... direction=.../>` element. -/
structure ArgElement where
  type : String
  direction : String
  deriving DecidableEq, Repr

/-- A `<method name=...>` block with its `<arg>` elements. -/
structure MethodElement where
  name : String
  args : List ArgElement
  deriving DecidableEq, Repr

/-- An `<interface name=...>` block with its `<method>` blocks. -/
structure InterfaceElement where
  name : String
  methods : List MethodElement
  deriving DecidableEq, Repr

/-- Concatenation of a list of text blocks. -/
def joinAll : List String → String
  | [] => ""
  | x :: xs => x ++ joinAll xs

def ArgElement.render (a : ArgElement) : String :=
  "      <arg type=\"" ++ a.type ++ "\" direction=\"" ++ a.direction ++ "\"/>\n"

def MethodElement.render (m : MethodElement) : String :=
  "    <method name=\"" ++ m.name ++ "\">\n" ++ joinAll (m.args.map ArgElement.render)
    ++ "    </method>\n"

def InterfaceElement.render (i : InterfaceElement) : String :=
  "  <interface name=\"" ++ i.name ++ "\">\n" ++ joinAll (i.methods.map MethodElement.render)
    ++ "  </interface>\n"

/-- A signature is listed when it is present and non-empty. -/
def signatureArg (sig : LVal) (direction : String) : List ArgElement :=
  match lua_tostring sig with
  | some s => if s ≠ "" then [⟨s, direction⟩] else []
  | none => []

/-- The method block of the handler entry `entry` registered under `name`. -/
def methodElementOf (name : String) (entry : LVal) : MethodElement :=
  ⟨name, signatureArg (rawgeti entry 1) "in" ++ signatureArg (rawgeti entry 2) "out"⟩

/-- A pair with its key as a string, when the key is one. -/
def stringPair (e : Key × LVal) : Option (String × LVal) :=
  match e.1 with
  | .str s => some (s, e.2)
  | _ => none

/-- The string-keyed pairs of a table, in traversal order. -/
def stringPairs (t : LVal) : List (String × LVal) :=
  (pairsOf t).filterMap stringPair

/-- One interface block per string-keyed interface of `node`, one method block per method. -/
def registeredInterfaces (node : LVal) : List InterfaceElement :=
  (stringPairs node).map (fun i =>
    ⟨i.1, (stringPairs i.2).map (fun m => methodElementOf m.1 m.2)⟩)

/-- The names of the immediate children recorded for `node`. -/
def childNames (node : LVal) : List String :=
  (stringPairs (rawgeti node 1)).map (fun c => c.1)

def nodeLine (c : String) : String := "  <node name=\"" ++ c ++ "\"/>\n"

/-- All keys of a table are strings. -/
def stringKeyed (t : LVal) : Bool :=
  t.isTable && (pairsOf t).all (fun e => e.1.isString)

/-- An interface table: string keys (method names) with tables (handler entries). -/
def interfaceTable (t : LVal) : Bool :=
  t.isTable && (pairsOf t).all (fun e => e.1.isString && e.2.isTable)

/-- The table registered at a path is well formed: every string-keyed value is an
interface table, and slot 1 is the table of child names. -/
def wellFormedNode (node : LVal) : Bool :=
  node.isTable && (stringPairs node).all (fun i => interfaceTable i.2)
    && stringKeyed (rawgeti node 1)

/-! ## Outgoing calls (`bus_call`, `call_callback`) -/

/-- Store `v` under `k` in an association list; storing nil removes the key. -/
def assocSet (kv : List (Key × LVal)) (k : Key) (v : LVal) : List (Key × LVal) :=
  let rest := kv.filter (fun e => !decide (e.1 = k))
  if v.isNil then rest else (k, v) :: rest

/-- Raw assignment `t[k] = v`. -/
def rawsetKey (t : LVal) (k : Key) (v : LVal) : LVal :=
  match t with
  | .table arr hash =>
    match k with
    | .int i =>
      if 1 ≤ i ∧ i ≤ arr.length then .table (arr.set (i - 1).toNat v) hash
      else .table arr (assocSet hash k v)
    | _ => .table arr (assocSet hash k v)
  | other => other

/-- The syntax checks of the bus library and of glib, which the code consumes. -/
structure Validators where
  g_dbus_is_name : String → Bool
  g_variant_is_object_path : String → Bool
  g_dbus_is_interface_name : String → Bool
  dbus_validate_bus_name : String → Bool
  dbus_validate_path : String → Bool
  dbus_validate_interface : String → Bool

/-- A `DBusError` after `dbus_error_init` and a possible assignment. -/
structure DBusError where
  name : Option String
  message : Option String

/-- Result of `dbus_connection_send_with_reply_and_block`: a reply and its address, or
NULL with the error set. -/
inductive BlockResult where
  | reply (r : DBusMessage)
  | failed (error : DBusError)

/-- `dbus_set_error_from_message`: the error name and the text of an error message. -/
def dbus_set_error_from_message (m : DBusMessage) : DBusError :=
  match m.type with
  | .error =>
    { name := m.error_name,
      message := match m.body with
        | (.str s) :: _ => some s
        | _ => none }
  | _ => { name := none, message := none }

def DBUS_TIMEOUT_USE_DEFAULT : Int := -1

/-- `luaL_checkstring`. -/
def luaL_checkstring (L : Stack) (i : Int) : Except String String :=
  match lua_tostring (lua_val L i) with
  | some s => .ok s
  | none => .error ("bad argument #" ++ toString i ++ " (string expected)")

/-- `luaL_argcheck`. -/
def luaL_argcheck (cond : Bool) (arg : Nat) (extramsg : String) : Except String Unit :=
  if cond then .ok () else .error ("bad argument #" ++ toString arg ++ " (" ++ extramsg ++ ")")

/-- `get_conn`: the connection stored in slot 1 of the table at `index`. -/
def get_conn (L : Stack) (index : Int) : Nat :=
  lua_touserdata (lua_rawgeti L index 1) (-1)

/-- The signature and timeout selected by argument 6 of `bus_call`. The timeout of an
options table is given in seconds and converted to milliseconds; `lua_isnumber` also
accepts a string that reads as a number (integer numerals here). -/
def call_options (L : Stack) : Option String × Int :=
  match lua_val L 6 with
  | .str s => (some s, DBUS_TIMEOUT_USE_DEFAULT)
  | .table arr hash =>
    let sig := lua_tostring (rawgeti (.table arr hash) 1)
    match rawget (.table arr hash) (.str "timeout") with
    | .num t => (sig, t * 1000)
    | .str n =>
      match n.toInt? with
      | some t => (sig, t * 1000)
      | none => (sig, DBUS_TIMEOUT_USE_DEFAULT)
    | _ => (sig, DBUS_TIMEOUT_USE_DEFAULT)
  | _ => (none, DBUS_TIMEOUT_USE_DEFAULT)

/-- What `bus_call` leaves behind. -/
structure CallResult where
  /-- Number of results returned to the caller, on top of `stack`. -/
  nresults : Nat
  /-- Stack of the calling state on return. -/
  stack : Stack
  /-- The Lua registry on return. -/
  registry : LVal
  /-- Stack of the task created in asynchronous mode. -/
  task : Stack
  /-- The message handed to the connection. -/
  sent : DBusMessage
  timeout : Int
  /-- The task whose `call_callback` is attached to the pending call, if any. -/
  notify : Option Nat

/-- The values a C function returns: the top `nresults` slots. -/
def CallResult.returned (r : CallResult) : List LVal :=
  r.stack.drop (r.stack.length - r.nresults)

/-- Copies of slots `first .. last` pushed in order (`lua_pushvalue` in a loop). -/
def push_copies (L : Stack) (first : Nat) (count : Nat) : Stack :=
  (List.range count).foldl
    (fun acc (j : Nat) => lua_push acc (lua_val acc ((first + j : Nat) : Int))) L

/-- Embedding of `bus_call`. `is_main` tells whether the caller is the main state
(`L == state->L`), `block` is what the blocking send yields for the message, `tid` the
task `lua_newthread` creates. A raised argument error is the `error` result. The
conversion in place of a number argument to a string by `luaL_checkstring` is not
tracked on the stack. -/
def bus_call (v : Validators) (registry : LVal) (L : Stack) (is_main : Bool)
    (block : DBusMessage → BlockResult) (tid : Nat) : Except String CallResult := do
  let conn := get_conn L 1
  let dest ← luaL_checkstring L 2
  let object_path ← luaL_checkstring L 3
  let interface_name ← luaL_checkstring L 4
  let method_name ← luaL_checkstring L 5
  let n_args := lua_gettop L
  let n_params := n_args - 6
  luaL_argcheck (v.g_dbus_is_name dest) 2 "Invalid bus name"
  luaL_argcheck (v.g_variant_is_object_path object_path) 3 "Invalid object path"
  luaL_argcheck (v.g_dbus_is_interface_name interface_name) 4 "Invalid interface name"
  let sig := (call_options L).1
  let timeout := (call_options L).2
  let msg := dbus_message_new_method_call dest object_path interface_name method_name
  if is_main then
    let msg := if n_params > 0 then range_to_msg msg L 7 (7 + n_params) sig else msg
    match block msg with
    | .failed error =>
      let L := lua_push L .nil
      let L := lua_pushstring L error.name
      let L := lua_pushstring L error.message
      return ⟨3, L, registry, [], msg, timeout, none⟩
    | .reply result =>
      let p := push_msg L result
      return ⟨p.2.toNat, p.1, registry, [], msg, timeout, none⟩
  else
    let n_params := n_params - 2
    let L1 := lua_push L (.thread tid)
    let L1 := lua_pushlightuserdata L1 conn
    let L1 := push_copies L1 2 (n_args - 1).toNat
    let T : Stack := L1.drop (L1.length - n_args.toNat)
    let L1 := lua_pop L1 n_args.toNat
    let registry := rawsetKey registry (.light tid) (lua_val L1 (-1))
    let L1 := lua_pop L1 1
    let msg := if n_params > 0 then range_to_msg msg L1 7 (7 + n_params) sig else msg
    return ⟨0, L1, registry, T, msg, timeout, some tid⟩

/-- What `call_callback` leaves behind. -/
structure CallbackResult where
  events : List Event
  /-- The Lua registry on return. -/
  registry : LVal
  /-- Stack of the task when it is resumed. -/
  task : Stack

/-- Embedding of `call_callback` for the task `tid` with stack `T`; `reply` is the stolen
reply at address `rp`. The block that would clear the registry entry of the task is
compiled out (`#if 0`), so the registry is returned as it was. -/
def call_callback (registry : LVal) (tid : Nat) (T : Stack) (rp : Nat) (reply : DBusMessage) :
    CallbackResult :=
  if reply.type = .method_return then
    let p := push_msg T reply
    ⟨[ed_resume tid p.1 (1 + p.2), .msg_unref rp], registry, p.1⟩
  else
    let error := dbus_set_error_from_message reply
    let T := lua_push T .nil
    let T := lua_pushstring T error.name
    let T := lua_pushstring T error.message
    ⟨[ed_resume tid T 4, .msg_unref rp], registry, T⟩

/-! ## Bridge state (`struct easydbus_state`) -/

/-- The external main loop record; its declaration is not part of the sources, the
fields are those the code reads and writes. -/
structure easydbus_external_mainloop where
  active : Bool
  watch_add : Int
  watch_remove : Int
  watch_toggle : Int
  timeout_add : Int
  timeout_remove : Int
  deriving DecidableEq, Repr

/-- A watch record. `enabled` is `dbus_watch_get_enabled(watch)`, `started` tells whether
the `ev_io` is active on the owned loop. -/
structure ev_io_wrap where
  watch : Nat
  conn : Nat
  ref : Int
  fd : Int
  events : Nat
  enabled : Bool
  started : Bool
  deriving DecidableEq, Repr

/-- A timer record. `enabled` is `dbus_timeout_get_enabled(timeout)`, `interval` is
`dbus_timeout_get_interval(timeout)` in milliseconds, `after` and `period` are the
values of the `ev_timer` in milliseconds, `started` tells whether it is active. -/
structure ev_timer_wrap where
  timeout : Nat
  conn : Nat
  ref : Int
  interval : Int
  after : Int
  period : Int
  enabled : Bool
  started : Bool
  deriving DecidableEq, Repr

/-- The bridge state with the registries in traversal order (`ios->next` first). -/
structure easydbus_state where
  in_mainloop : Bool
  ios : List ev_io_wrap
  timers : List ev_timer_wrap
  external_mainloop : easydbus_external_mainloop
  deriving DecidableEq, Repr

/-- Outcome of a library function: the raised error if any, the state and the registry
it leaves, and the callbacks the function itself invoked. -/
structure Outcome where
  error : Option String
  state : easydbus_state
  registry : LVal
  events : List Event

/-- Embedding of `easydbus_enable_ios`. -/
def easydbus_enable_ios (state : easydbus_state) : easydbus_state :=
  { state with
    ios := state.ios.map (fun io => if io.enabled then { io with started := true } else io),
    timers := state.timers.map (fun t =>
      if t.enabled then { t with after := t.interval, period := t.interval, started := true }
      else t) }

/-- Embedding of `easydbus_disable_ios`. -/
def easydbus_disable_ios (state : easydbus_state) : easydbus_state :=
  { state with
    ios := state.ios.map (fun io => { io with started := false }),
    timers := state.timers.map (fun t => { t with started := false }) }

/-- Embedding of `easydbus_mainloop`. `run` is what happens to the state and the registry
while `ev_run` blocks. The registries are enabled and disabled through the definitions of
`easydbus_enable_ios` and `easydbus_disable_ios` in `bus.c`, which take the state. -/
def easydbus_mainloop (state : easydbus_state) (registry : LVal)
    (run : easydbus_state × LVal → easydbus_state × LVal) : Outcome :=
  if state.in_mainloop || state.external_mainloop.active then
    ⟨some "Already in mainloop", state, registry, []⟩
  else
    let state := { state with in_mainloop := true }
    let state := easydbus_enable_ios state
    let r := run (state, registry)
    let state := { r.1 with in_mainloop := false }
    let state := easydbus_disable_ios state
    ⟨none, state, r.2, []⟩

/-! ## External reactor (`easydbus_set_watch_funcs`) -/

def LUA_REFNIL : Int := -1

/-- Largest integer key in use, at least 0. -/
def maxRef : List (Key × LVal) → Int
  | [] => 0
  | (.int i, _) :: rest => max i (maxRef rest)
  | _ :: rest => maxRef rest

/-- `luaL_ref` on the registry: stores `v` under a reference that is not in use and
returns it; nil is not stored. -/
def luaL_ref (registry : LVal) (v : LVal) : Int × LVal :=
  if v.isNil then (LUA_REFNIL, registry)
  else
    match registry with
    | .table arr hash =>
      let r := max (arr.length : Int) (maxRef hash) + 1
      (r, .table arr (assocSet hash (.int r) v))
    | other => (LUA_REFNIL, other)

/-- `luaL_unref` on the registry: frees a non-negative reference. -/
def luaL_unref (registry : LVal) (r : Int) : LVal :=
  if 0 ≤ r then rawsetKey registry (.int r) .nil else registry

/-- The type name of a value, as Lua prints it in its error messages. -/
def luaL_typename : LVal → String
  | .nil => "nil"
  | .bool _ => "boolean"
  | .num _ => "number"
  | .str _ => "string"
  | .light _ => "userdata"
  | .func _ => "function"
  | .cfunc _ => "function"
  | .thread _ => "thread"
  | .userdata _ => "userdata"
  | .table _ _ => "table"

/-- `lua_call(L, 1, 0)` on the value `fn` with the argument `arg`: the call made, and the
error Lua raises, instead of running anything, when `fn` is not a function. The error
leaves the C function that made the call. -/
def lua_call (fn arg : LVal) : List Event × Option String :=
  ([.call fn [arg]],
    if fn.isFunction then none else some ("attempt to call a " ++ luaL_typename fn ++ " value"))

/-- A loop that calls `fn` on each handle in turn: the calls made up to the first one
that raises, and the error raised. -/
def call_each (fn : LVal) : List LVal → List Event × Option String
  | [] => ([], none)
  | h :: rest =>
    match (lua_call fn h).2 with
    | some e => ((lua_call fn h).1, some e)
    | none => ((lua_call fn h).1 ++ (call_each fn rest).1, (call_each fn rest).2)

/-- Embedding of `easydbus_enable_external_watches`: the calls made, in order, and the
error raised by the first call of a value that is not a function, which ends the replay. -/
def easydbus_enable_external_watches (registry : LVal) (state : easydbus_state) :
    List Event × Option String :=
  let ext := state.external_mainloop
  let add := rawgeti registry ext.watch_add
  let tadd := rawgeti registry ext.timeout_add
  let a := call_each add (state.ios.map (fun io => rawgeti registry io.ref))
  match a.2 with
  | some e => (a.1, some e)
  | none =>
    let b := call_each tadd (state.timers.map (fun t => rawgeti registry t.ref))
    (a.1 ++ b.1, b.2)

/-- Embedding of `easydbus_set_watch_funcs`, called with the arguments `L`. -/
def easydbus_set_watch_funcs (L : Stack) (state : easydbus_state) (registry : LVal) : Outcome :=
  let ext := state.external_mainloop
  if lua_gettop L < 1 && ext.active then
    let registry := luaL_unref registry ext.watch_add
    let registry := luaL_unref registry ext.watch_remove
    let registry := luaL_unref registry ext.watch_toggle
    let ext := { ext with watch_add := -1, watch_remove := -1, watch_toggle := -1,
                          active := false }
    ⟨none, { state with external_mainloop := ext }, registry, []⟩
  else if state.in_mainloop || ext.active then
    ⟨some "Already in mainloop", state, registry, []⟩
  else if !(lua_val L 1).isFunction then
    ⟨some "bad argument #1 (function expected)", state, registry, []⟩
  else if !(lua_val L 2).isFunction then
    ⟨some "bad argument #2 (function expected)", state, registry, []⟩
  else if !(lua_val L 3).isFunction then
    ⟨some "bad argument #3 (function expected)", state, registry, []⟩
  else
    let r1 := luaL_ref registry (lua_val L (-1))
    let L := lua_pop L 1
    let r2 := luaL_ref r1.2 (lua_val L (-1))
    let L := lua_pop L 1
    let r3 := luaL_ref r2.2 (lua_val L (-1))
    let ext := { ext with active := true, watch_toggle := r1.1, watch_remove := r2.1,
                          watch_add := r3.1 }
    let state := { state with external_mainloop := ext }
    let replay := easydbus_enable_external_watches r3.2 state
    ⟨replay.2, state, r3.2, replay.1⟩

/-- The stack of the task on a full match, below the values pushed for the handler. -/
def lookupStack (registry : LVal) (connection : Nat) (m : DBusMessage) : Stack :=
  let H := handlersOf registry connection
  let Hp := rawget H (strKey m.path)
  let Hpi := rawget Hp (strKey m.interface)
  [rawget registry (.light connection), H, Hp, Hpi, rawget Hpi (strKey m.member)]

/-- The table registered at `/obj`: no children, and two interfaces, `org.example.I` with
the method `Echo` (input `s`, output `i`, one bound argument) and `org.example.J` with the
method `Ping` (no signatures). -/
def sampleNode : LVal :=
  .table [.table [] []]
    [(.str "org.example.I", .table []
      [(.str "Echo", .table [.str "s", .str "i", .func 10, .str "bound"] [])]),
     (.str "org.example.J", .table []
      [(.str "Ping", .table [.nil, .nil, .func 11] [])])]

/-- A registry with one connection (address 1), the handlers of `sampleNode` at `/obj`
and one signal handler. -/
def sampleRegistry : LVal :=
  .table [] [(.light 1, .table
    [.light 1,
     .table [] [(.str "/obj", sampleNode)],
     .table [] [(.str "/obj:org.example.I:Changed", .table [.func 20, .num 5] [])]] [])]

def sampleCall (path interface member : String) : DBusMessage :=
  { type := .method_call, path := some path, interface := some interface,
    member := some member, body := [.str "hello"] }

def sampleSignal : DBusMessage :=
  { type := .signal, path := some "/obj", interface := some "org.example.I",
    member := some "Changed", body := [.str "x"] }

/-- The document as the interface description words it: the fixed header, the registered
interface blocks, the two standard interface blocks, one line per child, the closing tag. -/
def specDocument (interfaces : List InterfaceElement) (children : List String) : String :=
  introspect_header ++ joinAll (interfaces.map InterfaceElement.render) ++ introspect_standard
    ++ joinAll (children.map nodeLine) ++ "</node>\n"

def sampleValidators : Validators :=
  { g_dbus_is_name := fun _ => true, g_variant_is_object_path := fun _ => true,
    g_dbus_is_interface_name := fun _ => true, dbus_validate_bus_name := fun _ => true,
    dbus_validate_path := fun _ => true, dbus_validate_interface := fun _ => true }

/-- Arguments of a call with one parameter, a callback and its argument. -/
def sampleArgs : Stack :=
  [.table [.light 1] [], .str "org.example.Peer", .str "/obj", .str "org.example.I",
    .str "Echo", .str "s", .str "hello", .func 30, .thread 3]

/-- A blocking send that times out. -/
def sampleBlock : DBusMessage → BlockResult :=
  fun _ => .failed ⟨some "org.freedesktop.DBus.Error.NoReply", some "timed out"⟩

/-- An error reply to the sample call. -/
def sampleErrorReply : DBusMessage :=
  { type := .error, error_name := some "org.freedesktop.DBus.Error.NoReply",
    body := [.str "timed out"] }

/-- A method return for the sample call. -/
def sampleReturn : DBusMessage := { type := .method_return, body := [.num 42] }

/-- The registry and the task stack the sample call leaves off the main state. -/
def sampleAsync : LVal × Stack :=
  match bus_call sampleValidators sampleRegistry sampleArgs false sampleBlock 7 with
  | .ok r => (r.registry, r.task)
  | .error _ => (.nil, [])

/-- A bridge state inside a run phase, with one started watch and one stopped timer. -/
def sampleRunning : easydbus_state :=
  { in_mainloop := true,
    ios := [⟨100, 1, 1, 5, 1, true, true⟩],
    timers := [⟨200, 1, 2, 1000, 1000, 1000, false, false⟩],
    external_mainloop := ⟨false, -1, -1, -1, -1, -1⟩ }

/-- A bridge state outside any run phase, with one watch and one timer. -/
def sampleIdle : easydbus_state :=
  { in_mainloop := false,
    ios := [⟨100, 1, 1, 5, 1, true, false⟩],
    timers := [⟨200, 1, 2, 1000, 1000, 1000, false, false⟩],
    external_mainloop := ⟨false, -1, -1, -1, -1, -1⟩ }

/-- A registry holding the handles of the sample watch and timer under references 1 and 2. -/
def sampleRefs : LVal :=
  .table [] [(.int 1, .userdata 100), (.int 2, .userdata 200)]

/-! ## Watches and timeouts of the bus library -/

def DBUS_WATCH_READABLE : Nat := 1
def DBUS_WATCH_WRITABLE : Nat := 2
def EV_READ : Nat := 1
def EV_WRITE : Nat := 2

/-- Embedding of `flags_dbus_to_ev`. -/
def flags_dbus_to_ev (flags : Nat) : Nat :=
  let events := 0
  let events := if flags &&& DBUS_WATCH_READABLE ≠ 0 then events ||| EV_READ else events
  let events := if flags &&& DBUS_WATCH_WRITABLE ≠ 0 then events ||| EV_WRITE else events
  events

/-- Embedding of `flags_ev_to_dbus`. -/
def flags_ev_to_dbus (events : Nat) : Nat :=
  let flags := 0
  let flags := if events &&& EV_READ ≠ 0 then flags ||| DBUS_WATCH_READABLE else flags
  let flags := if events &&& EV_WRITE ≠ 0 then flags ||| DBUS_WATCH_WRITABLE else flags
  flags

/-- A `DBusWatch` as the callbacks read it: its address, `dbus_watch_get_unix_fd`,
`dbus_watch_get_flags` and `dbus_watch_get_enabled`. -/
structure DBusWatch where
  ptr : Nat
  fd : Int
  flags : Nat
  enabled : Bool
  deriving DecidableEq, Repr

/-- A `DBusTimeout` as the callbacks read it: its address, `dbus_timeout_get_interval` and
`dbus_timeout_get_enabled`. -/
structure DBusTimeout where
  ptr : Nat
  interval : Int
  enabled : Bool
  deriving DecidableEq, Repr

/-- Embedding of `ev_io_wrap_add`: the record, allocated as the userdata `u`, is linked
after the last record and referenced from the registry. -/
def ev_io_wrap_add (state : easydbus_state) (registry : LVal) (u : Nat) (io : ev_io_wrap) :
    easydbus_state × LVal × ev_io_wrap :=
  let r := luaL_ref registry (.userdata u)
  let io := { io with ref := r.1 }
  ({ state with ios := state.ios ++ [io] }, r.2, io)

/-- Embedding of `ev_io_wrap_remove`: the record of the watch at `watch` is unlinked and
its reference freed. A watch has one record, the one kept as its data. -/
def ev_io_wrap_remove (state : easydbus_state) (registry : LVal) (io : ev_io_wrap) :
    easydbus_state × LVal :=
  ({ state with ios := state.ios.filter (fun x => !decide (x.watch = io.watch)) },
    luaL_unref registry io.ref)

/-- Embedding of `ev_timer_wrap_add`. -/
def ev_timer_wrap_add (state : easydbus_state) (registry : LVal) (u : Nat)
    (timer : ev_timer_wrap) : easydbus_state × LVal × ev_timer_wrap :=
  let r := luaL_ref registry (.userdata u)
  let timer := { timer with ref := r.1 }
  ({ state with timers := state.timers ++ [timer] }, r.2, timer)

/-- Embedding of `ev_timer_wrap_remove`. -/
def ev_timer_wrap_remove (state : easydbus_state) (registry : LVal) (timer : ev_timer_wrap) :
    easydbus_state × LVal :=
  ({ state with timers := state.timers.filter (fun x => !decide (x.timeout = timer.timeout)) },
    luaL_unref registry timer.ref)

/-- `dbus_watch_get_data`: the record kept for a watch. -/
def dbus_watch_get_data (state : easydbus_state) (watch : DBusWatch) : Option ev_io_wrap :=
  state.ios.find? (fun x => decide (x.watch = watch.ptr))

/-- `dbus_timeout_get_data`: the record kept for a timeout. -/
def dbus_timeout_get_data (state : easydbus_state) (timeout : DBusTimeout) :
    Option ev_timer_wrap :=
  state.timers.find? (fun x => decide (x.timeout = timeout.ptr))

/-- The call of an external callback held under `ref` with the handle held under
`handle`, made only while the external mode is active, and the error it raises when the
value held under `ref` is not a function. -/
def external_call (registry : LVal) (ext : easydbus_external_mainloop) (ref handle : Int) :
    List Event × Option String :=
  if ext.active then lua_call (rawgeti registry ref) (rawgeti registry handle) else ([], none)

/-- Embedding of `watch_add` for the connection `conn`; `u` is the userdata allocated for
the record. The external call is the last action, so an error it raises leaves the
record linked. -/
def watch_add (state : easydbus_state) (registry : LVal) (conn : Nat) (watch : DBusWatch)
    (u : Nat) : Outcome :=
  let ext := state.external_mainloop
  let r := ev_io_wrap_add state registry u
    { watch := watch.ptr, conn := conn, ref := 0, fd := watch.fd,
      events := flags_dbus_to_ev watch.flags, enabled := watch.enabled,
      started := state.in_mainloop && watch.enabled }
  let c := external_call r.2.1 ext ext.watch_add r.2.2.ref
  ⟨c.2, r.1, r.2.1, c.1⟩

/-- What a remove callback leaves: the outcome and the unlinked record as it was left. -/
structure Removal (α : Type) where
  outcome : Outcome
  removed : Option α

/-- Embedding of `watch_remove`. The watcher of the record is stopped only inside a run
phase. The external call comes before `ev_io_wrap_remove`: when it raises, the record,
stopped or not, stays linked and its reference is kept. Without a record for the watch
nothing is done. -/
def watch_remove (state : easydbus_state) (registry : LVal) (watch : DBusWatch) :
    Removal ev_io_wrap :=
  match dbus_watch_get_data state watch with
  | none => ⟨⟨none, state, registry, []⟩, none⟩
  | some io_wrap =>
    let ext := state.external_mainloop
    let io := if state.in_mainloop then { io_wrap with started := false } else io_wrap
    let c := external_call registry ext ext.watch_remove io_wrap.ref
    match c.2 with
    | some e =>
      let ios := state.ios.map (fun x =>
        if state.in_mainloop && decide (x.watch = io_wrap.watch) then
          { x with started := false }
        else x)
      ⟨⟨some e, { state with ios := ios }, registry, c.1⟩, none⟩
    | none =>
      let r := ev_io_wrap_remove state registry io_wrap
      ⟨⟨none, r.1, r.2, c.1⟩, some io⟩

/-- Embedding of `watch_toggle`; `watch.enabled` is the flag after the toggle. The
external call comes first: when it raises, the watcher is neither started nor stopped. -/
def watch_toggle (state : easydbus_state) (registry : LVal) (watch : DBusWatch) : Outcome :=
  match dbus_watch_get_data state watch with
  | none => ⟨none, state, registry, []⟩
  | some io_wrap =>
    let ext := state.external_mainloop
    let c := external_call registry ext ext.watch_toggle io_wrap.ref
    let ios := state.ios.map (fun x =>
      if x.watch = watch.ptr then
        { x with enabled := watch.enabled,
                 started := if state.in_mainloop && c.2.isNone then watch.enabled
                            else x.started }
      else x)
    ⟨c.2, { state with ios := ios }, registry, c.1⟩

/-- Embedding of `timeout_add`. The external call is the last action, so an error it
raises leaves the record linked. -/
def timeout_add (state : easydbus_state) (registry : LVal) (conn : Nat)
    (timeout : DBusTimeout) (u : Nat) : Outcome :=
  let ext := state.external_mainloop
  let r := ev_timer_wrap_add state registry u
    { timeout := timeout.ptr, conn := conn, ref := 0, interval := timeout.interval,
      after := timeout.interval, period := timeout.interval, enabled := timeout.enabled,
      started := state.in_mainloop && timeout.enabled }
  let c := external_call r.2.1 ext ext.timeout_add r.2.2.ref
  ⟨c.2, r.1, r.2.1, c.1⟩

/-- Embedding of `timeout_remove`. The external call comes before `ev_timer_wrap_remove`:
when it raises, the record, stopped or not, stays linked and its reference is kept. -/
def timeout_remove (state : easydbus_state) (registry : LVal) (timeout : DBusTimeout) :
    Removal ev_timer_wrap :=
  match dbus_timeout_get_data state timeout with
  | none => ⟨⟨none, state, registry, []⟩, none⟩
  | some timer_wrap =>
    let ext := state.external_mainloop
    let timer := if state.in_mainloop then { timer_wrap with started := false } else timer_wrap
    let c := external_call registry ext ext.timeout_remove timer_wrap.ref
    match c.2 with
    | some e =>
      let timers := state.timers.map (fun x =>
        if state.in_mainloop && decide (x.timeout = timer_wrap.timeout) then
          { x with started := false }
        else x)
      ⟨⟨some e, { state with timers := timers }, registry, c.1⟩, none⟩
    | none =>
      let r := ev_timer_wrap_remove state registry timer_wrap
      ⟨⟨none, r.1, r.2, c.1⟩, some timer⟩

/-- Embedding of `timeout_toggle`; `timeout.enabled` is the flag after the toggle. The
external call comes first: when it raises, the timer is neither started nor stopped. -/
def timeout_toggle (state : easydbus_state) (registry : LVal) (timeout : DBusTimeout) :
    Outcome :=
  match dbus_timeout_get_data state timeout with
  | none => ⟨none, state, registry, []⟩
  | some timer_wrap =>
    let ext := state.external_mainloop
    let c := external_call registry ext ext.watch_toggle timer_wrap.ref
    let timers := state.timers.map (fun x =>
      if x.timeout = timeout.ptr then
        { x with enabled := timeout.enabled, interval := timeout.interval,
                 started := if state.in_mainloop && c.2.isNone then timeout.enabled
                            else x.started }
      else x)
    ⟨c.2, { state with timers := timers }, registry, c.1⟩

/-- Embedding of `easydbus_disable_external_watches`: the calls made, in order, and the
error raised by the first call of a value that is not a function, which ends the replay. -/
def easydbus_disable_external_watches (registry : LVal) (state : easydbus_state) :
    List Event × Option String :=
  let ext := state.external_mainloop
  let remove := rawgeti registry ext.watch_remove
  let tremove := rawgeti registry ext.timeout_remove
  let a := call_each remove (state.ios.map (fun io => rawgeti registry io.ref))
  match a.2 with
  | some e => (a.1, some e)
  | none =>
    let b := call_each tremove (state.timers.map (fun t => rawgeti registry t.ref))
    (a.1 ++ b.1, b.2)

/-! ## Signals sent by the application (`bus_emit`) -/

/-- `dbus_message_new_signal`. -/
def dbus_message_new_signal (object_path interface_name signal_name : String) : DBusMessage :=
  { type := .signal, path := some object_path, interface := some interface_name,
    member := some signal_name }

/-- What `bus_emit` leaves behind. -/
structure EmitResult where
  /-- Number of results returned to the caller, on top of `stack`. -/
  nresults : Nat
  stack : Stack
  /-- The messages handed to the connection, in order. -/
  events : List Event
  /-- The names passed to `dbus_message_set_destination`, in order. -/
  destinations : List String

/-- The values `bus_emit` returns: the top `nresults` slots. -/
def EmitResult.returned (r : EmitResult) : List LVal :=
  r.stack.drop (r.stack.length - r.nresults)

/-- Embedding of `bus_emit`. `send_ok` is what `dbus_connection_send` returns. A raised
argument error is the `error` result. -/
def bus_emit (v : Validators) (L : Stack) (send_ok : Bool) : Except String EmitResult := do
  let conn := get_conn L 1
  let listener := lua_tostring (lua_val L 2)
  let object_path ← luaL_checkstring L 3
  let interface_name ← luaL_checkstring L 4
  let signal_name ← luaL_checkstring L 5
  let sig := lua_tostring (lua_val L 6)
  match listener with
  | some l => luaL_argcheck (v.dbus_validate_bus_name l) 2 "Invalid listener name"
  | none => pure ()
  luaL_argcheck (v.dbus_validate_path object_path) 3 "Invalid object path"
  luaL_argcheck (v.dbus_validate_interface interface_name) 4 "Invalid interface name"
  let msg := dbus_message_new_signal object_path interface_name signal_name
  let msg := match listener with
    | some l => { msg with destination := some l }
    | none => msg
  let destinations := match listener with
    | some l => [l]
    | none => []
  let msg := range_to_msg msg L 7 (lua_gettop L + 1) sig
  if !send_ok then
    let L := lua_push L .nil
    let L := lua_push L (.str "Out of memory")
    return ⟨2, L, [.send conn msg], destinations⟩
  else
    let L := lua_push L (.bool true)
    return ⟨1, L, [.send conn msg], destinations⟩

/-! ## Opening a connection (`new_conn`) -/

inductive DBusBusType where
  | SESSION
  | SYSTEM
  deriving DecidableEq, Repr

/-- Calls `new_conn` makes into the bus library on a connection. -/
inductive ConnSetup where
  | unref (conn : Nat)
  | register_fallback (conn : Nat) (path : String)
  | add_filter (conn : Nat) (function : String)
  | set_exit_on_disconnect (conn : Nat) (exit : Bool)
  | set_watch_functions (conn : Nat)
  | set_timeout_functions (conn : Nat)
  deriving DecidableEq, Repr

/-- What `new_conn` leaves behind. -/
structure NewConn where
  /-- Stack of the caller on return; the result is its top slot. -/
  stack : Stack
  /-- The Lua registry on return. -/
  registry : LVal
  /-- Calls made into the bus library, in order. -/
  setup : List ConnSetup

/-- The value `new_conn` returns: the top slot. -/
def NewConn.returned (r : NewConn) : LVal := lua_val r.stack (-1)

/-- The registration table `new_conn` builds for a connection: the connection, the
method handlers and the signal handlers, the two tables also under their names. The
registry refers to this table, so it holds the table as finally filled. -/
def connection_table (conn : Nat) : LVal :=
  .table [.light conn, .table [] [], .table [] []]
    [(.str "handlers", .table [] []), (.str "signals", .table [] [])]

/-- Embedding of `new_conn`; `bus_get` is `dbus_bus_get`, which hands out the shared
connection of a bus type. -/
def new_conn (bus_get : DBusBusType → Nat) (registry : LVal) (L : Stack)
    (bus_type : DBusBusType) : NewConn :=
  let conn := bus_get bus_type
  let L := lua_pushlightuserdata L conn
  let L := lua_rawget_registry L registry
  if !lua_isnil L (-1) then
    ⟨L, registry, [.unref conn]⟩
  else
    let setup := [ConnSetup.register_fallback conn "/",
      .add_filter conn "signal_callback", .add_filter conn "standard_methods_callback",
      .set_exit_on_disconnect conn false, .set_watch_functions conn,
      .set_timeout_functions conn]
    let L := lua_push L (connection_table conn)
    let registry := rawsetKey registry (.light conn) (lua_val L (-1))
    ⟨L, registry, setup⟩

/-! ## Reference count of the inbound message -/

/-- Net change of the reference count of the message at `msg` over the events. -/
def refDelta (msg : Nat) : List Event → Int
  | [] => 0
  | .msg_ref m :: rest => (if m = msg then 1 else 0) + refDelta msg rest
  | .msg_unref m :: rest => (if m = msg then -1 else 0) + refDelta msg rest
  | _ :: rest => refDelta msg rest

/-- No release of the message at `msg` comes before the first send: every `msg_unref` of
it is preceded by a `send`. -/
def releaseAfterSend (msg : Nat) : List Event → Bool
  | [] => true
  | .send _ _ :: _ => true
  | .msg_unref m :: rest => !decide (m = msg) && releaseAfterSend msg rest
  | _ :: rest => releaseAfterSend msg rest

/-- The release of the message at `msg` comes before every send. -/
def releaseBeforeSend (msg : Nat) : List Event → Bool
  | [] => false
  | .send _ _ :: _ => false
  | .msg_unref m :: rest => decide (m = msg) || releaseBeforeSend msg rest
  | _ :: rest => releaseBeforeSend msg rest

/-! ## The registration invariant of the owned reactor -/

/-- Every record is started iff a run phase is active and the record is enabled. -/
def startedIffEnabled (s : easydbus_state) : Prop :=
  (∀ io ∈ s.ios, io.started = (s.in_mainloop && io.enabled)) ∧
  (∀ t ∈ s.timers, t.started = (s.in_mainloop && t.enabled))

/-- A record of the watch registry without its reactor status. -/
def ev_io_wrap.identity (io : ev_io_wrap) : Nat × Nat × Int × Int × Nat × Bool :=
  (io.watch, io.conn, io.ref, io.fd, io.events, io.enabled)

/-- A record of the timer registry without its reactor status. -/
def ev_timer_wrap.identity (t : ev_timer_wrap) : Nat × Nat × Int × Int × Bool :=
  (t.timeout, t.conn, t.ref, t.interval, t.enabled)

/-- The activation of the external mode with three callbacks on the idle sample state,
which holds one watch and one timer. -/
def sampleActivation : Outcome :=
  easydbus_set_watch_funcs [.func 1, .func 2, .func 3] sampleIdle sampleRefs

/-- The deactivation of the external mode after `sampleActivation`. -/
def sampleDeactivation : Outcome :=
  easydbus_set_watch_funcs [] sampleActivation.state sampleActivation.registry

/-- A watch and a timeout the bus library adds after `sampleActivation`. -/
def sampleWatch : DBusWatch := { ptr := 101, fd := 6, flags := 1, enabled := true }

def sampleTimeout : DBusTimeout := { ptr := 201, interval := 500, enabled := true }

/-- Arguments of a broadcast of the signal `Changed` with one value. -/
def sampleEmit (listener : LVal) : Stack :=
  [.table [.light 1] [], listener, .str "/obj", .str "org.example.I", .str "Changed",
    .str "s", .str "x"]

/-- A bus library handing out connection 1 for the session bus and 2 for the system bus. -/
def sampleBusGet : DBusBusType → Nat
  | .SESSION => 1
  | .SYSTEM => 2

/-- The invocation record of the sample call (connection 1, message 99, output `i`). -/
def sampleInvocation : LVal := .table [.light 1, .light 99, .str "i"] []

/-- A chunk of `n` one-byte characters. -/
def chunkOf (n : Nat) : String := String.mk (List.replicate n 'a')

/-! ## The registries as circular doubly-linked lists -/

/-- The link fields of a record. -/
structure Links where
  prev : Nat
  next : Nat
  deriving DecidableEq, Repr

/-- The records of one registry by address; `none` is memory that holds no record. -/
abbrev LinkHeap := Nat → Option Links

/-- The assignment `p->next = v`; undefined when `p` holds no record. -/
def set_next (h : LinkHeap) (p v : Nat) : Option LinkHeap :=
  match h p with
  | some n => some (Function.update h p (some { n with next := v }))
  | none => none

/-- The assignment `p->prev = v`; undefined when `p` holds no record. -/
def set_prev (h : LinkHeap) (p v : Nat) : Option LinkHeap :=
  match h p with
  | some n => some (Function.update h p (some { n with prev := v }))
  | none => none

/-- The link statements shared by `ev_io_wrap_add` and `ev_timer_wrap_add`: `head` is the
sentinel (`state->ios` or `state->timers`), `x` the new userdata. -/
def wrap_add_links (h : LinkHeap) (head x : Nat) : Option LinkHeap :=
  match h head with
  | none => none
  | some s =>
    let last := s.prev
    match set_next h last x with
    | none => none
    | some h1 =>
      match set_prev h1 head x with
      | none => none
      | some h2 => some (Function.update h2 x (some { prev := last, next := head }))

/-- The link statements shared by `ev_io_wrap_remove` and `ev_timer_wrap_remove`:
`x->next->prev = x->prev; x->prev->next = x->next`. -/
def wrap_remove_links (h : LinkHeap) (x : Nat) : Option LinkHeap :=
  match h x with
  | none => none
  | some n =>
    match set_prev h n.next n.prev with
    | none => none
    | some h1 =>
      match h1 x with
      | none => none
      | some n1 => set_next h1 n1.prev n1.next

/-- Pointer view of `ev_io_wrap_add`. -/
def ev_io_wrap_add_links (h : LinkHeap) (ios io : Nat) : Option LinkHeap :=
  wrap_add_links h ios io

/-- Pointer view of `ev_io_wrap_remove`. -/
def ev_io_wrap_remove_links (h : LinkHeap) (io : Nat) : Option LinkHeap :=
  wrap_remove_links h io

/-- Pointer view of `ev_timer_wrap_add`. -/
def ev_timer_wrap_add_links (h : LinkHeap) (timers timer : Nat) : Option LinkHeap :=
  wrap_add_links h timers timer

/-- Pointer view of `ev_timer_wrap_remove`. -/
def ev_timer_wrap_remove_links (h : LinkHeap) (timer : Nat) : Option LinkHeap :=
  wrap_remove_links h timer

/-- The loop `for (x = head->next; x != head; x = x->next)`: the records visited from
`cur` on, with `fuel` bounding the number of steps. -/
def traverse (h : LinkHeap) (head : Nat) : Nat → Nat → Option (List Nat)
  | 0, _ => none
  | fuel + 1, cur =>
    if cur = head then some []
    else
      match h cur with
      | some n => (traverse h head fuel n.next).map (fun rest => cur :: rest)
      | none => none

/-- The records of a registry in traversal order. -/
def members (h : LinkHeap) (head : Nat) (fuel : Nat) : Option (List Nat) :=
  match h head with
  | some s => traverse h head fuel s.next
  | none => none

def nextOf (h : LinkHeap) (p : Nat) : Option Nat := (h p).map Links.next

def prevOf (h : LinkHeap) (p : Nat) : Option Nat := (h p).map Links.prev

/-- The records `xs` are linked in this order between `a` and `b`, in both directions. -/
def Path (h : LinkHeap) : Nat → List Nat → Nat → Prop
  | a, [], b => nextOf h a = some b ∧ prevOf h b = some a
  | a, x :: xs, b => nextOf h a = some x ∧ prevOf h x = some a ∧ Path h x xs b

/-- The heap holds a well-formed circular list with sentinel `head` and records `xs`. -/
def IsRegistry (h : LinkHeap) (head : Nat) (xs : List Nat) : Prop :=
  (head :: xs).Nodup ∧ Path h head xs head

/-- Last element of `a :: xs`. -/
def lastOf : Nat → List Nat → Nat
  | a, [] => a
  | _, x :: xs => lastOf x xs

/-- The two registries as `luaopen_easydbus_core` leaves them. -/
structure Registries where
  /-- The sentinel `state->ios`. -/
  ios : Nat
  io_heap : LinkHeap
  /-- The pointer `state->timers`. -/
  timers : Nat
  timer_heap : LinkHeap

/-- Embedding of the registry part of `luaopen_easydbus_core`: the watch sentinel is
allocated at `a` and linked to itself; `state->timers` is not assigned, it holds the
value `t` found in the fresh state block, and no timer record is allocated. -/
def luaopen_registries (a t : Nat) : Registries :=
  { ios := a,
    io_heap := Function.update (fun _ => none) a (some { prev := a, next := a }),
    timers := t,
    timer_heap := fun _ => none }

/-! ## Paths whose introspection document does not fit the buffer -/

/-- A node without children and with one interface, without methods, whose name has 9000
bytes. -/
def longInterfaceNode : LVal := .table [.table [] []] [(.str (chunkOf 9000), .table [] [])]

/-- A registry with one connection (address 1) holding `longInterfaceNode` at `/big`. -/
def longInterfaceRegistry : LVal :=
  .table [] [(.light 1, .table
    [.light 1, .table [] [(.str "/big", longInterfaceNode)], .table [] []] [])]

/-- A node without interfaces and with one recorded child whose name has 9000 bytes. -/
def longChildNode : LVal := .table [.table [] [(.str (chunkOf 9000), .bool true)]] []

/-- A registry with one connection (address 1) holding `longChildNode` at `/parent`. -/
def longChildRegistry : LVal :=
  .table [] [(.light 1, .table
    [.light 1, .table [] [(.str "/parent", longChildNode)], .table [] []] [])]

/-! ## Theorems -/

set_option maxRecDepth 100000

theorem lua_val_push_top (s : Stack) (v : LVal) : lua_val (lua_push s v) (-1) = v := by
  simp [lua_val, lua_at, absidx, lua_push]

theorem lua_pop_push (s : Stack) (v : LVal) : lua_pop (lua_push s v) 1 = s := by
  simp [lua_pop, lua_push]

theorem lua_val_push_second (s : Stack) (v w : LVal) :
    lua_val (lua_push (lua_push s v) w) (-2) = v := by
  have h : ((s.length : Int) + 2 + 1 + -2).toNat - 1 = s.length := by omega
  have h2 : (3 : Int) ≤ (s.length : Int) + 2 + 1 := by omega
  simp [lua_val, lua_at, absidx, lua_push, h, h2, List.getElem_append_right]

theorem lua_rawget_push (s : Stack) (t k : LVal) :
    lua_rawget (lua_push (lua_push s t) k) (-2) = lua_push (lua_push s t) (rawget t k) := by
  simp [lua_rawget, lua_val_push_second, lua_val_push_top, lua_pop_push]

theorem lua_rawget_registry_push (s : Stack) (registry k : LVal) :
    lua_rawget_registry (lua_push s k) registry = lua_push s (rawget registry k) := by
  simp [lua_rawget_registry, lua_val_push_top, lua_pop_push]

theorem lua_rawgeti_push (s : Stack) (t : LVal) (n : Int) :
    lua_rawgeti (lua_push s t) (-1) n = lua_push (lua_push s t) (rawgeti t n) := by
  simp [lua_rawgeti, lua_val_push_top]

theorem lua_istable_push (s : Stack) (v : LVal) :
    lua_istable (lua_push s v) (-1) = v.isTable := by
  simp [lua_istable, lua_val_push_top]

/-- The three lookups of `interface_method_call`, with the stack arithmetic carried out. -/
theorem interface_method_call_lookups (registry : LVal) (main : Stack)
    (tid connection msg : Nat) (m : DBusMessage) (hm : m.type = .method_call) :
    let H := handlersOf registry connection
    let Hp := rawget H (strKey m.path)
    let Hpi := rawget Hp (strKey m.interface)
    let Hpim := rawget Hpi (strKey m.member)
    let d := interface_method_call registry main tid connection msg m
    (Hp.isTable = false →
      d.result = .HANDLED ∧ d.events = [.send connection
        (dbus_message_new_error msg DBUS_ERROR_UNKNOWN_OBJECT
          ("No such object path '" ++ cstr m.path ++ "'"))]) ∧
    (Hp.isTable = true → Hpi.isTable = false →
      d.result = .HANDLED ∧ d.events = [.send connection
        (dbus_message_new_error msg DBUS_ERROR_UNKNOWN_INTERFACE
          ("No such interface '" ++ cstr m.interface ++ "' at object path '"
            ++ cstr m.path ++ "'"))]) ∧
    (Hp.isTable = true → Hpi.isTable = true → Hpim.isTable = false →
      d.result = .HANDLED ∧ d.events = [.send connection
        (dbus_message_new_error msg DBUS_ERROR_UNKNOWN_METHOD
          ("No such method '" ++ cstr m.member ++ "' in interface '" ++ cstr m.interface
            ++ "' at object path '" ++ cstr m.path ++ "'"))]) := by
  intro H Hp Hpi Hpim d
  refine ⟨fun h1 => ?_, fun h1 h2 => ?_, fun h1 h2 h3 => ?_⟩
  all_goals
    simp only [d, interface_method_call, hm, lua_pushlightuserdata, lua_pushstring,
      lua_rawget_registry_push, lua_rawgeti_push, lua_rawget_push, lua_istable_push]
    simp_all [H, Hp, Hpi, Hpim, handlersOf]

theorem lua_val_append_pos (s t : Stack) (i : Nat) (h1 : 1 ≤ i) (h2 : i ≤ s.length) :
    lua_val (s ++ t) (i : Int) = lua_val s (i : Int) := by
  have hpos : (0 : Int) < (i : Int) := by omega
  have hone : (1 : Int) ≤ (i : Int) := by omega
  have hidx : ((i : Int) - 1).toNat = i - 1 := by omega
  have hlt : i - 1 < s.length := by omega
  simp [lua_val, lua_at, absidx, hpos, hone, hidx, List.getElem?_append_left hlt]

theorem unpack_table_eq (s : Stack) (ti : Nat) (h1 : 1 ≤ ti) (h2 : ti ≤ s.length)
    (start stop : Int) :
    unpack_table s (ti : Int) start stop =
      s ++ (List.range (stop + 1 - start).toNat).map
        (fun (j : Nat) => rawgeti (lua_val s (ti : Int)) (start + (j : Int))) := by
  unfold unpack_table
  generalize (stop + 1 - start).toNat = count
  induction count with
  | zero => simp
  | succ c ih =>
    rw [List.range_succ, List.foldl_append, ih]
    have hlen : ti ≤ (s ++ List.map (fun (j : Nat) =>
        rawgeti (lua_val s (ti : Int)) (start + (j : Int))) (List.range c)).length := by
      simp; omega
    simp [lua_rawgeti, lua_push, lua_val_append_pos s _ ti h1 h2]

theorem rawgeti_sequence (arr : List LVal) (hash : List (Key × LVal)) (start : Nat)
    (h1 : 1 ≤ start) :
    (List.range (arr.length + 1 - start)).map
        (fun (j : Nat) => rawgeti (.table arr hash) ((start : Int) + (j : Int)))
      = arr.drop (start - 1) := by
  apply List.ext_getElem
  · simp; omega
  · intro j hj1 hj2
    simp at hj1 hj2
    have hidx : ((start : Int) + (j : Int)).toNat - 1 = start - 1 + j := by omega
    have hle : (start : Int) + (j : Int) ≤ (arr.length : Int) := by omega
    have hge : (1 : Int) ≤ (start : Int) + (j : Int) := by omega
    have hlt : start - 1 + j < arr.length := by omega
    simp [rawgeti, rawgetKey, hidx, hle, hge, List.getD_eq_getElem?_getD, List.getElem?_eq_getElem hlt]

theorem isTable_of_rawget (t k : LVal) (h : (rawget t k).isTable = true) : t.isTable = true := by
  cases t <;> simp_all [rawget, rawgetKey, LVal.isTable] <;>
    (cases hk : k.toKey <;> simp_all [LVal.isTable])

/-- On a full match the task stack is the five lookup slots, the entry from slot 3 on,
the decoded values, the reply function and the invocation record. -/
theorem interface_method_call_match (registry : LVal) (main : Stack)
    (tid connection msg : Nat) (m : DBusMessage) (hm : m.type = .method_call)
    (arr : List LVal) (hash : List (Key × LVal))
    (he : rawget (rawget (rawget (handlersOf registry connection) (strKey m.path))
      (strKey m.interface)) (strKey m.member) = .table arr hash) :
    interface_method_call registry main tid connection msg m =
      ⟨.HANDLED,
        [.msg_ref msg,
          ed_resume tid (lookupStack registry connection m ++ arr.drop 2 ++ m.body ++
            [.cfunc "interface_method_return",
              .table [.light connection, .light msg, rawgeti (.table arr hash) 2] []])
            ((arr.length : Int) + (m.body.length : Int) - 1)],
        main,
        lookupStack registry connection m ++ arr.drop 2 ++ m.body ++
            [.cfunc "interface_method_return",
              .table [.light connection, .light msg, rawgeti (.table arr hash) 2] []]⟩ := by
  have h3 : (rawget (rawget (rawget (handlersOf registry connection) (strKey m.path))
      (strKey m.interface)) (strKey m.member)).isTable = true := by rw [he]; rfl
  have h2 := isTable_of_rawget _ _ h3
  have h1 := isTable_of_rawget _ _ h2
  simp only [interface_method_call, hm, lua_pushlightuserdata, lua_pushstring,
    lua_rawget_registry_push, lua_rawgeti_push, lua_rawget_push, lua_istable_push]
  simp only [handlersOf] at h1 h2 h3 he
  simp only [h1, h2, h3, ne_eq, not_true_eq_false, ↓reduceIte, Bool.not_true,
    Bool.false_eq_true, lua_pop_push]
  have hstack : lua_push (lua_push (lua_push (lua_push (lua_push []
      (rawget registry (LVal.light connection)))
      (rawgeti (rawget registry (LVal.light connection)) 2))
      (rawget (rawgeti (rawget registry (LVal.light connection)) 2) (strKey m.path)))
      (rawget (rawget (rawgeti (rawget registry (LVal.light connection)) 2) (strKey m.path))
        (strKey m.interface)))
      (rawget (rawget (rawget (rawgeti (rawget registry (LVal.light connection)) 2)
        (strKey m.path)) (strKey m.interface)) (strKey m.member))
      = lookupStack registry connection m := by
    simp [lua_push, lookupStack, handlersOf]
  rw [hstack]
  have h5 : lua_val (lookupStack registry connection m) ((5 : Nat) : Int) = .table arr hash := by
    simp [lua_val, lua_at, absidx, lookupStack, handlersOf, he]
  have hun := unpack_table_eq (lookupStack registry connection m) 5 (by decide)
    (by simp [lookupStack]) 3 ((rawlen (LVal.table arr hash) : Nat) : Int)
  rw [h5] at hun
  have hseq := rawgeti_sequence arr hash 3 (by decide)
  have hcount : ((rawlen (LVal.table arr hash) : Int) + 1 - 3).toNat = arr.length + 1 - 3 := by
    simp [rawlen]; omega
  rw [hcount] at hun
  simp only [Nat.cast_ofNat] at hun hseq h5
  rw [hseq] at hun
  simp only [h5, hun]
  have h5b : ∀ t : Stack, lua_val (lookupStack registry connection m ++ t) 5 = .table arr hash := by
    intro t
    have := lua_val_append_pos (lookupStack registry connection m) t 5 (by decide)
      (by simp [lookupStack])
    simp only [Nat.cast_ofNat] at this
    rw [this, h5]
  simp [push_msg, lua_push, invocation, h5b, rawlen, List.append_assoc]

/-- `ed_resume` with `args` on top of the function `fn`. -/
theorem ed_resume_top (tid : Nat) (below : Stack) (fn : LVal) (args : List LVal) (n : Int)
    (hn : n = (args.length : Int)) :
    ed_resume tid (below ++ fn :: args) n = .resume tid (some fn) args := by
  subst hn
  have h1 : (0 : Int) ≤ (args.length : Int) := by omega
  have h3 : (below ++ fn :: args).length - (args.length : Int).toNat - 1 = below.length := by
    simp; omega
  have h4 : (below ++ fn :: args).length - (args.length : Int).toNat = below.length + 1 := by
    simp; omega
  have h5 : (args.length : Int) + 1 ≤ ((below ++ fn :: args).length : Int) := by
    simp
  unfold ed_resume
  rw [if_pos ⟨h1, h5⟩, h3, h4]
  have h6 : (below ++ fn :: args)[below.length]? = some fn := by
    rw [List.getElem?_append_right (le_refl _)]; simp
  have h7 : (below ++ fn :: args).drop (below.length + 1) = args := by
    rw [List.drop_append_eq_append_drop]; simp
  rw [h6, h7]

/-- C1: a method call whose path, interface or member is not registered is answered with
exactly one error reply, named by the first lookup that fails (`UnknownObject` for the
path, else `UnknownInterface` for the interface, else `UnknownMethod` for the member);
no task is resumed and the message is reported as handled. -/
theorem interface_method_call_unknown (registry : LVal) (main : Stack)
    (tid connection msg : Nat) (m : DBusMessage) (hm : m.type = .method_call) :
    let H := handlersOf registry connection
    let Hp := rawget H (strKey m.path)
    let Hpi := rawget Hp (strKey m.interface)
    let Hpim := rawget Hpi (strKey m.member)
    let d := interface_method_call registry main tid connection msg m
    (Hp.isTable = false →
      d.result = .HANDLED ∧ d.events.any Event.isResume = false ∧
      d.events = [.send connection (dbus_message_new_error msg DBUS_ERROR_UNKNOWN_OBJECT
        ("No such object path '" ++ cstr m.path ++ "'"))]) ∧
    (Hp.isTable = true → Hpi.isTable = false →
      d.result = .HANDLED ∧ d.events.any Event.isResume = false ∧
      d.events = [.send connection (dbus_message_new_error msg DBUS_ERROR_UNKNOWN_INTERFACE
        ("No such interface '" ++ cstr m.interface ++ "' at object path '"
          ++ cstr m.path ++ "'"))]) ∧
    (Hp.isTable = true → Hpi.isTable = true → Hpim.isTable = false →
      d.result = .HANDLED ∧ d.events.any Event.isResume = false ∧
      d.events = [.send connection (dbus_message_new_error msg DBUS_ERROR_UNKNOWN_METHOD
        ("No such method '" ++ cstr m.member ++ "' in interface '" ++ cstr m.interface
          ++ "' at object path '" ++ cstr m.path ++ "'"))]) := by
  intro H Hp Hpi Hpim d
  have h := interface_method_call_lookups registry main tid connection msg m hm
  refine ⟨fun h1 => ?_, fun h1 h2 => ?_, fun h1 h2 h3 => ?_⟩
  · obtain ⟨hr, he⟩ := h.1 h1
    exact ⟨hr, by rw [he]; rfl, he⟩
  · obtain ⟨hr, he⟩ := h.2.1 h1 h2
    exact ⟨hr, by rw [he]; rfl, he⟩
  · obtain ⟨hr, he⟩ := h.2.2 h1 h2 h3
    exact ⟨hr, by rw [he]; rfl, he⟩

/-- Witness of C1: the three scenarios of an unregistered path, interface and member. -/
theorem interface_method_call_unknown_witness :
    (sampleCall "/none" "org.example.I" "Echo").type = .method_call ∧
    (interface_method_call sampleRegistry [] 7 1 99
        (sampleCall "/none" "org.example.I" "Echo")).events =
      [.send 1 (dbus_message_new_error 99 DBUS_ERROR_UNKNOWN_OBJECT
        "No such object path '/none'")] ∧
    (interface_method_call sampleRegistry [] 7 1 99
        (sampleCall "/obj" "org.example.Z" "Echo")).events =
      [.send 1 (dbus_message_new_error 99 DBUS_ERROR_UNKNOWN_INTERFACE
        "No such interface 'org.example.Z' at object path '/obj'")] ∧
    (interface_method_call sampleRegistry [] 7 1 99
        (sampleCall "/obj" "org.example.I" "Miss")).events =
      [.send 1 (dbus_message_new_error 99 DBUS_ERROR_UNKNOWN_METHOD
        "No such method 'Miss' in interface 'org.example.I' at object path '/obj'")] :=
  ⟨rfl,
   ((interface_method_call_unknown sampleRegistry [] 7 1 99
      (sampleCall "/none" "org.example.I" "Echo") rfl).1 rfl).2.2,
   ((interface_method_call_unknown sampleRegistry [] 7 1 99
      (sampleCall "/obj" "org.example.Z" "Echo") rfl).2.1 rfl rfl).2.2,
   ((interface_method_call_unknown sampleRegistry [] 7 1 99
      (sampleCall "/obj" "org.example.I" "Miss") rfl).2.2 rfl rfl rfl).2.2⟩

/-- C2: on a full match with an entry `e` of length `n ≥ 3` and a body of `k` values, the
task is resumed exactly once on `e[3]`; the values on the task stack above the handler
are the arguments of the resumption, there are `n + k - 1` of them, and the first
`(n - 3) + k` are `e[4..n]` followed by the decoded values. -/
theorem interface_method_call_resumes_handler (registry : LVal) (main : Stack)
    (tid connection msg : Nat) (m : DBusMessage) (hm : m.type = .method_call)
    (e : List LVal) (hash : List (Key × LVal))
    (he : rawget (rawget (rawget (handlersOf registry connection) (strKey m.path))
      (strKey m.interface)) (strKey m.member) = .table e hash)
    (hn : 3 ≤ e.length) :
    let d := interface_method_call registry main tid connection msg m
    ∃ (handler : LVal) (above : List LVal),
      e[2]? = some handler ∧
      d.task = lookupStack registry connection m ++ handler :: above ∧
      d.events.filter Event.isResume = [.resume tid (some handler) above] ∧
      (above.length : Int) = (e.length : Int) + (m.body.length : Int) - 1 ∧
      above.take ((e.length - 3) + m.body.length) = e.drop 3 ++ m.body := by
  intro d
  obtain ⟨a, b, h, rest, rfl⟩ : ∃ a b h rest, e = a :: b :: h :: rest := by
    match e, hn with
    | a :: b :: h :: rest, _ => exact ⟨a, b, h, rest, rfl⟩
  refine ⟨h, rest ++ m.body ++ [.cfunc "interface_method_return",
    .table [.light connection, .light msg, rawgeti (.table (a :: b :: h :: rest) hash) 2] []],
    by simp, ?_, ?_, ?_, ?_⟩
  · simp [d, interface_method_call_match registry main tid connection msg m hm _ _ he]
  · have hr := ed_resume_top tid (lookupStack registry connection m) h
      (rest ++ m.body ++ [.cfunc "interface_method_return",
        .table [.light connection, .light msg,
          rawgeti (.table (a :: b :: h :: rest) hash) 2] []])
      (((a :: b :: h :: rest).length : Int) + (m.body.length : Int) - 1)
      (by simp; omega)
    simp only [d, interface_method_call_match registry main tid connection msg m hm _ _ he]
    simp only [List.drop_succ_cons, List.drop_zero, List.append_assoc, List.cons_append] at hr ⊢
    rw [hr]
    simp [Event.isResume]
  · simp; omega
  · have hlen : (a :: b :: h :: rest).length - 3 + m.body.length = (rest ++ m.body).length := by
      simp
    rw [hlen, List.take_left]
    simp

/-- Witness of C2: the sample handler `Echo` with one bound argument and one decoded value. -/
theorem interface_method_call_resumes_handler_witness :
    (sampleCall "/obj" "org.example.I" "Echo").type = .method_call ∧
    rawget (rawget (rawget (handlersOf sampleRegistry 1)
        (strKey (sampleCall "/obj" "org.example.I" "Echo").path))
        (strKey (sampleCall "/obj" "org.example.I" "Echo").interface))
        (strKey (sampleCall "/obj" "org.example.I" "Echo").member)
      = .table [.str "s", .str "i", .func 10, .str "bound"] [] ∧
    3 ≤ [LVal.str "s", LVal.str "i", LVal.func 10, LVal.str "bound"].length ∧
    ∃ (handler : LVal) (above : List LVal),
      [LVal.str "s", LVal.str "i", LVal.func 10, LVal.str "bound"][2]? = some handler ∧
      (interface_method_call sampleRegistry [] 7 1 99
          (sampleCall "/obj" "org.example.I" "Echo")).task =
        lookupStack sampleRegistry 1 (sampleCall "/obj" "org.example.I" "Echo")
          ++ handler :: above ∧
      (interface_method_call sampleRegistry [] 7 1 99
          (sampleCall "/obj" "org.example.I" "Echo")).events.filter Event.isResume =
        [.resume 7 (some handler) above] ∧
      (above.length : Int) =
        ([LVal.str "s", LVal.str "i", LVal.func 10, LVal.str "bound"].length : Int) +
          ((sampleCall "/obj" "org.example.I" "Echo").body.length : Int) - 1 ∧
      above.take (([LVal.str "s", LVal.str "i", LVal.func 10, LVal.str "bound"].length - 3) +
          (sampleCall "/obj" "org.example.I" "Echo").body.length) =
        [LVal.str "s", LVal.str "i", LVal.func 10, LVal.str "bound"].drop 3 ++
          (sampleCall "/obj" "org.example.I" "Echo").body :=
  ⟨rfl, rfl, by decide,
   interface_method_call_resumes_handler sampleRegistry [] 7 1 99
     (sampleCall "/obj" "org.example.I" "Echo") rfl
     [.str "s", .str "i", .func 10, .str "bound"] [] rfl (by decide)⟩

theorem lua_at_of_absidx (s : Stack) (i : Int) (n : Nat) (h : absidx s i = (n : Int) + 1) :
    lua_at s i = s[n]? := by
  have h1 : (1 : Int) ≤ (n : Int) + 1 := by omega
  have h2 : ((n : Int) + 1 - 1).toNat = n := by omega
  simp [lua_at, h, h1, h2]

theorem lua_val_top3 (s : Stack) (a b c : LVal) :
    lua_val (s ++ [a, b, c]) (-3) = a ∧ lua_val (s ++ [a, b, c]) (-2) = b ∧
      lua_val (s ++ [a, b, c]) (-1) = c := by
  have h1 := lua_at_of_absidx (s ++ [a, b, c]) (-3) s.length (by simp [absidx]; omega)
  have h2 := lua_at_of_absidx (s ++ [a, b, c]) (-2) (s.length + 1) (by simp [absidx]; omega)
  have h3 := lua_at_of_absidx (s ++ [a, b, c]) (-1) (s.length + 2) (by simp [absidx]; omega)
  have g1 : (s ++ [a, b, c])[s.length]? = some a := by
    rw [List.getElem?_append_right (le_refl _)]; simp
  have g2 : (s ++ [a, b, c])[s.length + 1]? = some b := by
    rw [List.getElem?_append_right (by omega)]; simp
  have g3 : (s ++ [a, b, c])[s.length + 2]? = some c := by
    rw [List.getElem?_append_right (by omega)]; simp
  simp [lua_val, h1, h2, h3, g1, g2, g3]

/-- The reply of `interface_method_return`, with the stack arithmetic carried out. -/
theorem interface_method_return_eq (conn msg : Nat) (sig : LVal) (hash : List (Key × LVal))
    (results : List LVal) :
    interface_method_return (.table [.light conn, .light msg, sig] hash :: results) =
      .ok [.msg_unref msg, .send conn
        (if lua_isnil (.table [.light conn, .light msg, sig] hash :: results) 2 then
          dbus_message_new_error msg DBUS_ERROR_FAILED (luaL_tolstring results[1]?)
        else
          { dbus_message_new_method_return msg with
            signature := lua_tostring sig, body := results })] := by
  have hv1 : ∀ t : Stack, lua_val (LVal.table [.light conn, .light msg, sig] hash :: t) 1
      = .table [.light conn, .light msg, sig] hash := by
    intro t; simp [lua_val, lua_at, absidx]
  have hpop : ∀ (s : Stack) (a b c : LVal), lua_pop (s ++ [a, b, c]) 3 = s := by
    intro s a b c; simp [lua_pop]
  have h3 := lua_val_top3 (LVal.table [.light conn, .light msg, sig] hash :: results)
    (.light conn) (.light msg) sig
  have hat : lua_at (LVal.table [.light conn, .light msg, sig] hash :: results) 3
      = results[1]? := by
    simp [lua_at, absidx]
  have hdrop : ((results.length : Int) + 1 + 1 - 2).toNat = results.length := by omega
  unfold interface_method_return
  simp only [lua_istable, hv1, LVal.isTable, Bool.not_true, Bool.false_eq_true, ↓reduceIte,
    lua_rawgeti, lua_push, List.append_assoc, List.singleton_append, List.cons_append,
    List.nil_append]
  have e1 : rawgeti (LVal.table [.light conn, .light msg, sig] hash) 1 = .light conn := by
    simp [rawgeti, rawgetKey]
  have e2 : rawgeti (LVal.table [.light conn, .light msg, sig] hash) 2 = .light msg := by
    simp [rawgeti, rawgetKey]
  have e3 : rawgeti (LVal.table [.light conn, .light msg, sig] hash) 3 = sig := by
    simp [rawgeti, rawgetKey]
  have hcons : ∀ (t : Stack) (a b c : LVal),
      LVal.table [.light conn, .light msg, sig] hash :: (t ++ [a, b, c]) =
        (LVal.table [.light conn, .light msg, sig] hash :: t) ++ [a, b, c] := by
    intro t a b c; simp
  rw [e1, e2, e3, hcons]
  simp only [lua_touserdata, h3.1, h3.2.1, h3.2.2, hpop, hat]
  split
  · rfl
  · simp [range_to_msg, dbus_message_new_method_return, lua_gettop, hdrop]

/-- C3: for an invocation record `{connection, message, output signature}` and any handler
results, `interface_method_return` hands exactly one reply to the connection, answering
the inbound message: the error `Failed` carrying the text of the second result when the
first result is nil, otherwise a method return whose body is all the results in order,
encoded under the output signature of the record. -/
theorem interface_method_return_one_reply (conn msg : Nat) (sig : LVal)
    (hash : List (Key × LVal)) (results : List LVal) :
    interface_method_return (.table [.light conn, .light msg, sig] hash :: results) =
      .ok [.msg_unref msg, .send conn
        (if (match results with
            | v :: _ => v.isNil
            | [] => false) then
          dbus_message_new_error msg DBUS_ERROR_FAILED (luaL_tolstring results[1]?)
        else
          { type := .method_return, reply_to := some msg,
            signature := lua_tostring sig, body := results })] := by
  rw [interface_method_return_eq]
  have h : lua_isnil (.table [.light conn, .light msg, sig] hash :: results) 2 =
      (match results with
        | v :: _ => v.isNil
        | [] => false) := by
    cases results with
    | nil => simp [lua_isnil, lua_at, absidx]
    | cons v rest => simp [lua_isnil, lua_at, absidx]
  rw [h]
  rfl

/-- The lookup of `signal_callback`, with the stack arithmetic carried out. -/
theorem signal_callback_eq (registry : LVal) (main : Stack) (tid conn : Nat)
    (m : DBusMessage) (hm : m.type = .signal) :
    let entry := rawget (signalsOf registry conn)
      (.str (cstr m.path ++ ":" ++ cstr m.interface ++ ":" ++ cstr m.member))
    let L : Stack := [rawget registry (.light conn), signalsOf registry conn, entry]
    signal_callback registry main tid conn m =
      if entry.isTable then
        ⟨.HANDLED, [ed_resume tid (L ++ (List.range (rawlen entry)).map
            (fun (j : Nat) => rawgeti entry (1 + (j : Int))) ++ m.body)
            ((rawlen entry : Int) + (m.body.length : Int) - 1)], main,
          L ++ (List.range (rawlen entry)).map
            (fun (j : Nat) => rawgeti entry (1 + (j : Int))) ++ m.body⟩
      else ⟨.NOT_YET_HANDLED, [], main, L⟩ := by
  intro entry L
  simp only [signal_callback, hm, lua_pushlightuserdata, lua_pushstring,
    lua_rawget_registry_push, lua_rawgeti_push, lua_rawget_push, lua_istable_push,
    lua_pop_push, ne_eq, not_true_eq_false, ↓reduceIte]
  have hstack : lua_push (lua_push (lua_push [] (rawget registry (LVal.light conn)))
      (rawgeti (rawget registry (LVal.light conn)) 3))
      (rawget (rawgeti (rawget registry (LVal.light conn)) 3)
        (.str (cstr m.path ++ ":" ++ cstr m.interface ++ ":" ++ cstr m.member))) = L := by
    simp [lua_push, L, entry, signalsOf]
  have hentry : rawget (rawgeti (rawget registry (LVal.light conn)) 3)
      (.str (cstr m.path ++ ":" ++ cstr m.interface ++ ":" ++ cstr m.member)) = entry := rfl
  rw [hstack, hentry]
  have h3 : lua_val L ((3 : Nat) : Int) = entry := by
    simp [lua_val, lua_at, absidx, L]
  have hun := unpack_table_eq L 3 (by decide) (by simp [L]) 1 ((rawlen entry : Nat) : Int)
  rw [h3] at hun
  have hcount : ((rawlen entry : Int) + 1 - 1).toNat = rawlen entry := by omega
  rw [hcount] at hun
  simp only [Nat.cast_ofNat] at hun h3
  by_cases ht : entry.isTable = true
  · simp [ht, h3, hun, push_msg]
  · simp [ht]

/-- C4: a message that is not a signal, whatever its headers, causes no effect at all and
is reported as not handled. A signal with path `p`, interface `i` and member `s` is looked
up under the key `p:i:s` in the signal table of the connection: a registered entry `e` of
length `n ≥ 1` has `e[1]` resumed exactly once with `e[2..n]` followed by the decoded
values; without an entry nothing is resumed or sent and the message is reported as not
handled. -/
theorem signal_callback_dispatch (registry : LVal) (main : Stack) (tid conn : Nat)
    (m : DBusMessage) :
    let d := signal_callback registry main tid conn m
    (m.type ≠ .signal → d.events = [] ∧ d.result = .NOT_YET_HANDLED ∧ d.main = main) ∧
    (∀ p i s : String, m.type = .signal →
      m.path = some p → m.interface = some i → m.member = some s →
      (Easydbus.rawget (signalsOf registry conn) (.str (p ++ ":" ++ i ++ ":" ++ s))).isTable
          = false →
      d.events = [] ∧ d.result = .NOT_YET_HANDLED) ∧
    (∀ p i s : String, m.type = .signal →
      m.path = some p → m.interface = some i → m.member = some s →
      ∀ (e : List LVal) (hash : List (Key × LVal)),
      Easydbus.rawget (signalsOf registry conn) (.str (p ++ ":" ++ i ++ ":" ++ s))
          = .table e hash → 1 ≤ e.length →
      d.events = [.resume tid e[0]? (e.drop 1 ++ m.body)] ∧ d.result = .HANDLED) := by
  intro d
  refine ⟨fun hm => ?_, fun p i s hm hp hi hs ht => ?_, fun p i s hm hp hi hs e hash he hn => ?_⟩
  · simp [d, signal_callback, hm]
  · have h := signal_callback_eq registry main tid conn m hm
    simp only [hp, hi, hs, cstr, Option.getD_some] at h
    simp only [d, h]
    simp [ht]
  · have h := signal_callback_eq registry main tid conn m hm
    simp only [hp, hi, hs, cstr, Option.getD_some] at h
    simp only [d, h, he, LVal.isTable, ↓reduceIte]
    have hseq := rawgeti_sequence e hash 1 (le_refl _)
    simp only [Nat.cast_one, add_tsub_cancel_right, Nat.sub_self, List.drop_zero] at hseq
    simp only [rawlen, hseq]
    obtain ⟨fn, rest, rfl⟩ : ∃ fn rest, e = fn :: rest := by
      match e, hn with
      | fn :: rest, _ => exact ⟨fn, rest, rfl⟩
    have hr := ed_resume_top tid
      [rawget registry (.light conn), signalsOf registry conn, LVal.table (fn :: rest) hash]
      fn (rest ++ m.body)
      (((fn :: rest).length : Int) + (m.body.length : Int) - 1) (by simp; omega)
    simp only [List.cons_append, List.nil_append, List.append_assoc, List.length_cons,
      Nat.cast_add, Nat.cast_one] at hr ⊢
    simp [hr]

/-- Witness of C4: the sample signal reaches its handler with the bound argument first, and
a method return, which has no path, interface or member, reaches none. -/
theorem signal_callback_dispatch_witness :
    sampleSignal.type = .signal ∧
    sampleSignal.path = some "/obj" ∧ sampleSignal.interface = some "org.example.I" ∧
    sampleSignal.member = some "Changed" ∧
    ((signal_callback sampleRegistry [] 7 1 sampleSignal).events =
      [.resume 7 (some (.func 20)) [.num 5, .str "x"]] ∧
    (signal_callback sampleRegistry [] 7 1 sampleSignal).result = .HANDLED) ∧
    sampleReturn.type ≠ .signal ∧ sampleReturn.path = none ∧
    ((signal_callback sampleRegistry [] 7 1 sampleReturn).events = [] ∧
    (signal_callback sampleRegistry [] 7 1 sampleReturn).result = .NOT_YET_HANDLED ∧
    (signal_callback sampleRegistry [] 7 1 sampleReturn).main = []) :=
  ⟨rfl, rfl, rfl, rfl,
   (signal_callback_dispatch sampleRegistry [] 7 1 sampleSignal).2.2 "/obj" "org.example.I"
      "Changed" rfl rfl rfl rfl [.func 20, .num 5] [] rfl (by decide),
   by decide, rfl,
   (signal_callback_dispatch sampleRegistry [] 7 1 sampleReturn).1 (by decide)⟩

theorem sb_addstring_str (b : sb) (chunk : String) : (sb_addstring b chunk).str = b.str ++ chunk :=
  rfl

theorem joinAll_append (xs ys : List String) : joinAll (xs ++ ys) = joinAll xs ++ joinAll ys := by
  induction xs with
  | nil => simp [joinAll]
  | cons x xs ih => simp [joinAll, ih, String.append_assoc]

theorem introspect_arg_str (b : sb) (sig : LVal) (direction : String) :
    (introspect_arg b (lua_tostring sig) ("\" direction=\"" ++ direction ++ "\"/>\n")).str =
      b.str ++ joinAll ((signatureArg sig direction).map ArgElement.render) := by
  unfold introspect_arg signatureArg
  cases h : lua_tostring sig with
  | none => simp [joinAll]
  | some s =>
    by_cases hs : s = ""
    · simp [hs, joinAll]
    · simp [hs, joinAll, sb_addstring_str, ArgElement.render, String.append_assoc]

theorem introspect_method_str (b : sb) (name : String) (entry : LVal) :
    (introspect_method b (.str name, entry)).str =
      b.str ++ (methodElementOf name entry).render := by
  have hin := introspect_arg_str
    (sb_addstring (sb_addstring (sb_addstring b "    <method name=\"") name) "\">\n")
    (rawgeti entry 1) "in"
  have hout := introspect_arg_str
    (introspect_arg
      (sb_addstring (sb_addstring (sb_addstring b "    <method name=\"") name) "\">\n")
      (lua_tostring (rawgeti entry 1)) ("\" direction=\"" ++ "in" ++ "\"/>\n"))
    (rawgeti entry 2) "out"
  have e1 : "\" direction=\"" ++ "in" ++ "\"/>\n" = "\" direction=\"in\"/>\n" := by decide
  have e2 : "\" direction=\"" ++ "out" ++ "\"/>\n" = "\" direction=\"out\"/>\n" := by decide
  rw [e1] at hin hout
  rw [e2] at hout
  have hk : lua_tostring (Key.toVal (.str name)) = some name := rfl
  simp only [introspect_method, hk, cstr, Option.getD_some, sb_addstring_str, hout, hin]
  simp [MethodElement.render, methodElementOf, joinAll_append, String.append_assoc]

theorem introspect_methods_str (ms : List (Key × LVal)) :
    ms.all (fun e => e.1.isString && e.2.isTable) = true → ∀ b : sb,
    (ms.foldl introspect_method b).str =
      b.str ++ joinAll (((ms.filterMap stringPair).map
        (fun m => methodElementOf m.1 m.2)).map MethodElement.render) := by
  induction ms with
  | nil => intro _ b; simp [joinAll]
  | cons e es ih =>
    intro h b
    obtain ⟨k, v⟩ := e
    simp only [List.all_cons, Bool.and_eq_true] at h
    cases k with
    | str name =>
      rw [List.foldl_cons, ih h.2, introspect_method_str]
      simp [stringPair, joinAll, String.append_assoc]
    | int i => simp [Key.isString] at h
    | bool c => simp [Key.isString] at h
    | light q => simp [Key.isString] at h

theorem introspect_interface_str (b : sb) (name : String) (v : LVal)
    (h : interfaceTable v = true) :
    (introspect_interface b (.str name, v)).str =
      b.str ++ InterfaceElement.render
        ⟨name, (stringPairs v).map (fun m => methodElementOf m.1 m.2)⟩ := by
  have hk : lua_tostring (Key.toVal (.str name)) = some name := rfl
  have hall : (pairsOf v).all (fun e => e.1.isString && e.2.isTable) = true := by
    simp only [interfaceTable, Bool.and_eq_true] at h
    exact h.2
  simp only [introspect_interface, Key.isString, Bool.not_true, Bool.false_eq_true, ↓reduceIte,
    hk, cstr, Option.getD_some, sb_addstring_str, introspect_methods_str _ hall]
  simp [InterfaceElement.render, stringPairs, String.append_assoc]

theorem introspect_interfaces_str (es : List (Key × LVal)) :
    (es.filterMap stringPair).all (fun i => interfaceTable i.2) = true → ∀ b : sb,
    (es.foldl introspect_interface b).str =
      b.str ++ joinAll (((es.filterMap stringPair).map (fun i =>
        (⟨i.1, (stringPairs i.2).map (fun m => methodElementOf m.1 m.2)⟩ : InterfaceElement))).map
          InterfaceElement.render) := by
  induction es with
  | nil => intro _ b; simp [joinAll]
  | cons e es ih =>
    intro h b
    obtain ⟨k, v⟩ := e
    cases k with
    | str name =>
      simp only [List.filterMap_cons, stringPair, List.all_cons, Bool.and_eq_true] at h
      rw [List.foldl_cons, ih (by simpa using h.2), introspect_interface_str b name v h.1]
      simp [stringPair, joinAll, String.append_assoc]
    | int i =>
      have hskip : introspect_interface b (Key.int i, v) = b := by
        simp [introspect_interface, Key.isString]
      have h2 : (es.filterMap stringPair).all (fun i => interfaceTable i.2) = true := by
        simpa [stringPair] using h
      rw [List.foldl_cons, hskip, ih h2]
      simp [stringPair]
    | bool c =>
      have hskip : introspect_interface b (Key.bool c, v) = b := by
        simp [introspect_interface, Key.isString]
      have h2 : (es.filterMap stringPair).all (fun i => interfaceTable i.2) = true := by
        simpa [stringPair] using h
      rw [List.foldl_cons, hskip, ih h2]
      simp [stringPair]
    | light q =>
      have hskip : introspect_interface b (Key.light q, v) = b := by
        simp [introspect_interface, Key.isString]
      have h2 : (es.filterMap stringPair).all (fun i => interfaceTable i.2) = true := by
        simpa [stringPair] using h
      rw [List.foldl_cons, hskip, ih h2]
      simp [stringPair]

theorem introspect_nodes_str (cs : List (Key × LVal)) :
    cs.all (fun e => e.1.isString) = true → ∀ b : sb,
    (cs.foldl introspect_node b).str =
      b.str ++ joinAll (((cs.filterMap stringPair).map (fun c => c.1)).map nodeLine) := by
  induction cs with
  | nil => intro _ b; simp [joinAll]
  | cons e es ih =>
    intro h b
    obtain ⟨k, v⟩ := e
    simp only [List.all_cons, Bool.and_eq_true] at h
    cases k with
    | str name =>
      have hk : lua_tostring (Key.toVal (.str name)) = some name := rfl
      rw [List.foldl_cons, ih h.2]
      simp [introspect_node, hk, cstr, sb_addstring_str, stringPair, joinAll, nodeLine,
        String.append_assoc]
    | int i => simp [Key.isString] at h
    | bool c => simp [Key.isString] at h
    | light q => simp [Key.isString] at h

/-- The text `introspect_handler` builds for a well-formed node is the document as the
interface description words it. -/
theorem introspect_buffer_str (node : LVal) (h : wellFormedNode node = true) :
    (introspect_buffer node).str = specDocument (registeredInterfaces node) (childNames node) := by
  simp only [wellFormedNode, Bool.and_eq_true] at h
  obtain ⟨⟨_, hif⟩, hch⟩ := h
  have hch2 : (pairsOf (rawgeti node 1)).all (fun e => e.1.isString) = true := by
    simp only [stringKeyed, Bool.and_eq_true] at hch
    exact hch.2
  simp only [introspect_buffer, sb_addstring_str, introspect_nodes_str _ hch2,
    introspect_interfaces_str _ hif]
  simp [sb_init, specDocument, registeredInterfaces, childNames, stringPairs, String.append_assoc]

/-- The reply of `introspect_handler` for a registered, well-formed path whose document is
built without a write beyond the buffer. -/
theorem introspect_handler_eq (registry : LVal) (main : Stack) (conn msg : Nat)
    (path : Option String)
    (hwf : wellFormedNode (rawget (handlersOf registry conn) (strKey path)) = true)
    (hfit : (introspect_buffer (rawget (handlersOf registry conn) (strKey path))).overrun
      = false) :
    introspect_handler registry main conn msg path =
      some ([.send conn
          { type := .method_return, reply_to := some msg, signature := some "s",
            body := [.str (specDocument
              (registeredInterfaces (rawget (handlersOf registry conn) (strKey path)))
              (childNames (rawget (handlersOf registry conn) (strKey path))))] }], main) := by
  have ht : (rawget (handlersOf registry conn) (strKey path)).isTable = true := by
    simp only [wellFormedNode, Bool.and_eq_true] at hwf
    exact hwf.1.1
  have hb := introspect_buffer_str _ hwf
  simp only [handlersOf] at ht hb hfit
  simp only [introspect_handler, lua_pushlightuserdata, lua_pushstring,
    lua_rawget_registry_push, lua_rawgeti_push, lua_rawget_push, lua_istable_push,
    lua_val_push_top, ht, hb, hfit, handlersOf]
  rfl

theorem mem_signatureArg (sig : LVal) (direction : String) (a : ArgElement) :
    a ∈ signatureArg sig direction ↔
      (lua_tostring sig = some a.type ∧ a.type ≠ "" ∧ a.direction = direction) := by
  obtain ⟨t, d⟩ := a
  unfold signatureArg
  cases h : lua_tostring sig with
  | none => simp
  | some s =>
    by_cases hs : s = ""
    · subst hs
      simp
      intro h1 h2
      exact absurd h1.symm h2
    · simp [hs]
      constructor
      · rintro ⟨rfl, rfl⟩
        exact ⟨rfl, hs, rfl⟩
      · rintro ⟨rfl, _, rfl⟩
        exact ⟨rfl, rfl⟩

/-- For a registered, well-formed path whose document is built without a write beyond the
buffer, the document sent by `introspect_handler` carries, right after the header, one
`<interface>` block per string-keyed interface of the path (non-string keys are not
listed) and in it one `<method>` block per method; a method block has an `in` argument of
type `S` iff the input signature is the non-empty string `S`, and an `out` argument of
type `S` iff the output signature is the non-empty string `S`. A method with input `s` and
output `i` has exactly one `in` and one `out` argument. -/
theorem introspect_interfaces_listed (registry : LVal) (main : Stack) (conn msg : Nat)
    (path : Option String)
    (hwf : wellFormedNode (rawget (handlersOf registry conn) (strKey path)) = true)
    (hfit : (introspect_buffer (rawget (handlersOf registry conn) (strKey path))).overrun
      = false) :
    let node := rawget (handlersOf registry conn) (strKey path)
    (∃ tail, introspect_document registry main conn msg path =
      some (introspect_header ++ joinAll ((registeredInterfaces node).map InterfaceElement.render)
        ++ tail)) ∧
    (registeredInterfaces node).map (fun i => i.name) = (stringPairs node).map (fun i => i.1) ∧
    (∀ i ∈ registeredInterfaces node, ∃ t, (i.name, t) ∈ stringPairs node ∧
      i.methods.map (fun x => x.name) = (stringPairs t).map (fun x => x.1) ∧
      i.methods = (stringPairs t).map (fun x => methodElementOf x.1 x.2)) ∧
    (∀ (name : String) (entry : LVal) (S : String),
      (⟨S, "in"⟩ ∈ (methodElementOf name entry).args ↔
        (lua_tostring (rawgeti entry 1) = some S ∧ S ≠ "")) ∧
      (⟨S, "out"⟩ ∈ (methodElementOf name entry).args ↔
        (lua_tostring (rawgeti entry 2) = some S ∧ S ≠ ""))) ∧
    (∀ (name : String) (rest : List LVal) (hash : List (Key × LVal)),
      (methodElementOf name (.table (.str "s" :: .str "i" :: rest) hash)).args =
        [⟨"s", "in"⟩, ⟨"i", "out"⟩]) := by
  intro node
  refine ⟨⟨introspect_standard ++ joinAll ((childNames node).map nodeLine) ++ "</node>\n", ?_⟩,
    ?_, ?_, ?_, ?_⟩
  · simp only [introspect_document, introspect_handler_eq registry main conn msg path hwf hfit]
    simp [specDocument, node, String.append_assoc]
  · simp [registeredInterfaces]
  · intro i hi
    simp only [registeredInterfaces, List.mem_map] at hi
    obtain ⟨x, hx, rfl⟩ := hi
    exact ⟨x.2, hx, by simp [methodElementOf], rfl⟩
  · intro name entry S
    simp only [methodElementOf, List.mem_append, mem_signatureArg]
    constructor
    · constructor
      · rintro (⟨h1, h2, _⟩ | ⟨_, _, h3⟩)
        · exact ⟨h1, h2⟩
        · exact absurd h3 (by decide)
      · rintro ⟨h1, h2⟩
        exact Or.inl ⟨h1, h2, trivial⟩
    · constructor
      · rintro (⟨_, _, h3⟩ | ⟨h1, h2, _⟩)
        · exact absurd h3 (by decide)
        · exact ⟨h1, h2⟩
      · rintro ⟨h1, h2⟩
        exact Or.inr ⟨h1, h2, trivial⟩
  · intro name rest hash
    have h1 : rawgeti (.table (.str "s" :: .str "i" :: rest) hash) 1 = .str "s" := by
      have : (1 : Int) ≤ ((rest.length : Int) + 1 + 1) := by omega
      simp [rawgeti, rawgetKey, this]
    have h2 : rawgeti (.table (.str "s" :: .str "i" :: rest) hash) 2 = .str "i" := by
      have : (2 : Int) ≤ ((rest.length : Int) + 1 + 1) := by omega
      simp [rawgeti, rawgetKey, this]
    simp only [methodElementOf, h1, h2]
    decide

/-- The sample path with its two interfaces, whose document fits the buffer. -/
theorem introspect_sample_listed :
    wellFormedNode (rawget (handlersOf sampleRegistry 1) (strKey (some "/obj"))) = true ∧
    (introspect_buffer (rawget (handlersOf sampleRegistry 1) (strKey (some "/obj")))).overrun
      = false ∧
    registeredInterfaces (rawget (handlersOf sampleRegistry 1) (strKey (some "/obj"))) =
      [⟨"org.example.I", [⟨"Echo", [⟨"s", "in"⟩, ⟨"i", "out"⟩]⟩]⟩,
       ⟨"org.example.J", [⟨"Ping", []⟩]⟩] ∧
    ∃ tail, introspect_document sampleRegistry [] 1 99 (some "/obj") =
      some (introspect_header ++ joinAll ((registeredInterfaces
        (rawget (handlersOf sampleRegistry 1) (strKey (some "/obj")))).map
          InterfaceElement.render) ++ tail) :=
  ⟨rfl, rfl, by decide,
   (introspect_interfaces_listed sampleRegistry [] 1 99 (some "/obj") rfl rfl).1⟩

/-- For a registered, well-formed path whose document is built without a write beyond the
buffer, `introspect_handler` sends one method return whose text is the fixed header with
`<node>`, the registered interface blocks, the fixed `Introspectable` and `Peer` blocks
once, one `<node name=.../>` line per recorded child (none when there are no children),
and `</node>`. -/
theorem introspect_document_text (registry : LVal) (main : Stack) (conn msg : Nat)
    (path : Option String)
    (hwf : wellFormedNode (rawget (handlersOf registry conn) (strKey path)) = true)
    (hfit : (introspect_buffer (rawget (handlersOf registry conn) (strKey path))).overrun
      = false) :
    let node := rawget (handlersOf registry conn) (strKey path)
    let blocks := joinAll ((registeredInterfaces node).map InterfaceElement.render)
    introspect_handler registry main conn msg path =
      some ([.send conn
        { type := .method_return, reply_to := some msg, signature := some "s",
          body := [.str (introspect_header ++ blocks ++ introspect_standard ++
            joinAll ((childNames node).map nodeLine) ++ "</node>\n")] }], main) ∧
    (childNames node = [] →
      introspect_document registry main conn msg path =
        some (introspect_header ++ blocks ++ introspect_standard ++ "</node>\n")) := by
  intro node blocks
  constructor
  · rw [introspect_handler_eq registry main conn msg path hwf hfit]
    rfl
  · intro hc
    simp only [introspect_document, introspect_handler_eq registry main conn msg path hwf hfit]
    simp [specDocument, node, blocks, hc, joinAll] at hc ⊢

/-- The document of the sample path, which has no children. -/
theorem introspect_sample_text :
    childNames (rawget (handlersOf sampleRegistry 1) (strKey (some "/obj"))) = [] ∧
    introspect_document sampleRegistry [] 1 99 (some "/obj") =
      some (introspect_header ++
        joinAll ((registeredInterfaces
          (rawget (handlersOf sampleRegistry 1) (strKey (some "/obj")))).map
            InterfaceElement.render)
        ++ introspect_standard ++ "</node>\n") :=
  ⟨rfl, (introspect_document_text sampleRegistry [] 1 99 (some "/obj") rfl rfl).2 rfl⟩

theorem lua_val_pos (s : Stack) (i : Nat) (h1 : 1 ≤ i) :
    lua_val s (i : Int) = s.getD (i - 1) .nil := by
  have hpos : (0 : Int) < (i : Int) := by omega
  have hone : (1 : Int) ≤ (i : Int) := by omega
  have hidx : ((i : Int) - 1).toNat = i - 1 := by omega
  simp [lua_val, lua_at, absidx, hpos, hone, hidx, List.getD_eq_getElem?_getD]

theorem push_copies_eq (s : Stack) (first count : Nat) (h1 : 1 ≤ first)
    (h2 : first + count ≤ s.length + 1) :
    push_copies s first count = s ++ (s.drop (first - 1)).take count := by
  unfold push_copies
  induction count with
  | zero => simp
  | succ c ih =>
    rw [List.range_succ, List.foldl_append, ih (by omega)]
    have hlt : first - 1 + c < s.length := by omega
    have hv : lua_val (s ++ List.take c (List.drop (first - 1) s)) (((first + c : Nat)) : Int)
        = s[first - 1 + c] := by
      rw [lua_val_append_pos s _ (first + c) (by omega) (by omega), lua_val_pos s _ (by omega)]
      have : first + c - 1 = first - 1 + c := by omega
      simp [this, List.getD_eq_getElem?_getD, List.getElem?_eq_getElem hlt]
    simp only [List.foldl_cons, List.foldl_nil, hv, lua_push, List.append_assoc]
    congr 1
    rw [List.take_succ]
    simp [List.getElem?_drop, List.getElem?_eq_getElem hlt]

/-- `bus_call` on the main state, for arguments that pass the checks. -/
theorem bus_call_main (v : Validators) (registry : LVal) (L : Stack)
    (block : DBusMessage → BlockResult) (tid : Nat)
    (dest object_path interface_name method_name : String)
    (h2 : lua_tostring (lua_val L 2) = some dest)
    (h3 : lua_tostring (lua_val L 3) = some object_path)
    (h4 : lua_tostring (lua_val L 4) = some interface_name)
    (h5 : lua_tostring (lua_val L 5) = some method_name)
    (hd : v.g_dbus_is_name dest = true)
    (hp : v.g_variant_is_object_path object_path = true)
    (hi : v.g_dbus_is_interface_name interface_name = true) :
    let msg0 := dbus_message_new_method_call dest object_path interface_name method_name
    let msg : DBusMessage := if lua_gettop L - 6 > 0 then
      range_to_msg msg0 L 7 (7 + (lua_gettop L - 6)) (call_options L).1 else msg0
    bus_call v registry L true block tid = .ok
      (match block msg with
      | .failed error =>
        ⟨3, L ++ [.nil, strKey error.name, strKey error.message], registry, [], msg,
          (call_options L).2, none⟩
      | .reply result =>
        ⟨result.body.length, L ++ result.body, registry, [], msg, (call_options L).2, none⟩) := by
  intro msg0 msg
  simp only [bus_call, luaL_checkstring, h2, h3, h4, h5, luaL_argcheck, hd, hp, hi,
    bind, Except.bind, pure, Except.pure, ↓reduceIte]
  simp only [msg, msg0]
  generalize (if lua_gettop L - 6 > 0 then
    range_to_msg (dbus_message_new_method_call dest object_path interface_name method_name)
      L 7 (7 + (lua_gettop L - 6)) (call_options L).1
    else dbus_message_new_method_call dest object_path interface_name method_name) = sent
  cases hb : block sent with
  | failed error => simp [lua_push, lua_pushstring]
  | reply result => simp [push_msg]

theorem length_of_lua_tostring (L : Stack) (i : Nat) (h1 : 1 ≤ i) (s : String)
    (h : lua_tostring (lua_val L (i : Int)) = some s) : i ≤ L.length := by
  by_contra hlt
  have hnil : lua_val L (i : Int) = .nil := by
    rw [lua_val_pos L i h1]
    simp [List.getD_eq_getElem?_getD, List.getElem?_eq_none (by omega : L.length ≤ i - 1)]
  rw [hnil] at h
  simp [lua_tostring] at h

/-- The stacks of `bus_call` off the main state after the arguments are moved to the task. -/
theorem bus_call_move (L : Stack) (tid conn : Nat) (hlen : 1 ≤ L.length) :
    let L1 := push_copies (lua_pushlightuserdata (lua_push L (.thread tid)) conn) 2
      ((lua_gettop L - 1).toNat)
    L1.drop (L1.length - (lua_gettop L).toNat) = .light conn :: L.drop 1 ∧
    lua_pop L1 (lua_gettop L).toNat = lua_push L (.thread tid) := by
  intro L1
  have hcount : (lua_gettop L - 1).toNat = L.length - 1 := by simp [lua_gettop]
  have htop : (lua_gettop L).toNat = L.length := by simp [lua_gettop]
  have hL1 : L1 = (L ++ [.thread tid]) ++ (.light conn :: L.drop 1) := by
    simp only [L1, hcount, lua_pushlightuserdata, lua_push]
    rw [push_copies_eq _ 2 (L.length - 1) (by decide) (by simp; omega)]
    have hd : List.drop (2 - 1) (L ++ [LVal.thread tid] ++ [LVal.light conn])
        = L.drop 1 ++ [LVal.thread tid, LVal.light conn] := by
      cases L with
      | nil => simp at hlen
      | cons x xs => simp
    rw [hd, List.take_append_of_le_length (by simp)]
    simp [List.take_of_length_le]
  have hlen1 : L1.length - L.length = (L ++ [LVal.thread tid]).length := by
    rw [hL1]; simp; omega
  constructor
  · rw [htop, hlen1, hL1, List.drop_left]
  · rw [htop]
    unfold lua_pop
    rw [hlen1, hL1, List.take_left]
    rfl

/-- `bus_call` off the main state, for arguments that pass the checks. -/
theorem bus_call_task (v : Validators) (registry : LVal) (L : Stack)
    (block : DBusMessage → BlockResult) (tid : Nat)
    (dest object_path interface_name method_name : String)
    (h2 : lua_tostring (lua_val L 2) = some dest)
    (h3 : lua_tostring (lua_val L 3) = some object_path)
    (h4 : lua_tostring (lua_val L 4) = some interface_name)
    (h5 : lua_tostring (lua_val L 5) = some method_name)
    (hd : v.g_dbus_is_name dest = true)
    (hp : v.g_variant_is_object_path object_path = true)
    (hi : v.g_dbus_is_interface_name interface_name = true) :
    let msg0 := dbus_message_new_method_call dest object_path interface_name method_name
    let msg : DBusMessage := if lua_gettop L - 6 - 2 > 0 then
      range_to_msg msg0 L 7 (7 + (lua_gettop L - 6 - 2)) (call_options L).1 else msg0
    bus_call v registry L false block tid = .ok
      ⟨0, L, rawsetKey registry (.light tid) (.thread tid), .light (get_conn L 1) :: L.drop 1,
        msg, (call_options L).2, some tid⟩ := by
  intro msg0 msg
  have hlen : 1 ≤ L.length := by
    have := length_of_lua_tostring L 2 (by decide) dest h2
    omega
  obtain ⟨hT, hpop⟩ := bus_call_move L tid (get_conn L 1) hlen
  simp only [bus_call, luaL_checkstring, h2, h3, h4, h5, luaL_argcheck, hd, hp, hi,
    bind, Except.bind, pure, Except.pure, ↓reduceIte, Bool.false_eq_true, hT, hpop,
    lua_val_push_top, lua_pop_push]

/-- The resumption `call_callback` performs on a task whose stack ends with the callback and
its argument. -/
theorem call_callback_events (registry : LVal) (tid : Nat) (below : Stack) (cb cb_arg : LVal)
    (rp : Nat) (reply : DBusMessage) :
    (call_callback registry tid (below ++ [cb, cb_arg]) rp reply).events =
      [.resume tid (some cb)
        (if reply.type = .method_return then cb_arg :: reply.body
         else [cb_arg, .nil, strKey (dbus_set_error_from_message reply).name,
                strKey (dbus_set_error_from_message reply).message]),
       .msg_unref rp] := by
  unfold call_callback
  by_cases h : reply.type = .method_return
  · have hr := ed_resume_top tid below cb (cb_arg :: reply.body)
      (1 + (reply.body.length : Int)) (by simp; omega)
    simp only [h, ↓reduceIte, push_msg]
    have hs : below ++ [cb, cb_arg] ++ reply.body = below ++ cb :: cb_arg :: reply.body := by
      simp
    rw [hs, hr]
  · have hr := ed_resume_top tid below cb
      [cb_arg, .nil, strKey (dbus_set_error_from_message reply).name,
        strKey (dbus_set_error_from_message reply).message] 4 (by simp)
    simp only [h, ↓reduceIte, lua_push, lua_pushstring]
    have hs : below ++ [cb, cb_arg] ++ [LVal.nil]
        ++ [strKey (dbus_set_error_from_message reply).name]
        ++ [strKey (dbus_set_error_from_message reply).message]
        = below ++ cb :: [cb_arg, .nil, strKey (dbus_set_error_from_message reply).name,
            strKey (dbus_set_error_from_message reply).message] := by
      simp
    rw [hs, hr]

/-- C7: a call whose arguments pass the checks produces exactly one outcome. On the main
state `bus_call` returns `(nil, error_name, error_message)` when the blocking send yields no
reply and otherwise the decoded values of the reply. Off the main state it returns no
value and attaches `call_callback`, which resumes the task exactly once: the callback runs
with its bound argument followed by the decoded values when the reply is a method return,
and followed by `(nil, error_name, error_message)` when it is not. -/
theorem bus_call_one_outcome (v : Validators) (registry : LVal) (L : Stack)
    (block : DBusMessage → BlockResult) (tid : Nat)
    (dest object_path interface_name method_name : String)
    (h2 : lua_tostring (lua_val L 2) = some dest)
    (h3 : lua_tostring (lua_val L 3) = some object_path)
    (h4 : lua_tostring (lua_val L 4) = some interface_name)
    (h5 : lua_tostring (lua_val L 5) = some method_name)
    (hd : v.g_dbus_is_name dest = true)
    (hp : v.g_variant_is_object_path object_path = true)
    (hi : v.g_dbus_is_interface_name interface_name = true) :
    (∃ r, bus_call v registry L true block tid = .ok r ∧ r.notify = none ∧
      (∀ err, block r.sent = .failed err →
        r.returned = [.nil, strKey err.name, strKey err.message]) ∧
      (∀ rep, block r.sent = .reply rep → r.returned = rep.body)) ∧
    (∀ (front : List LVal) (cb cb_arg : LVal), L = front ++ [cb, cb_arg] →
      ∃ r, bus_call v registry L false block tid = .ok r ∧ r.returned = [] ∧
        r.notify = some tid ∧
        ∀ (rp : Nat) (reply : DBusMessage),
          (call_callback r.registry tid r.task rp reply).events.filter Event.isResume =
            [.resume tid (some cb)
              (if reply.type = .method_return then cb_arg :: reply.body
               else [cb_arg, .nil, strKey (dbus_set_error_from_message reply).name,
                      strKey (dbus_set_error_from_message reply).message])]) := by
  constructor
  · have h := bus_call_main v registry L block tid dest object_path interface_name
      method_name h2 h3 h4 h5 hd hp hi
    simp only at h
    generalize (if lua_gettop L - 6 > 0 then
      range_to_msg (dbus_message_new_method_call dest object_path interface_name method_name)
        L 7 (7 + (lua_gettop L - 6)) (call_options L).1
      else dbus_message_new_method_call dest object_path interface_name method_name) = sent at h
    cases hb : block sent with
    | failed e =>
      rw [hb] at h
      refine ⟨_, h, rfl, ?_, ?_⟩
      · intro err herr
        have he : BlockResult.failed e = BlockResult.failed err := by rw [← hb]; exact herr
        cases he
        simp [CallResult.returned]
      · intro rep hrep
        have he : BlockResult.failed e = BlockResult.reply rep := by rw [← hb]; exact hrep
        cases he
    | reply result =>
      rw [hb] at h
      refine ⟨_, h, rfl, ?_, ?_⟩
      · intro err herr
        have he : BlockResult.reply result = BlockResult.failed err := by rw [← hb]; exact herr
        cases he
      · intro rep hrep
        have he : BlockResult.reply result = BlockResult.reply rep := by rw [← hb]; exact hrep
        cases he
        simp [CallResult.returned]
  · intro front cb cb_arg hL
    have h := bus_call_task v registry L block tid dest object_path interface_name
      method_name h2 h3 h4 h5 hd hp hi
    simp only at h
    refine ⟨_, h, by simp [CallResult.returned], rfl, ?_⟩
    intro rp reply
    have hlen := length_of_lua_tostring L 5 (by decide) method_name h5
    have hfront : front ≠ [] := by
      intro hf
      rw [hL, hf] at hlen
      simp at hlen
    have htask : LVal.light (get_conn L 1) :: L.drop 1 =
        (LVal.light (get_conn L 1) :: front.drop 1) ++ [cb, cb_arg] := by
      rw [hL]
      cases front with
      | nil => exact absurd rfl hfront
      | cons x xs => simp
    simp only [htask, call_callback_events]
    simp [Event.isResume]

/-- Witness of C7: the sample call, whose blocking send times out. -/
theorem bus_call_one_outcome_witness :
    lua_tostring (lua_val sampleArgs 2) = some "org.example.Peer" ∧
    lua_tostring (lua_val sampleArgs 3) = some "/obj" ∧
    lua_tostring (lua_val sampleArgs 4) = some "org.example.I" ∧
    lua_tostring (lua_val sampleArgs 5) = some "Echo" ∧
    sampleValidators.g_dbus_is_name "org.example.Peer" = true ∧
    sampleValidators.g_variant_is_object_path "/obj" = true ∧
    sampleValidators.g_dbus_is_interface_name "org.example.I" = true ∧
    (∃ r, bus_call sampleValidators sampleRegistry sampleArgs true sampleBlock 7 = .ok r ∧
      r.notify = none ∧
      (∀ err, sampleBlock r.sent = .failed err →
        r.returned = [.nil, strKey err.name, strKey err.message]) ∧
      (∀ rep, sampleBlock r.sent = .reply rep → r.returned = rep.body)) ∧
    (∀ (front : List LVal) (cb cb_arg : LVal), sampleArgs = front ++ [cb, cb_arg] →
      ∃ r, bus_call sampleValidators sampleRegistry sampleArgs false sampleBlock 7 = .ok r ∧
        r.returned = [] ∧ r.notify = some 7 ∧
        ∀ (rp : Nat) (reply : DBusMessage),
          (call_callback r.registry 7 r.task rp reply).events.filter Event.isResume =
            [.resume 7 (some cb)
              (if reply.type = .method_return then cb_arg :: reply.body
               else [cb_arg, .nil, strKey (dbus_set_error_from_message reply).name,
                      strKey (dbus_set_error_from_message reply).message])]) :=
  ⟨rfl, rfl, rfl, rfl, rfl, rfl, rfl,
   bus_call_one_outcome sampleValidators sampleRegistry sampleArgs sampleBlock 7
     "org.example.Peer" "/obj" "org.example.I" "Echo" rfl rfl rfl rfl rfl rfl rfl⟩

/-- When `bus_call` returns off the main state, the task is stored in the registry under
its own address. -/
theorem bus_call_registers_task (v : Validators) (hash : List (Key × LVal)) (L : Stack)
    (block : DBusMessage → BlockResult) (tid : Nat)
    (dest object_path interface_name method_name : String)
    (h2 : lua_tostring (lua_val L 2) = some dest)
    (h3 : lua_tostring (lua_val L 3) = some object_path)
    (h4 : lua_tostring (lua_val L 4) = some interface_name)
    (h5 : lua_tostring (lua_val L 5) = some method_name)
    (hd : v.g_dbus_is_name dest = true)
    (hp : v.g_variant_is_object_path object_path = true)
    (hi : v.g_dbus_is_interface_name interface_name = true) :
    ∃ r, bus_call v (.table [] hash) L false block tid = .ok r ∧
      rawget r.registry (.light tid) = .thread tid := by
  have h := bus_call_task v (.table [] hash) L block tid dest object_path interface_name
    method_name h2 h3 h4 h5 hd hp hi
  simp only at h
  refine ⟨_, h, ?_⟩
  simp [rawget, LVal.toKey, rawgetKey, rawsetKey, assocSet, assocGet, LVal.isNil]

/-- `call_callback` returns the registry it was given, whatever the reply. -/
theorem call_callback_registry (registry : LVal) (tid : Nat) (T : Stack) (rp : Nat)
    (reply : DBusMessage) : (call_callback registry tid T rp reply).registry = registry := by
  unfold call_callback
  split <;> rfl

/-- C8: the keep-alive entry of the sample call is present when `bus_call` returns, and it
is still present after `call_callback` has resumed the task, for a method return and for
an error reply alike: `call_callback` never removes it. -/
theorem call_callback_keeps_task :
    rawget sampleAsync.1 (.light 7) = .thread 7 ∧
    (call_callback sampleAsync.1 7 sampleAsync.2 50 sampleReturn).events =
      [.resume 7 (some (.func 30)) [.thread 3, .num 42], .msg_unref 50] ∧
    rawget (call_callback sampleAsync.1 7 sampleAsync.2 50 sampleReturn).registry (.light 7)
      = .thread 7 ∧
    (call_callback sampleAsync.1 7 sampleAsync.2 50 sampleErrorReply).events =
      [.resume 7 (some (.func 30)) [.thread 3, .nil,
        .str "org.freedesktop.DBus.Error.NoReply", .str "timed out"], .msg_unref 50] ∧
    rawget (call_callback sampleAsync.1 7 sampleAsync.2 50 sampleErrorReply).registry
      (.light 7) = .thread 7 := by
  refine ⟨rfl, rfl, rfl, rfl, rfl⟩

/-- C9: while a run phase or the external reactor mode is active, `easydbus_mainloop` fails
with the already-running error and leaves the bridge state (the run flag, the external
mode flag and callbacks, both registries and the started status of every record) and
the registry as they were, invoking nothing; when neither is active it does not fail. -/
theorem easydbus_mainloop_already_running (state : easydbus_state) (registry : LVal)
    (run : easydbus_state × LVal → easydbus_state × LVal) :
    ((state.in_mainloop = true ∨ state.external_mainloop.active = true) →
      (easydbus_mainloop state registry run).error = some "Already in mainloop" ∧
      (easydbus_mainloop state registry run).state = state ∧
      (easydbus_mainloop state registry run).registry = registry ∧
      (easydbus_mainloop state registry run).events = []) ∧
    (state.in_mainloop = false → state.external_mainloop.active = false →
      (easydbus_mainloop state registry run).error = none) := by
  constructor
  · intro h
    have hc : (state.in_mainloop || state.external_mainloop.active) = true := by
      rcases h with h | h <;> simp [h]
    simp [easydbus_mainloop, hc]
  · intro h1 h2
    simp [easydbus_mainloop, h1, h2]

/-- Witness of C9: a second run phase is refused and the started watch stays started. -/
theorem easydbus_mainloop_already_running_witness :
    (sampleRunning.in_mainloop = true ∨ sampleRunning.external_mainloop.active = true) ∧
    (easydbus_mainloop sampleRunning sampleRefs id).error = some "Already in mainloop" ∧
    (easydbus_mainloop sampleRunning sampleRefs id).state = sampleRunning ∧
    (easydbus_mainloop sampleRunning sampleRefs id).registry = sampleRefs ∧
    (easydbus_mainloop sampleRunning sampleRefs id).events = [] ∧
    sampleIdle.in_mainloop = false ∧ sampleIdle.external_mainloop.active = false ∧
    (easydbus_mainloop sampleIdle sampleRefs id).error = none :=
  ⟨Or.inl rfl,
   ((easydbus_mainloop_already_running sampleRunning sampleRefs id).1 (Or.inl rfl)).1,
   ((easydbus_mainloop_already_running sampleRunning sampleRefs id).1 (Or.inl rfl)).2.1,
   ((easydbus_mainloop_already_running sampleRunning sampleRefs id).1 (Or.inl rfl)).2.2.1,
   ((easydbus_mainloop_already_running sampleRunning sampleRefs id).1 (Or.inl rfl)).2.2.2,
   rfl, rfl,
   (easydbus_mainloop_already_running sampleIdle sampleRefs id).2 rfl rfl⟩

theorem assocGet_assocSet_same (kv : List (Key × LVal)) (k : Key) (v : LVal)
    (hv : v.isNil = false) : assocGet (assocSet kv k v) k = v := by
  simp [assocGet, assocSet, hv]

/-- C11: on the sample state with one live watch and one live timer, switching the external
mode on with three callbacks invokes the add callback for the watch, but for the timer it
calls the value held under `timeout_add`, a field the activation never assigns, here
nil, on which Lua raises an error: the add callback is not invoked for the timer. Both
registries are left unchanged. -/
theorem set_watch_funcs_skips_timer :
    sampleActivation.error = some "attempt to call a nil value" ∧
    sampleActivation.state.external_mainloop = ⟨true, 5, 4, 3, -1, -1⟩ ∧
    rawgeti sampleActivation.registry 5 = .func 1 ∧
    sampleActivation.events =
      [.call (.func 1) [.userdata 100], .call .nil [.userdata 200]] ∧
    sampleActivation.state.ios = sampleIdle.ios ∧
    sampleActivation.state.timers = sampleIdle.timers :=
  ⟨rfl, rfl, rfl, rfl, rfl, rfl⟩

/-- Switching the external mode off invokes nothing, whatever the registries hold. -/
theorem set_watch_funcs_off_silent (state : easydbus_state) (registry : LVal)
    (ha : state.external_mainloop.active = true) :
    (easydbus_set_watch_funcs [] state registry).events = [] ∧
    (easydbus_set_watch_funcs [] state registry).state.external_mainloop =
      { state.external_mainloop with
        active := false, watch_add := -1, watch_remove := -1, watch_toggle := -1 } ∧
    (easydbus_set_watch_funcs [] state registry).state.ios = state.ios ∧
    (easydbus_set_watch_funcs [] state registry).state.timers = state.timers := by
  simp [easydbus_set_watch_funcs, lua_gettop, ha]

/-- C12: switching the external mode off on the sample state, which holds one live watch
and one live timer, clears the stored callbacks and the active flag and leaves the
registries unchanged, but invokes no remove callback at all: the replay of
`easydbus_disable_external_watches`, which would make two calls, is never run. -/
theorem set_watch_funcs_off_no_replay :
    sampleActivation.state.external_mainloop.active = true ∧
    sampleDeactivation.error = none ∧
    sampleDeactivation.events = [] ∧
    (easydbus_disable_external_watches sampleActivation.registry
      sampleActivation.state).1.length = 2 ∧
    sampleDeactivation.state.external_mainloop = ⟨false, -1, -1, -1, -1, -1⟩ ∧
    sampleDeactivation.state.ios = sampleIdle.ios ∧
    sampleDeactivation.state.timers = sampleIdle.timers :=
  ⟨rfl, rfl, rfl, rfl, rfl, rfl, rfl⟩

/-- C13: with the external mode active after the sample activation, the three watch events
and the timeout toggle invoke the recorded add, remove and toggle callbacks with the
handle of the record, but a timeout add and a timeout remove call the values held under
`timeout_add` and `timeout_remove`, here nil, not a recorded callback, and Lua raises an
error on them. The registries are updated by the watch events and by the timeout add; the
timeout remove raises before it unlinks the record. Nothing is invoked while the mode is
off. -/
theorem external_events_timeout_callbacks :
    (watch_add sampleActivation.state sampleActivation.registry 1 sampleWatch 101).events =
      [.call (.func 1) [.userdata 101]] ∧
    (watch_remove sampleActivation.state sampleActivation.registry
      ⟨100, 5, 1, true⟩).outcome.events = [.call (.func 2) [.userdata 100]] ∧
    (watch_toggle sampleActivation.state sampleActivation.registry
      ⟨100, 5, 1, false⟩).events = [.call (.func 3) [.userdata 100]] ∧
    (timeout_toggle sampleActivation.state sampleActivation.registry
      ⟨200, 1000, true⟩).events = [.call (.func 3) [.userdata 200]] ∧
    (timeout_add sampleActivation.state sampleActivation.registry 1 sampleTimeout 201).events =
      [.call .nil [.userdata 201]] ∧
    (timeout_remove sampleActivation.state sampleActivation.registry
      ⟨200, 1000, false⟩).outcome.events = [.call .nil [.userdata 200]] ∧
    (timeout_add sampleActivation.state sampleActivation.registry 1 sampleTimeout 201).error =
      some "attempt to call a nil value" ∧
    (timeout_remove sampleActivation.state sampleActivation.registry
      ⟨200, 1000, false⟩).outcome.error = some "attempt to call a nil value" ∧
    (watch_add sampleActivation.state sampleActivation.registry 1 sampleWatch 101).error =
      none ∧
    (watch_remove sampleActivation.state sampleActivation.registry
      ⟨100, 5, 1, true⟩).outcome.error = none ∧
    ((watch_add sampleActivation.state sampleActivation.registry 1 sampleWatch 101).state.ios.map
      (fun io => io.watch) = [100, 101]) ∧
    ((watch_remove sampleActivation.state sampleActivation.registry
      ⟨100, 5, 1, true⟩).outcome.state.ios = []) ∧
    ((timeout_add sampleActivation.state sampleActivation.registry 1 sampleTimeout
      201).state.timers.map (fun t => t.timeout) = [200, 201]) ∧
    ((timeout_remove sampleActivation.state sampleActivation.registry
      ⟨200, 1000, false⟩).outcome.state.timers = sampleIdle.timers) ∧
    (watch_add sampleIdle sampleRefs 1 sampleWatch 101).events = [] ∧
    (timeout_add sampleIdle sampleRefs 1 sampleTimeout 201).events = [] :=
  ⟨rfl, rfl, rfl, rfl, rfl, rfl, rfl, rfl, rfl, rfl, rfl, rfl, rfl, rfl, rfl, rfl⟩

/-- `bus_emit` for arguments that pass the checks. -/
theorem bus_emit_eq (v : Validators) (L : Stack) (send_ok : Bool)
    (object_path interface_name signal_name : String)
    (h3 : lua_tostring (lua_val L 3) = some object_path)
    (h4 : lua_tostring (lua_val L 4) = some interface_name)
    (h5 : lua_tostring (lua_val L 5) = some signal_name)
    (hp : v.dbus_validate_path object_path = true)
    (hi : v.dbus_validate_interface interface_name = true)
    (hl : ∀ l, lua_tostring (lua_val L 2) = some l → v.dbus_validate_bus_name l = true) :
    bus_emit v L send_ok = .ok
      ⟨if send_ok then 1 else 2,
        if send_ok then L ++ [.bool true] else L ++ [.nil, .str "Out of memory"],
        [.send (get_conn L 1)
          (range_to_msg
            { dbus_message_new_signal object_path interface_name signal_name with
              destination := lua_tostring (lua_val L 2) }
            L 7 (lua_gettop L + 1) (lua_tostring (lua_val L 6)))],
        (lua_tostring (lua_val L 2)).toList⟩ := by
  cases hlis : lua_tostring (lua_val L 2) with
  | none =>
    cases send_ok <;>
      simp [bus_emit, luaL_checkstring, h3, h4, h5, luaL_argcheck, hp, hi, hlis,
        bind, Except.bind, pure, Except.pure, lua_push, dbus_message_new_signal]
  | some l =>
    have hv := hl l hlis
    cases send_ok <;>
      simp [bus_emit, luaL_checkstring, h3, h4, h5, luaL_argcheck, hp, hi, hlis, hv,
        bind, Except.bind, pure, Except.pure, lua_push, dbus_message_new_signal]

/-- C14: an emit call whose path, interface and signal name pass the checks hands exactly
one signal message to the connection. With a nil listener no destination is set; with a
valid bus name the destination is set once, to that name. The call returns `true` when
the send succeeds and `(nil, "Out of memory")` when it does not. -/
theorem bus_emit_destination (v : Validators) (L : Stack) (send_ok : Bool)
    (object_path interface_name signal_name : String)
    (h3 : lua_tostring (lua_val L 3) = some object_path)
    (h4 : lua_tostring (lua_val L 4) = some interface_name)
    (h5 : lua_tostring (lua_val L 5) = some signal_name)
    (hp : v.dbus_validate_path object_path = true)
    (hi : v.dbus_validate_interface interface_name = true) :
    (lua_val L 2 = .nil →
      ∃ r msg, bus_emit v L send_ok = .ok r ∧ r.events = [.send (get_conn L 1) msg] ∧
        msg.type = .signal ∧ msg.destination = none ∧ r.destinations = [] ∧
        r.returned = if send_ok then [.bool true] else [.nil, .str "Out of memory"]) ∧
    (∀ l, lua_tostring (lua_val L 2) = some l → v.dbus_validate_bus_name l = true →
      ∃ r msg, bus_emit v L send_ok = .ok r ∧ r.events = [.send (get_conn L 1) msg] ∧
        msg.type = .signal ∧ msg.destination = some l ∧ r.destinations = [l] ∧
        r.returned = if send_ok then [.bool true] else [.nil, .str "Out of memory"]) := by
  constructor
  · intro hnil
    have hlis : lua_tostring (lua_val L 2) = none := by rw [hnil]; rfl
    have h := bus_emit_eq v L send_ok object_path interface_name signal_name h3 h4 h5 hp hi
      (by intro l hl; rw [hlis] at hl; cases hl)
    refine ⟨_, _, h, rfl, rfl, ?_, ?_, ?_⟩
    · simp [range_to_msg, hlis]
    · simp [hlis]
    · cases send_ok <;> simp [EmitResult.returned]
  · intro l hlis hv
    have h := bus_emit_eq v L send_ok object_path interface_name signal_name h3 h4 h5 hp hi
      (by intro l2 hl; rw [hlis] at hl; cases hl; exact hv)
    refine ⟨_, _, h, rfl, rfl, ?_, ?_, ?_⟩
    · simp [range_to_msg, hlis]
    · simp [hlis]
    · cases send_ok <;> simp [EmitResult.returned]

/-- Witness of C14: a broadcast and a signal addressed to `:1.42`. -/
theorem bus_emit_destination_witness :
    lua_tostring (lua_val (sampleEmit .nil) 3) = some "/obj" ∧
    lua_tostring (lua_val (sampleEmit .nil) 4) = some "org.example.I" ∧
    lua_tostring (lua_val (sampleEmit .nil) 5) = some "Changed" ∧
    sampleValidators.dbus_validate_path "/obj" = true ∧
    sampleValidators.dbus_validate_interface "org.example.I" = true ∧
    lua_val (sampleEmit .nil) 2 = .nil ∧
    (∃ r msg, bus_emit sampleValidators (sampleEmit .nil) true = .ok r ∧
      r.events = [.send (get_conn (sampleEmit .nil) 1) msg] ∧
      msg.type = .signal ∧ msg.destination = none ∧ r.destinations = [] ∧
      r.returned = if true then [.bool true] else [.nil, .str "Out of memory"]) ∧
    lua_tostring (lua_val (sampleEmit (.str ":1.42")) 2) = some ":1.42" ∧
    (∃ r msg, bus_emit sampleValidators (sampleEmit (.str ":1.42")) false = .ok r ∧
      r.events = [.send (get_conn (sampleEmit (.str ":1.42")) 1) msg] ∧
      msg.type = .signal ∧ msg.destination = some ":1.42" ∧ r.destinations = [":1.42"] ∧
      r.returned = if false then [.bool true] else [.nil, .str "Out of memory"]) :=
  ⟨rfl, rfl, rfl, rfl, rfl, rfl,
   (bus_emit_destination sampleValidators (sampleEmit .nil) true "/obj" "org.example.I"
     "Changed" rfl rfl rfl rfl rfl).1 rfl,
   rfl,
   (bus_emit_destination sampleValidators (sampleEmit (.str ":1.42")) false "/obj"
     "org.example.I" "Changed" rfl rfl rfl rfl rfl).2 ":1.42" rfl rfl⟩

theorem lua_isnil_push (s : Stack) (v : LVal) : lua_isnil (lua_push s v) (-1) = v.isNil := by
  have h := lua_at_of_absidx (s ++ [v]) (-1) s.length (by simp [absidx])
  simp [lua_isnil, lua_push, h]

/-- `new_conn` when the registry already holds a registration for the connection. -/
theorem new_conn_existing (bus_get : DBusBusType → Nat) (registry : LVal) (L : Stack)
    (bus_type : DBusBusType)
    (h : (rawget registry (.light (bus_get bus_type))).isNil = false) :
    new_conn bus_get registry L bus_type =
      ⟨L ++ [rawget registry (.light (bus_get bus_type))], registry,
        [.unref (bus_get bus_type)]⟩ := by
  simp only [new_conn, lua_pushlightuserdata, lua_rawget_registry_push, lua_isnil_push, h,
    Bool.not_false, ↓reduceIte]
  simp [lua_push]

/-- `new_conn` when the registry holds no registration for the connection. -/
theorem new_conn_fresh (bus_get : DBusBusType → Nat) (registry : LVal) (L : Stack)
    (bus_type : DBusBusType)
    (h : (rawget registry (.light (bus_get bus_type))).isNil = true) :
    new_conn bus_get registry L bus_type =
      ⟨L ++ [rawget registry (.light (bus_get bus_type)),
          connection_table (bus_get bus_type)],
        rawsetKey registry (.light (bus_get bus_type)) (connection_table (bus_get bus_type)),
        [.register_fallback (bus_get bus_type) "/",
          .add_filter (bus_get bus_type) "signal_callback",
          .add_filter (bus_get bus_type) "standard_methods_callback",
          .set_exit_on_disconnect (bus_get bus_type) false,
          .set_watch_functions (bus_get bus_type),
          .set_timeout_functions (bus_get bus_type)]⟩ := by
  simp only [new_conn, lua_pushlightuserdata, lua_rawget_registry_push, lua_isnil_push, h,
    Bool.not_true, Bool.false_eq_true, ↓reduceIte, lua_val_push_top]
  simp [lua_push]

theorem returned_push (s : Stack) (v : LVal) (registry : LVal) (setup : List ConnSetup) :
    NewConn.returned ⟨s ++ [v], registry, setup⟩ = v := by
  have := lua_val_push_top s v
  simpa [NewConn.returned, lua_push] using this

/-- C15: opening is idempotent per connection. When the registry already holds a
registration for the connection the bus library returns, `new_conn` returns that
registration, leaves the registry unchanged and only drops the extra reference, so no
dispatcher, filter or function set is registered. Hence a second open of the same kind
returns the registration of the first and leaves the registry of the first. -/
theorem new_conn_idempotent (bus_get : DBusBusType → Nat) (arr : List LVal)
    (hash : List (Key × LVal)) (L L2 : Stack) (bus_type : DBusBusType) :
    ((rawget (.table arr hash) (.light (bus_get bus_type))).isNil = false →
      (new_conn bus_get (.table arr hash) L bus_type).returned =
        rawget (.table arr hash) (.light (bus_get bus_type)) ∧
      (new_conn bus_get (.table arr hash) L bus_type).registry = .table arr hash ∧
      (new_conn bus_get (.table arr hash) L bus_type).setup = [.unref (bus_get bus_type)]) ∧
    ((new_conn bus_get (new_conn bus_get (.table arr hash) L bus_type).registry L2
        bus_type).returned = (new_conn bus_get (.table arr hash) L bus_type).returned ∧
      (new_conn bus_get (new_conn bus_get (.table arr hash) L bus_type).registry L2
        bus_type).registry = (new_conn bus_get (.table arr hash) L bus_type).registry ∧
      (new_conn bus_get (new_conn bus_get (.table arr hash) L bus_type).registry L2
        bus_type).setup = [.unref (bus_get bus_type)]) := by
  constructor
  · intro h
    rw [new_conn_existing bus_get _ L bus_type h]
    exact ⟨returned_push _ _ _ _, rfl, rfl⟩
  · cases h : (rawget (.table arr hash) (.light (bus_get bus_type))).isNil with
    | false =>
      rw [new_conn_existing bus_get _ L bus_type h, new_conn_existing bus_get _ L2 bus_type h]
      exact ⟨by rw [returned_push, returned_push], rfl, rfl⟩
    | true =>
      rw [new_conn_fresh bus_get _ L bus_type h]
      have hget : rawget (rawsetKey (.table arr hash) (.light (bus_get bus_type))
          (connection_table (bus_get bus_type))) (.light (bus_get bus_type))
          = connection_table (bus_get bus_type) := by
        simp only [rawsetKey, rawget, LVal.toKey, rawgetKey]
        exact assocGet_assocSet_same _ _ _ rfl
      have hnn : (rawget (rawsetKey (.table arr hash) (.light (bus_get bus_type))
          (connection_table (bus_get bus_type))) (.light (bus_get bus_type))).isNil = false := by
        rw [hget]; rfl
      simp only []
      rw [new_conn_existing bus_get _ L2 bus_type hnn, hget]
      refine ⟨?_, rfl, rfl⟩
      have e1 := returned_push L2 (connection_table (bus_get bus_type))
        (rawsetKey (.table arr hash) (.light (bus_get bus_type))
          (connection_table (bus_get bus_type))) [.unref (bus_get bus_type)]
      have e2 := returned_push (L ++ [rawget (.table arr hash) (.light (bus_get bus_type))])
        (connection_table (bus_get bus_type))
        (rawsetKey (.table arr hash) (.light (bus_get bus_type))
          (connection_table (bus_get bus_type)))
        [.register_fallback (bus_get bus_type) "/",
          .add_filter (bus_get bus_type) "signal_callback",
          .add_filter (bus_get bus_type) "standard_methods_callback",
          .set_exit_on_disconnect (bus_get bus_type) false,
          .set_watch_functions (bus_get bus_type),
          .set_timeout_functions (bus_get bus_type)]
      simp only [List.append_assoc, List.singleton_append] at e2
      rw [e1, e2]

/-- Witness of C15: the session bus of the sample registry, which is already registered,
and the system bus, which is not. -/
theorem new_conn_idempotent_witness :
    (rawget sampleRegistry (.light (sampleBusGet .SESSION))).isNil = false ∧
    (new_conn sampleBusGet sampleRegistry [] .SESSION).registry = sampleRegistry ∧
    (new_conn sampleBusGet sampleRegistry [] .SESSION).setup = [.unref 1] ∧
    (new_conn sampleBusGet (new_conn sampleBusGet sampleRegistry [] .SYSTEM).registry []
        .SYSTEM).registry = (new_conn sampleBusGet sampleRegistry [] .SYSTEM).registry ∧
    (new_conn sampleBusGet (new_conn sampleBusGet sampleRegistry [] .SYSTEM).registry []
        .SYSTEM).setup = [.unref 2] :=
  ⟨rfl,
   ((new_conn_idempotent sampleBusGet []
      [(.light 1, .table [.light 1, .table [] [(.str "/obj", sampleNode)],
        .table [] [(.str "/obj:org.example.I:Changed", .table [.func 20, .num 5] [])]] [])]
      [] [] .SESSION).1 rfl).2.1,
   ((new_conn_idempotent sampleBusGet []
      [(.light 1, .table [.light 1, .table [] [(.str "/obj", sampleNode)],
        .table [] [(.str "/obj:org.example.I:Changed", .table [.func 20, .num 5] [])]] [])]
      [] [] .SESSION).1 rfl).2.2,
   (new_conn_idempotent sampleBusGet []
      [(.light 1, .table [.light 1, .table [] [(.str "/obj", sampleNode)],
        .table [] [(.str "/obj:org.example.I:Changed", .table [.func 20, .num 5] [])]] [])]
      [] [] .SYSTEM).2.2.1,
   (new_conn_idempotent sampleBusGet []
      [(.light 1, .table [.light 1, .table [] [(.str "/obj", sampleNode)],
        .table [] [(.str "/obj:org.example.I:Changed", .table [.func 20, .num 5] [])]] [])]
      [] [] .SYSTEM).2.2.2⟩

/-- C16: entering a run phase starts the enabled watches and timers and touches no
disabled one (a record is started afterwards iff it was started or is enabled); leaving
it stops every record; so after entering and leaving nothing is started. The records of
both registries, their order, the run flag and the external mode are left as they were. -/
theorem enable_disable_ios (state : easydbus_state) :
    ((easydbus_enable_ios state).ios.map (fun io => io.started) =
        state.ios.map (fun io => io.started || io.enabled)) ∧
    ((easydbus_enable_ios state).timers.map (fun t => t.started) =
        state.timers.map (fun t => t.started || t.enabled)) ∧
    ((easydbus_disable_ios state).ios.map (fun io => io.started) =
        state.ios.map (fun _ => false)) ∧
    ((easydbus_disable_ios state).timers.map (fun t => t.started) =
        state.timers.map (fun _ => false)) ∧
    ((easydbus_disable_ios (easydbus_enable_ios state)).ios.map (fun io => io.started) =
        state.ios.map (fun _ => false)) ∧
    ((easydbus_disable_ios (easydbus_enable_ios state)).timers.map (fun t => t.started) =
        state.timers.map (fun _ => false)) ∧
    ((easydbus_enable_ios state).ios.map ev_io_wrap.identity =
        state.ios.map ev_io_wrap.identity) ∧
    ((easydbus_enable_ios state).timers.map ev_timer_wrap.identity =
        state.timers.map ev_timer_wrap.identity) ∧
    ((easydbus_disable_ios (easydbus_enable_ios state)).ios.map ev_io_wrap.identity =
        state.ios.map ev_io_wrap.identity) ∧
    ((easydbus_disable_ios (easydbus_enable_ios state)).timers.map ev_timer_wrap.identity =
        state.timers.map ev_timer_wrap.identity) ∧
    (easydbus_disable_ios (easydbus_enable_ios state)).in_mainloop = state.in_mainloop ∧
    (easydbus_disable_ios (easydbus_enable_ios state)).external_mainloop =
      state.external_mainloop := by
  refine ⟨?_, ?_, ?_, ?_, ?_, ?_, ?_, ?_, ?_, ?_, rfl, rfl⟩
  all_goals
    simp only [easydbus_enable_ios, easydbus_disable_ios, List.map_map]
    apply List.map_congr_left
    intro x _
    cases hx : x.enabled <;> simp [Function.comp, ev_io_wrap.identity, ev_timer_wrap.identity, hx]

/-- `easydbus_set_watch_funcs` changes neither the run flag nor a registry. -/
theorem set_watch_funcs_frame (L : Stack) (s : easydbus_state) (r : LVal) :
    (easydbus_set_watch_funcs L s r).state.in_mainloop = s.in_mainloop ∧
    (easydbus_set_watch_funcs L s r).state.ios = s.ios ∧
    (easydbus_set_watch_funcs L s r).state.timers = s.timers := by
  unfold easydbus_set_watch_funcs
  simp only []
  split
  · exact ⟨rfl, rfl, rfl⟩
  · split
    · exact ⟨rfl, rfl, rfl⟩
    · split
      · exact ⟨rfl, rfl, rfl⟩
      · split
        · exact ⟨rfl, rfl, rfl⟩
        · split
          · exact ⟨rfl, rfl, rfl⟩
          · exact ⟨rfl, rfl, rfl⟩

theorem watch_add_state (s : easydbus_state) (r : LVal) (conn : Nat) (w : DBusWatch) (u : Nat) :
    (watch_add s r conn w u).state =
      { s with ios := s.ios ++ [⟨w.ptr, conn, (luaL_ref r (.userdata u)).1, w.fd,
        flags_dbus_to_ev w.flags, w.enabled, s.in_mainloop && w.enabled⟩] } := rfl

theorem timeout_add_state (s : easydbus_state) (r : LVal) (conn : Nat) (t : DBusTimeout)
    (u : Nat) :
    (timeout_add s r conn t u).state =
      { s with timers := s.timers ++ [⟨t.ptr, conn, (luaL_ref r (.userdata u)).1, t.interval,
        t.interval, t.interval, t.enabled, s.in_mainloop && t.enabled⟩] } := rfl

/-- What `watch_remove` leaves when it returns without an error. -/
theorem watch_remove_state (s : easydbus_state) (r : LVal) (w : DBusWatch)
    (herr : (watch_remove s r w).outcome.error = none) :
    (watch_remove s r w).outcome.state.in_mainloop = s.in_mainloop ∧
    (watch_remove s r w).outcome.state.timers = s.timers ∧
    (watch_remove s r w).outcome.state.ios =
      s.ios.filter (fun x => !decide (x.watch = w.ptr)) ∧
    (∀ io, (watch_remove s r w).removed = some io →
      ∃ old ∈ s.ios, old.watch = w.ptr ∧
        io = if s.in_mainloop then { old with started := false } else old) := by
  unfold watch_remove at herr ⊢
  cases h : dbus_watch_get_data s w with
  | none =>
    have hnone := List.find?_eq_none.mp h
    refine ⟨rfl, rfl, ?_, ?_⟩
    · change s.ios = _
      symm
      apply List.filter_eq_self.mpr
      intro x hx
      have := hnone x hx
      simpa using this
    · intro io hio
      simp at hio
  | some io_wrap =>
    have hmem : io_wrap ∈ s.ios := List.mem_of_find?_eq_some h
    have hptr : io_wrap.watch = w.ptr := by
      have := List.find?_some h
      simpa using this
    simp only [h] at herr ⊢
    cases hc : (external_call r s.external_mainloop s.external_mainloop.watch_remove
        io_wrap.ref).2 with
    | some e => simp [hc] at herr
    | none =>
      simp only [hc]
      refine ⟨rfl, rfl, ?_, ?_⟩
      · change s.ios.filter (fun x => !decide (x.watch = io_wrap.watch)) = _
        rw [hptr]
      · intro io hio
        simp only [Option.some.injEq] at hio
        exact ⟨io_wrap, hmem, hptr, hio.symm⟩

/-- What `timeout_remove` leaves when it returns without an error. -/
theorem timeout_remove_state (s : easydbus_state) (r : LVal) (t : DBusTimeout)
    (herr : (timeout_remove s r t).outcome.error = none) :
    (timeout_remove s r t).outcome.state.in_mainloop = s.in_mainloop ∧
    (timeout_remove s r t).outcome.state.ios = s.ios ∧
    (timeout_remove s r t).outcome.state.timers =
      s.timers.filter (fun x => !decide (x.timeout = t.ptr)) ∧
    (∀ tm, (timeout_remove s r t).removed = some tm →
      ∃ old ∈ s.timers, old.timeout = t.ptr ∧
        tm = if s.in_mainloop then { old with started := false } else old) := by
  unfold timeout_remove at herr ⊢
  cases h : dbus_timeout_get_data s t with
  | none =>
    have hnone := List.find?_eq_none.mp h
    refine ⟨rfl, rfl, ?_, ?_⟩
    · change s.timers = _
      symm
      apply List.filter_eq_self.mpr
      intro x hx
      have := hnone x hx
      simpa using this
    · intro tm htm
      simp at htm
  | some timer_wrap =>
    have hmem : timer_wrap ∈ s.timers := List.mem_of_find?_eq_some h
    have hptr : timer_wrap.timeout = t.ptr := by
      have := List.find?_some h
      simpa using this
    simp only [h] at herr ⊢
    cases hc : (external_call r s.external_mainloop s.external_mainloop.timeout_remove
        timer_wrap.ref).2 with
    | some e => simp [hc] at herr
    | none =>
      simp only [hc]
      refine ⟨rfl, rfl, ?_, ?_⟩
      · change s.timers.filter (fun x => !decide (x.timeout = timer_wrap.timeout)) = _
        rw [hptr]
      · intro tm htm
        simp only [Option.some.injEq] at htm
        exact ⟨timer_wrap, hmem, hptr, htm.symm⟩

/-- What `watch_toggle` leaves when it returns without an error. -/
theorem watch_toggle_state (s : easydbus_state) (r : LVal) (w : DBusWatch)
    (herr : (watch_toggle s r w).error = none) :
    (watch_toggle s r w).state.in_mainloop = s.in_mainloop ∧
    (watch_toggle s r w).state.timers = s.timers ∧
    (watch_toggle s r w).state.ios = s.ios.map (fun x =>
      if x.watch = w.ptr then
        { x with enabled := w.enabled,
                 started := if s.in_mainloop then w.enabled else x.started }
      else x) := by
  unfold watch_toggle at herr ⊢
  cases h : dbus_watch_get_data s w with
  | none =>
    refine ⟨rfl, rfl, ?_⟩
    have hnone := List.find?_eq_none.mp h
    change s.ios = _
    conv_lhs => rw [← List.map_id s.ios]
    apply List.map_congr_left
    intro x hx
    have := hnone x hx
    simp only [decide_eq_true_eq] at this
    simp [this]
  | some io_wrap =>
    simp only [h] at herr ⊢
    simp only [herr, Option.isNone_none, Bool.and_true]
    exact ⟨trivial, trivial, trivial⟩

/-- What `timeout_toggle` leaves when it returns without an error. -/
theorem timeout_toggle_state (s : easydbus_state) (r : LVal) (t : DBusTimeout)
    (herr : (timeout_toggle s r t).error = none) :
    (timeout_toggle s r t).state.in_mainloop = s.in_mainloop ∧
    (timeout_toggle s r t).state.ios = s.ios ∧
    (timeout_toggle s r t).state.timers = s.timers.map (fun x =>
      if x.timeout = t.ptr then
        { x with enabled := t.enabled, interval := t.interval,
                 started := if s.in_mainloop then t.enabled else x.started }
      else x) := by
  unfold timeout_toggle at herr ⊢
  cases h : dbus_timeout_get_data s t with
  | none =>
    refine ⟨rfl, rfl, ?_⟩
    have hnone := List.find?_eq_none.mp h
    change s.timers = _
    conv_lhs => rw [← List.map_id s.timers]
    apply List.map_congr_left
    intro x hx
    have := hnone x hx
    simp only [decide_eq_true_eq] at this
    simp [this]
  | some timer_wrap =>
    simp only [h] at herr ⊢
    simp only [herr, Option.isNone_none, Bool.and_true]
    exact ⟨trivial, trivial, trivial⟩

/-- The six callbacks follow the enabled flag whenever they return without an error.
After `watch_add` (`timeout_add`) the new record is started iff a run phase is active and
the watch (timer) is enabled, whether or not the external call raised. After a toggle
inside a run phase the record is started iff it is now enabled; outside a run phase no
record changes its status. After a remove no record of the watch (timer) is left, and the
unlinked record is stopped when a run phase is active or when it was not started. -/
theorem callbacks_track_enabled :
    (∀ (s : easydbus_state) (r : LVal) (conn : Nat) (w : DBusWatch) (u : Nat),
      ∃ io, (watch_add s r conn w u).state.ios = s.ios ++ [io] ∧ io.watch = w.ptr ∧
        io.started = (s.in_mainloop && w.enabled)) ∧
    (∀ (s : easydbus_state) (r : LVal) (conn : Nat) (t : DBusTimeout) (u : Nat),
      ∃ tm, (timeout_add s r conn t u).state.timers = s.timers ++ [tm] ∧ tm.timeout = t.ptr ∧
        tm.started = (s.in_mainloop && t.enabled)) ∧
    (∀ (s : easydbus_state) (r : LVal) (w : DBusWatch), (watch_toggle s r w).error = none →
      s.in_mainloop = true →
      ∀ io ∈ (watch_toggle s r w).state.ios, io.watch = w.ptr → io.started = w.enabled) ∧
    (∀ (s : easydbus_state) (r : LVal) (t : DBusTimeout), (timeout_toggle s r t).error = none →
      s.in_mainloop = true →
      ∀ tm ∈ (timeout_toggle s r t).state.timers, tm.timeout = t.ptr →
        tm.started = t.enabled) ∧
    (∀ (s : easydbus_state) (r : LVal) (w : DBusWatch), (watch_toggle s r w).error = none →
      s.in_mainloop = false →
      (watch_toggle s r w).state.ios.map (fun io => io.started) =
        s.ios.map (fun io => io.started)) ∧
    (∀ (s : easydbus_state) (r : LVal) (t : DBusTimeout), (timeout_toggle s r t).error = none →
      s.in_mainloop = false →
      (timeout_toggle s r t).state.timers.map (fun tm => tm.started) =
        s.timers.map (fun tm => tm.started)) ∧
    (∀ (s : easydbus_state) (r : LVal) (w : DBusWatch),
      (watch_remove s r w).outcome.error = none →
      (∀ io ∈ (watch_remove s r w).outcome.state.ios, io.watch ≠ w.ptr) ∧
      (∀ io, (watch_remove s r w).removed = some io →
        ∃ old ∈ s.ios, old.watch = w.ptr ∧
          io.started = (!s.in_mainloop && old.started))) ∧
    (∀ (s : easydbus_state) (r : LVal) (t : DBusTimeout),
      (timeout_remove s r t).outcome.error = none →
      (∀ tm ∈ (timeout_remove s r t).outcome.state.timers, tm.timeout ≠ t.ptr) ∧
      (∀ tm, (timeout_remove s r t).removed = some tm →
        ∃ old ∈ s.timers, old.timeout = t.ptr ∧
          tm.started = (!s.in_mainloop && old.started))) := by
  refine ⟨?_, ?_, ?_, ?_, ?_, ?_, ?_, ?_⟩
  · intro s r conn w u
    exact ⟨_, by rw [watch_add_state], rfl, rfl⟩
  · intro s r conn t u
    exact ⟨_, by rw [timeout_add_state], rfl, rfl⟩
  · intro s r w herr hm io hmem hw
    rw [(watch_toggle_state s r w herr).2.2] at hmem
    obtain ⟨x, hx, rfl⟩ := List.mem_map.mp hmem
    by_cases hxw : x.watch = w.ptr
    · simp [hxw, hm]
    · simp only [hxw, ↓reduceIte] at hw
  · intro s r t herr hm tm hmem hw
    rw [(timeout_toggle_state s r t herr).2.2] at hmem
    obtain ⟨x, hx, rfl⟩ := List.mem_map.mp hmem
    by_cases hxw : x.timeout = t.ptr
    · simp [hxw, hm]
    · simp only [hxw, ↓reduceIte] at hw
  · intro s r w herr hm
    rw [(watch_toggle_state s r w herr).2.2, List.map_map]
    apply List.map_congr_left
    intro x _
    by_cases hxw : x.watch = w.ptr <;> simp [hxw, hm]
  · intro s r t herr hm
    rw [(timeout_toggle_state s r t herr).2.2, List.map_map]
    apply List.map_congr_left
    intro x _
    by_cases hxw : x.timeout = t.ptr <;> simp [hxw, hm]
  · intro s r w herr
    obtain ⟨_, _, h3, h4⟩ := watch_remove_state s r w herr
    constructor
    · intro io hmem
      rw [h3] at hmem
      have := (List.mem_filter.mp hmem).2
      simpa using this
    · intro io hio
      obtain ⟨old, hold, hw, rfl⟩ := h4 io hio
      refine ⟨old, hold, hw, ?_⟩
      cases hm : s.in_mainloop <;> simp
  · intro s r t herr
    obtain ⟨_, _, h3, h4⟩ := timeout_remove_state s r t herr
    constructor
    · intro tm hmem
      rw [h3] at hmem
      have := (List.mem_filter.mp hmem).2
      simpa using this
    · intro tm htm
      obtain ⟨old, hold, hw, rfl⟩ := h4 tm htm
      refine ⟨old, hold, hw, ?_⟩
      cases hm : s.in_mainloop <;> simp

/-- The property that every record is started iff a run phase is active and the record is
enabled holds of a state without records and is kept by each of the six callbacks that
returns without an error, by `watch_add` and `timeout_add` also when the external call
raises, by `easydbus_set_watch_funcs`, by `easydbus_enable_ios` once `in_mainloop` is set
and by `easydbus_disable_ios` once it is cleared. -/
theorem callbacks_keep_startedIffEnabled (s : easydbus_state) (r : LVal)
    (hinv : startedIffEnabled s) :
    (∀ x : easydbus_state, x.ios = [] → x.timers = [] → startedIffEnabled x) ∧
    (∀ conn w u, startedIffEnabled (watch_add s r conn w u).state) ∧
    (∀ conn t u, startedIffEnabled (timeout_add s r conn t u).state) ∧
    (∀ w, (watch_toggle s r w).error = none → startedIffEnabled (watch_toggle s r w).state) ∧
    (∀ t, (timeout_toggle s r t).error = none →
      startedIffEnabled (timeout_toggle s r t).state) ∧
    (∀ w, (watch_remove s r w).outcome.error = none →
      startedIffEnabled (watch_remove s r w).outcome.state) ∧
    (∀ t, (timeout_remove s r t).outcome.error = none →
      startedIffEnabled (timeout_remove s r t).outcome.state) ∧
    (∀ L, startedIffEnabled (easydbus_set_watch_funcs L s r).state) ∧
    (s.in_mainloop = false →
      startedIffEnabled (easydbus_enable_ios { s with in_mainloop := true })) ∧
    startedIffEnabled (easydbus_disable_ios { s with in_mainloop := false }) := by
  obtain ⟨hio, htm⟩ := hinv
  refine ⟨?_, ?_, ?_, ?_, ?_, ?_, ?_, ?_, ?_, ?_⟩
  · intro x h1 h2
    exact ⟨by simp [h1], by simp [h2]⟩
  · intro conn w u
    simp only [watch_add_state]
    constructor
    · intro io hmem
      rcases List.mem_append.mp hmem with h1 | h1
      · exact hio io h1
      · simp only [List.mem_singleton] at h1
        rw [h1]
    · exact htm
  · intro conn t u
    simp only [timeout_add_state]
    constructor
    · exact hio
    · intro tm hmem
      rcases List.mem_append.mp hmem with h1 | h1
      · exact htm tm h1
      · simp only [List.mem_singleton] at h1
        rw [h1]
  · intro w herr
    obtain ⟨h1, h2, h3⟩ := watch_toggle_state s r w herr
    constructor
    · simp only [h3, h1]
      intro io hmem
      obtain ⟨x, hx, rfl⟩ := List.mem_map.mp hmem
      have hxs := hio x hx
      by_cases hw : x.watch = w.ptr
      · cases hm : s.in_mainloop <;> simp_all
      · simp only [hw, ↓reduceIte]
        exact hxs
    · simp only [h1, h2]
      exact htm
  · intro t herr
    obtain ⟨h1, h2, h3⟩ := timeout_toggle_state s r t herr
    constructor
    · simp only [h1, h2]
      exact hio
    · simp only [h3, h1]
      intro tm hmem
      obtain ⟨x, hx, rfl⟩ := List.mem_map.mp hmem
      have hxs := htm x hx
      by_cases hw : x.timeout = t.ptr
      · cases hm : s.in_mainloop <;> simp_all
      · simp only [hw, ↓reduceIte]
        exact hxs
  · intro w herr
    obtain ⟨h1, h2, h3, _⟩ := watch_remove_state s r w herr
    constructor
    · intro io hmem
      rw [h1]
      rw [h3] at hmem
      exact hio io (List.mem_filter.mp hmem).1
    · rw [h1, h2]
      exact htm
  · intro t herr
    obtain ⟨h1, h2, h3, _⟩ := timeout_remove_state s r t herr
    constructor
    · rw [h1, h2]
      exact hio
    · intro tm hmem
      rw [h1]
      rw [h3] at hmem
      exact htm tm (List.mem_filter.mp hmem).1
  · intro L
    obtain ⟨h1, h2, h3⟩ := set_watch_funcs_frame L s r
    constructor
    · simp only [h1, h2]
      exact hio
    · simp only [h1, h3]
      exact htm
  · intro hm
    constructor
    · intro io hmem
      simp only [easydbus_enable_ios] at hmem ⊢
      obtain ⟨x, hx, rfl⟩ := List.mem_map.mp hmem
      have hxs := hio x hx
      cases he : x.enabled <;> simp_all
    · intro tm hmem
      simp only [easydbus_enable_ios] at hmem ⊢
      obtain ⟨x, hx, rfl⟩ := List.mem_map.mp hmem
      have hxs := htm x hx
      cases he : x.enabled <;> simp_all
  · constructor
    · intro io hmem
      simp only [easydbus_disable_ios] at hmem ⊢
      obtain ⟨x, hx, rfl⟩ := List.mem_map.mp hmem
      simp
    · intro tm hmem
      simp only [easydbus_disable_ios] at hmem ⊢
      obtain ⟨x, hx, rfl⟩ := List.mem_map.mp hmem
      simp

/-- C17: with the external mode on after the sample activation, the removal of the watch
unlinks its record, but the removal of the timer does not: `timeout_remove` calls the
value held under `timeout_remove`, a field no code assigns, before it unlinks the record.
With the field at -1 the value is nil, Lua raises, and the record of the timer is still
in the registry with its reference. Whatever the field holds, the record is unlinked only
if that value happens to be a function. -/
theorem timeout_remove_keeps_record :
    sampleActivation.state.external_mainloop.active = true ∧
    sampleActivation.state.ios.map (fun io => io.watch) = [100] ∧
    sampleActivation.state.timers.map (fun t => t.timeout) = [200] ∧
    (watch_remove sampleActivation.state sampleActivation.registry
      ⟨100, 5, 1, true⟩).outcome.error = none ∧
    (watch_remove sampleActivation.state sampleActivation.registry
      ⟨100, 5, 1, true⟩).outcome.state.ios = [] ∧
    (watch_remove sampleActivation.state sampleActivation.registry
      ⟨100, 5, 1, true⟩).removed.map (fun io => io.watch) = some 100 ∧
    (timeout_remove sampleActivation.state sampleActivation.registry
      ⟨200, 1000, false⟩).outcome.error = some "attempt to call a nil value" ∧
    (timeout_remove sampleActivation.state sampleActivation.registry
      ⟨200, 1000, false⟩).outcome.state.timers = sampleIdle.timers ∧
    (timeout_remove sampleActivation.state sampleActivation.registry
      ⟨200, 1000, false⟩).removed = none ∧
    rawgeti (timeout_remove sampleActivation.state sampleActivation.registry
      ⟨200, 1000, false⟩).outcome.registry 2 = .userdata 200 ∧
    (∀ k : Int,
      (timeout_remove
        { sampleActivation.state with external_mainloop := ⟨true, 5, 4, 3, -1, k⟩ }
        sampleActivation.registry ⟨200, 1000, false⟩).outcome.error.isSome =
        !(rawgeti sampleActivation.registry k).isFunction ∧
      (timeout_remove
        { sampleActivation.state with external_mainloop := ⟨true, 5, 4, 3, -1, k⟩ }
        sampleActivation.registry ⟨200, 1000, false⟩).outcome.state.timers.map
          (fun t => t.timeout) =
        (if (rawgeti sampleActivation.registry k).isFunction then [] else [200]) ∧
      (timeout_remove
        { sampleActivation.state with external_mainloop := ⟨true, 5, 4, 3, -1, k⟩ }
        sampleActivation.registry ⟨200, 1000, false⟩).removed.isSome =
        (rawgeti sampleActivation.registry k).isFunction) := by
  refine ⟨rfl, rfl, rfl, rfl, rfl, rfl, rfl, rfl, rfl, rfl, ?_⟩
  intro k
  have hfind : dbus_timeout_get_data
      { sampleActivation.state with external_mainloop := ⟨true, 5, 4, 3, -1, k⟩ }
      ⟨200, 1000, false⟩ = some ⟨200, 1, 2, 1000, 1000, 1000, false, false⟩ := rfl
  have hcall : external_call sampleActivation.registry ⟨true, 5, 4, 3, -1, k⟩ k 2 =
      lua_call (rawgeti sampleActivation.registry k) (rawgeti sampleActivation.registry 2) :=
    rfl
  cases hf : (rawgeti sampleActivation.registry k).isFunction
  · have hc : (external_call sampleActivation.registry ⟨true, 5, 4, 3, -1, k⟩ k 2).2 =
        some ("attempt to call a " ++ luaL_typename (rawgeti sampleActivation.registry k)
          ++ " value") := by
      rw [hcall]
      simp [lua_call, hf]
    simp only [timeout_remove, hfind, hc]
    exact ⟨rfl, rfl, rfl⟩
  · have hc : (external_call sampleActivation.registry ⟨true, 5, 4, 3, -1, k⟩ k 2).2 =
        none := by
      rw [hcall]
      simp [lua_call, hf]
    simp only [timeout_remove, hfind, hc]
    exact ⟨rfl, rfl, rfl⟩

theorem refDelta_ed_resume (msg tid : Nat) (T : Stack) (n : Int) :
    refDelta msg [ed_resume tid T n] = 0 := by
  unfold ed_resume
  split <;> rfl

/-- Counterexample of C18, the release following the send: on both exits of
`interface_method_return` for the sample record the message is released first and the
reply is handed to the connection afterwards. -/
theorem interface_method_return_releases_first :
    interface_method_return [sampleInvocation, .num 7] =
      .ok [.msg_unref 99, .send 1
        { type := .method_return, reply_to := some 99, signature := some "i",
          body := [.num 7] }] ∧
    interface_method_return [sampleInvocation, .nil, .str "no"] =
      .ok [.msg_unref 99, .send 1 (dbus_message_new_error 99 DBUS_ERROR_FAILED "no")] ∧
    releaseAfterSend 99 [.msg_unref 99, .send 1
        { type := .method_return, reply_to := some 99, signature := some "i",
          body := [.num 7] }] = false ∧
    releaseAfterSend 99
      [.msg_unref 99, .send 1 (dbus_message_new_error 99 DBUS_ERROR_FAILED "no")] = false :=
  ⟨rfl, rfl, rfl, rfl⟩

/-- C18, as amended: on a full match `interface_method_call` takes one reference on the
inbound message; `interface_method_return`, on both of its exits, releases it exactly once,
after the reply has been built and before the reply is handed to the connection, so the
reference count is back to its value before dispatch. On a lookup miss no reference is
taken and none is released: the only event is the send of the error reply. -/
theorem inbound_message_reference (registry : LVal) (main : Stack)
    (tid connection msg : Nat) (m : DBusMessage) (hm : m.type = .method_call) :
    let entry := rawget (rawget (rawget (handlersOf registry connection) (strKey m.path))
      (strKey m.interface)) (strKey m.member)
    let d := interface_method_call registry main tid connection msg m
    (∀ (e : List LVal) (hash : List (Key × LVal)), entry = .table e hash →
      refDelta msg d.events = 1 ∧
      ∀ (results : List LVal), ∃ evs reply,
        interface_method_return
          (.table [.light connection, .light msg, rawgeti entry 2] [] :: results) = .ok evs ∧
        evs = [.msg_unref msg, .send connection reply] ∧
        refDelta msg evs = -1 ∧
        refDelta msg (d.events ++ evs) = 0 ∧
        releaseBeforeSend msg evs = true) ∧
    (entry.isTable = false →
      refDelta msg d.events = 0 ∧ d.events.all Event.isSend = true) := by
  intro entry d
  constructor
  · intro e hash he
    have hd := interface_method_call_match registry main tid connection msg m hm e hash he
    have h1 : refDelta msg d.events = 1 := by
      simp only [d, hd, refDelta, ↓reduceIte]
      have := refDelta_ed_resume msg tid
        (lookupStack registry connection m ++ e.drop 2 ++ m.body ++
          [.cfunc "interface_method_return",
            .table [.light connection, .light msg, rawgeti (.table e hash) 2] []])
        ((e.length : Int) + (m.body.length : Int) - 1)
      simp only [refDelta] at this
      omega
    refine ⟨h1, ?_⟩
    intro results
    have hr := interface_method_return_eq connection msg (rawgeti entry 2) [] results
    refine ⟨_, _, hr, rfl, ?_, ?_, ?_⟩
    · simp [refDelta]
    · simp only [d, hd, List.cons_append, List.nil_append, refDelta, ↓reduceIte]
      have := refDelta_ed_resume msg tid
        (lookupStack registry connection m ++ e.drop 2 ++ m.body ++
          [.cfunc "interface_method_return",
            .table [.light connection, .light msg, rawgeti (.table e hash) 2] []])
        ((e.length : Int) + (m.body.length : Int) - 1)
      unfold ed_resume at this ⊢
      split <;> simp [refDelta]
    · simp [releaseBeforeSend]
  · intro hmiss
    have h := interface_method_call_lookups registry main tid connection msg m hm
    simp only at h
    cases hp : (rawget (handlersOf registry connection) (strKey m.path)).isTable with
    | false =>
      have := (h.1 hp).2
      simp only [d, this]
      exact ⟨rfl, rfl⟩
    | true =>
      cases hi : (rawget (rawget (handlersOf registry connection) (strKey m.path))
          (strKey m.interface)).isTable with
      | false =>
        have := (h.2.1 hp hi).2
        simp only [d, this]
        exact ⟨rfl, rfl⟩
      | true =>
        have := (h.2.2 hp hi hmiss).2
        simp only [d, this]
        exact ⟨rfl, rfl⟩

/-- Witness of C18 as amended: the sample call to `Echo` and its method return. -/
theorem inbound_message_reference_witness :
    (sampleCall "/obj" "org.example.I" "Echo").type = .method_call ∧
    refDelta 99 (interface_method_call sampleRegistry [] 7 1 99
      (sampleCall "/obj" "org.example.I" "Echo")).events = 1 ∧
    (rawget (rawget (rawget (handlersOf sampleRegistry 1)
        (strKey (sampleCall "/none" "org.example.I" "Echo").path))
        (strKey (sampleCall "/none" "org.example.I" "Echo").interface))
        (strKey (sampleCall "/none" "org.example.I" "Echo").member)).isTable = false ∧
    refDelta 99 (interface_method_call sampleRegistry [] 7 1 99
      (sampleCall "/none" "org.example.I" "Echo")).events = 0 :=
  ⟨rfl,
   ((inbound_message_reference sampleRegistry [] 7 1 99
      (sampleCall "/obj" "org.example.I" "Echo") rfl).1
      [.str "s", .str "i", .func 10, .str "bound"] [] rfl).1,
   rfl,
   ((inbound_message_reference sampleRegistry [] 7 1 99
      (sampleCall "/none" "org.example.I" "Echo") rfl).2 rfl).1⟩

theorem utf8ByteSize_go_replicate (n : Nat) :
    String.utf8ByteSize.go (List.replicate n 'a') = n := by
  induction n with
  | zero => rfl
  | succ k ih =>
    simp only [List.replicate_succ, String.utf8ByteSize.go, ih]
    rfl

theorem utf8ByteSize_chunkOf (n : Nat) : (chunkOf n).utf8ByteSize = n := by
  show String.utf8ByteSize.go (List.replicate n 'a') = n
  exact utf8ByteSize_go_replicate n

/-- C19: the bound `offset + 1 <= len` fails after a single append to a fresh buffer. A
chunk of exactly 4096 bytes is copied without growing the buffer, so `offset = len = 4096`
and the terminating NUL lies outside; a chunk of 9000 bytes grows the buffer by one step
only, so `offset = 9000` exceeds `len = 8192`. -/
theorem sb_addstring_overflow :
    (sb_addstring sb_init (chunkOf 4096)).offset = 4096 ∧
    (sb_addstring sb_init (chunkOf 4096)).len = 4096 ∧
    ¬ ((sb_addstring sb_init (chunkOf 4096)).offset + 1 ≤
        (sb_addstring sb_init (chunkOf 4096)).len) ∧
    (sb_addstring sb_init (chunkOf 9000)).offset = 9000 ∧
    (sb_addstring sb_init (chunkOf 9000)).len = 8192 ∧
    ¬ ((sb_addstring sb_init (chunkOf 9000)).offset + 1 ≤
        (sb_addstring sb_init (chunkOf 9000)).len) := by
  simp [sb_addstring, sb_init, SB_STEP, utf8ByteSize_chunkOf]

/-- C20: the main stack is not left at its height on every path. A method call to an
unregistered path, interface or member leaves the task pushed by `lua_newthread` on the
main stack, and `introspect_handler` on an unregistered path leaves its three lookup
values there. The full match, both exits of `signal_callback` and the successful
introspection restore the height. -/
theorem dispatch_leaves_values_on_main :
    (interface_method_call sampleRegistry [] 7 1 99
      (sampleCall "/none" "org.example.I" "Echo")).main = [.thread 7] ∧
    (interface_method_call sampleRegistry [] 7 1 99
      (sampleCall "/obj" "org.example.Z" "Echo")).main = [.thread 7] ∧
    (interface_method_call sampleRegistry [] 7 1 99
      (sampleCall "/obj" "org.example.I" "Miss")).main = [.thread 7] ∧
    (introspect_handler sampleRegistry [] 1 99 (some "/none")).map (fun r => r.2.length)
      = some 3 ∧
    (interface_method_call sampleRegistry [] 7 1 99
      (sampleCall "/obj" "org.example.I" "Echo")).main = [] ∧
    (signal_callback sampleRegistry [] 7 1 sampleSignal).main = [] ∧
    (signal_callback sampleRegistry [] 7 1
      { sampleSignal with member := some "Other" }).main = [] ∧
    (introspect_handler sampleRegistry [] 1 99 (some "/obj")).map (fun r => r.2) = some [] :=
  ⟨rfl, rfl, rfl, rfl, rfl, rfl, rfl, rfl⟩

theorem and_one_of_mod_four (f : Nat) : f &&& 1 = (f % 4) &&& 1 := by
  have h : f &&& 3 = f % 4 := Nat.and_pow_two_sub_one_eq_mod f 2
  rw [← h, Nat.land_assoc]
  rfl

theorem and_two_of_mod_four (f : Nat) : f &&& 2 = (f % 4) &&& 2 := by
  have h : f &&& 3 = f % 4 := Nat.and_pow_two_sub_one_eq_mod f 2
  rw [← h, Nat.land_assoc]
  rfl

/-- C22: each flag translation keeps exactly the readable and writable bits of its argument
and drops every other bit, so the two are inverse to each other on those bits; readable
corresponds to `EV_READ` and writable to `EV_WRITE`, never the other way round. -/
theorem flags_roundtrip (f e : Nat) :
    flags_dbus_to_ev f = f &&& (DBUS_WATCH_READABLE ||| DBUS_WATCH_WRITABLE) ∧
    flags_ev_to_dbus e = e &&& (EV_READ ||| EV_WRITE) ∧
    flags_dbus_to_ev f &&& (EV_READ ||| EV_WRITE) = flags_dbus_to_ev f ∧
    flags_ev_to_dbus e &&& (DBUS_WATCH_READABLE ||| DBUS_WATCH_WRITABLE) = flags_ev_to_dbus e ∧
    flags_ev_to_dbus (flags_dbus_to_ev f) = f &&& (DBUS_WATCH_READABLE ||| DBUS_WATCH_WRITABLE) ∧
    flags_dbus_to_ev (flags_ev_to_dbus e) = e &&& (EV_READ ||| EV_WRITE) ∧
    flags_dbus_to_ev DBUS_WATCH_READABLE = EV_READ ∧
    flags_dbus_to_ev DBUS_WATCH_WRITABLE = EV_WRITE ∧
    flags_ev_to_dbus EV_READ = DBUS_WATCH_READABLE ∧
    flags_ev_to_dbus EV_WRITE = DBUS_WATCH_WRITABLE ∧
    (flags_dbus_to_ev f &&& EV_READ ≠ 0 ↔ f &&& DBUS_WATCH_READABLE ≠ 0) ∧
    (flags_dbus_to_ev f &&& EV_WRITE ≠ 0 ↔ f &&& DBUS_WATCH_WRITABLE ≠ 0) ∧
    (flags_ev_to_dbus e &&& DBUS_WATCH_READABLE ≠ 0 ↔ e &&& EV_READ ≠ 0) ∧
    (flags_ev_to_dbus e &&& DBUS_WATCH_WRITABLE ≠ 0 ↔ e &&& EV_WRITE ≠ 0) := by
  have hf3 : f &&& 3 = f % 4 := Nat.and_pow_two_sub_one_eq_mod f 2
  have he3 : e &&& 3 = e % 4 := Nat.and_pow_two_sub_one_eq_mod e 2
  have hf1 := and_one_of_mod_four f
  have hf2 := and_two_of_mod_four f
  have he1 := and_one_of_mod_four e
  have he2 := and_two_of_mod_four e
  have hfr : f % 4 < 4 := Nat.mod_lt _ (by decide)
  have her : e % 4 < 4 := Nat.mod_lt _ (by decide)
  have c3 : (DBUS_WATCH_READABLE ||| DBUS_WATCH_WRITABLE) = 3 := by decide
  have d3 : (EV_READ ||| EV_WRITE) = 3 := by decide
  simp only [flags_ev_to_dbus, flags_dbus_to_ev, c3, d3, hf3, he3]
  simp only [DBUS_WATCH_READABLE, DBUS_WATCH_WRITABLE, EV_READ, EV_WRITE, hf1, hf2, he1, he2]
  generalize f % 4 = r at hfr
  generalize e % 4 = q at her
  interval_cases r <;> interval_cases q <;> decide

theorem nextOf_update (h : LinkHeap) (p q : Nat) (n : Links) :
    nextOf (Function.update h p (some n)) q = if q = p then some n.next else nextOf h q := by
  unfold nextOf
  by_cases hq : q = p
  · subst hq; simp
  · simp [Function.update_noteq hq, hq]

theorem prevOf_update (h : LinkHeap) (p q : Nat) (n : Links) :
    prevOf (Function.update h p (some n)) q = if q = p then some n.prev else prevOf h q := by
  unfold prevOf
  by_cases hq : q = p
  · subst hq; simp
  · simp [Function.update_noteq hq, hq]

theorem lastOf_mem (a : Nat) (xs : List Nat) : lastOf a xs ∈ a :: xs := by
  induction xs generalizing a with
  | nil => simp [lastOf]
  | cons x xs ih =>
    have := ih x
    simp only [lastOf]
    exact List.mem_cons_of_mem _ this

theorem lastOf_append (a x : Nat) (xs : List Nat) : lastOf a (xs ++ [x]) = x := by
  induction xs generalizing a with
  | nil => rfl
  | cons y ys ih => simpa [lastOf] using ih y

/-- Links that are read the same way give the same path. -/
theorem path_frame (h h2 : LinkHeap) (xs : List Nat) (b : Nat) :
    ∀ a, Path h a xs b → (∀ m ∈ a :: xs, nextOf h2 m = nextOf h m) →
      (∀ m ∈ xs ++ [b], prevOf h2 m = prevOf h m) → Path h2 a xs b := by
  induction xs with
  | nil =>
    intro a hp hn hv
    obtain ⟨h1, h3⟩ := hp
    exact ⟨by rw [hn a (by simp)]; exact h1, by rw [hv b (by simp)]; exact h3⟩
  | cons x xs ih =>
    intro a hp hn hv
    obtain ⟨h1, h3, h4⟩ := hp
    refine ⟨by rw [hn a (by simp)]; exact h1, by rw [hv x (by simp)]; exact h3, ?_⟩
    apply ih x h4
    · intro m hm
      exact hn m (List.mem_cons_of_mem _ hm)
    · intro m hm
      exact hv m (by simp at hm ⊢; tauto)

theorem path_prev_last (h : LinkHeap) (xs : List Nat) (b : Nat) :
    ∀ a, Path h a xs b → prevOf h b = some (lastOf a xs) := by
  induction xs with
  | nil => intro a hp; exact hp.2
  | cons x xs ih => intro a hp; exact ih x hp.2.2

/-- Every record on a path has a successor that points back to it. -/
theorem path_next_back (h : LinkHeap) (xs : List Nat) (b : Nat) :
    ∀ a, Path h a xs b → ∀ m ∈ a :: xs, ∃ v, nextOf h m = some v ∧ prevOf h v = some m := by
  induction xs with
  | nil =>
    intro a hp m hm
    simp only [List.mem_singleton] at hm
    subst hm
    exact ⟨b, hp.1, hp.2⟩
  | cons x xs ih =>
    intro a hp m hm
    rcases List.mem_cons.mp hm with rfl | hm
    · exact ⟨x, hp.1, hp.2.1⟩
    · exact ih x hp.2.2 m hm

/-- Every record on a path has a predecessor that points forward to it. -/
theorem path_prev_forth (h : LinkHeap) (xs : List Nat) (b : Nat) :
    ∀ a, Path h a xs b → ∀ m ∈ xs ++ [b], ∃ u, prevOf h m = some u ∧ nextOf h u = some m := by
  induction xs with
  | nil =>
    intro a hp m hm
    simp only [List.nil_append, List.mem_singleton] at hm
    subst hm
    exact ⟨a, hp.2, hp.1⟩
  | cons x xs ih =>
    intro a hp m hm
    rcases List.mem_cons.mp hm with rfl | hm
    · exact ⟨a, hp.2.1, hp.1⟩
    · exact ih x hp.2.2 m hm

/-- Appending a record to a path: the last record and the end now point to it. -/
theorem path_snoc (h h2 : LinkHeap) (x b : Nat) (xs : List Nat) :
    ∀ a, Path h a xs b → (a :: xs).Nodup →
      nextOf h2 (lastOf a xs) = some x → prevOf h2 x = some (lastOf a xs) →
      nextOf h2 x = some b → prevOf h2 b = some x →
      (∀ m ∈ a :: xs, m ≠ lastOf a xs → nextOf h2 m = nextOf h m) →
      (∀ m ∈ xs, prevOf h2 m = prevOf h m) →
      Path h2 a (xs ++ [x]) b := by
  induction xs with
  | nil =>
    intro a _ _ h1 h3 h4 h5 _ _
    exact ⟨h1, h3, h4, h5⟩
  | cons y ys ih =>
    intro a hp hnd h1 h3 h4 h5 hn hv
    obtain ⟨p1, p2, p3⟩ := hp
    have hlast : lastOf a (y :: ys) = lastOf y ys := rfl
    rw [hlast] at h1 h3 hn
    have hmem := lastOf_mem y ys
    have hanot : a ∉ y :: ys := (List.nodup_cons.mp hnd).1
    have hne : a ≠ lastOf y ys := fun e => hanot (e ▸ hmem)
    refine ⟨?_, ?_, ?_⟩
    · rw [hn a (by simp) hne]; exact p1
    · rw [hv y (by simp)]; exact p2
    · apply ih y p3 (List.nodup_cons.mp hnd).2 h1 h3 h4 h5
      · intro m hm hml
        exact hn m (List.mem_cons_of_mem _ hm) hml
      · intro m hm
        exact hv m (List.mem_cons_of_mem _ hm)

/-- The link statements of an add on a well-formed registry: they are defined and the new
record becomes the last one. -/
theorem wrap_add_links_spec (h : LinkHeap) (head x : Nat) (xs : List Nat)
    (hreg : IsRegistry h head xs) (hx : x ∉ head :: xs) :
    ∃ h2, wrap_add_links h head x = some h2 ∧ IsRegistry h2 head (xs ++ [x]) := by
  obtain ⟨hnd, hp⟩ := hreg
  have hprev := path_prev_last h xs head head hp
  have hlm := lastOf_mem head xs
  obtain ⟨v, hv1, _⟩ := path_next_back h xs head head hp (lastOf head xs) hlm
  -- the sentinel and the last record are allocated
  obtain ⟨s, hs, hsp⟩ : ∃ s, h head = some s ∧ s.prev = lastOf head xs := by
    unfold prevOf at hprev
    cases hh : h head with
    | none => simp [hh] at hprev
    | some s => exact ⟨s, rfl, by simpa [hh] using hprev⟩
  obtain ⟨l, hl⟩ : ∃ l, h (lastOf head xs) = some l := by
    unfold nextOf at hv1
    cases hh : h (lastOf head xs) with
    | none => simp [hh] at hv1
    | some l => exact ⟨l, rfl⟩
  have hxl : x ≠ lastOf head xs := fun e => hx (e ▸ hlm)
  have hxh : x ≠ head := fun e => hx (by simp [e])
  -- carry out the statements
  have e1 : set_next h (lastOf head xs) x =
      some (Function.update h (lastOf head xs) (some { l with next := x })) := by
    simp [set_next, hl]
  obtain ⟨s1, hs1, hs1n⟩ : ∃ s1,
      Function.update h (lastOf head xs) (some { l with next := x }) head = some s1 ∧
      s1.next = if lastOf head xs = head then x else s.next := by
    by_cases hc : lastOf head xs = head
    · refine ⟨{ l with next := x }, ?_, by simp [hc]⟩
      have := Function.update_same (lastOf head xs) (some { l with next := x }) h
      rw [hc] at this ⊢
      exact this
    · have hc2 : head ≠ lastOf head xs := fun e => hc e.symm
      exact ⟨s, by rw [Function.update_noteq hc2]; exact hs, by simp [hc]⟩
  have e2 : set_prev (Function.update h (lastOf head xs) (some { l with next := x })) head x =
      some (Function.update (Function.update h (lastOf head xs) (some { l with next := x }))
        head (some { s1 with prev := x })) := by
    simp [set_prev, hs1]
  have e3 : wrap_add_links h head x =
      some (Function.update (Function.update (Function.update h (lastOf head xs)
        (some { l with next := x })) head (some { s1 with prev := x })) x
        (some { prev := lastOf head xs, next := head })) := by
    simp only [wrap_add_links, hs, hsp, e1, e2]
  refine ⟨_, e3, ?_⟩
  constructor
  · -- no address twice
    have : (head :: (xs ++ [x])).Nodup := by
      rw [← List.cons_append]
      apply List.Nodup.append hnd (List.nodup_singleton x)
      intro m hm1 hm2
      simp only [List.mem_singleton] at hm2
      exact hx (hm2 ▸ hm1)
    exact this
  · apply path_snoc h _ x head xs head hp hnd
    · -- last->next = x
      simp only [nextOf_update, hxl.symm, ↓reduceIte]
      by_cases hc : lastOf head xs = head
      · simp [hc, hs1n]
      · simp [hc]
    · simp [prevOf_update]
    · simp [nextOf_update]
    · simp [prevOf_update, hxh.symm]
    · intro m hm hml
      have hmx : m ≠ x := fun e => hx (e ▸ hm)
      simp only [nextOf_update, hmx, ↓reduceIte, hml]
      by_cases hc : m = head
      · subst hc
        have hne : ¬ lastOf m xs = m := fun e => hml e.symm
        simp only [↓reduceIte, hs1n, hne]
        simp [nextOf, hs]
      · simp [hc]
    · intro m hm
      have hmx : m ≠ x := fun e => hx (e ▸ List.mem_cons_of_mem _ hm)
      have hmh : m ≠ head := fun e => (List.nodup_cons.mp hnd).1 (e ▸ hm)
      simp only [prevOf_update, hmx, hmh, ↓reduceIte]
      by_cases hc : m = lastOf head xs
      · simp [hc, prevOf, hl]
      · simp [hc]

/-- The links of a record in the middle of a path. -/
theorem path_mid (h : LinkHeap) (x b : Nat) (pre post : List Nat) :
    ∀ a, Path h a (pre ++ x :: post) b →
      prevOf h x = some (lastOf a pre) ∧ nextOf h x = some (post.headD b) := by
  induction pre with
  | nil =>
    intro a hp
    obtain ⟨_, p2, p3⟩ := hp
    refine ⟨p2, ?_⟩
    cases post with
    | nil => exact p3.1
    | cons z zs => exact p3.1
  | cons y ys ih =>
    intro a hp
    exact ih y hp.2.2

/-- Taking a record out of a path: its neighbours now point to each other. -/
theorem path_remove (h h2 : LinkHeap) (x b : Nat) (pre post : List Nat) :
    ∀ a, Path h a (pre ++ x :: post) b → (a :: (pre ++ x :: post)).Nodup →
      b ∉ pre ++ x :: post →
      nextOf h2 (lastOf a pre) = some (post.headD b) →
      prevOf h2 (post.headD b) = some (lastOf a pre) →
      (∀ m, m ≠ lastOf a pre → nextOf h2 m = nextOf h m) →
      (∀ m, m ≠ post.headD b → prevOf h2 m = prevOf h m) →
      Path h2 a (pre ++ post) b := by
  induction pre with
  | nil =>
    intro a hp hnd hb h1 h3 hn hv
    obtain ⟨_, _, p3⟩ := hp
    simp only [List.nil_append, lastOf] at hnd hb h1 h3 hn hv ⊢
    cases post with
    | nil => exact ⟨h1, h3⟩
    | cons z zs =>
      obtain ⟨_, _, q3⟩ := p3
      simp only [List.headD_cons] at h1 h3 hv
      refine ⟨h1, h3, ?_⟩
      apply path_frame h h2 zs b z q3
      · intro m hm
        apply hn
        intro e
        subst e
        have := (List.nodup_cons.mp hnd).1
        exact this (List.mem_cons_of_mem _ hm)
      · intro m hm
        apply hv
        intro e
        subst e
        rcases List.mem_append.mp hm with hm | hm
        · have h2nd := (List.nodup_cons.mp (List.nodup_cons.mp hnd).2).2
          exact (List.nodup_cons.mp h2nd).1 hm
        · simp only [List.mem_singleton] at hm
          subst hm
          exact hb (by simp)
  | cons y ys ih =>
    intro a hp hnd hb h1 h3 hn hv
    obtain ⟨p1, p2, p3⟩ := hp
    have hlast : lastOf a (y :: ys) = lastOf y ys := rfl
    rw [hlast] at h1 h3 hn
    have hmem := lastOf_mem y ys
    have hnd2 := List.nodup_cons.mp hnd
    have hanot : a ∉ y :: (ys ++ x :: post) := hnd2.1
    have hne : a ≠ lastOf y ys := by
      intro e
      apply hanot
      rw [e]
      rcases List.mem_cons.mp hmem with hm | hm
      · rw [hm]; simp
      · exact List.mem_cons_of_mem _ (List.mem_append_left _ hm)
    have hynot : y ∉ ys ++ x :: post := (List.nodup_cons.mp hnd2.2).1
    have hyn : y ≠ post.headD b := by
      intro e
      cases post with
      | nil =>
        simp only [List.headD_nil] at e
        exact hb (by simp [e])
      | cons z zs =>
        simp only [List.headD_cons] at e
        exact hynot (by simp [e])
    refine ⟨?_, ?_, ?_⟩
    · rw [hn a hne]; exact p1
    · rw [hv y hyn]; exact p2
    · apply ih y p3 hnd2.2 _ h1 h3 hn hv
      intro hbm
      exact hb (List.mem_cons_of_mem _ hbm)

theorem heap_of_nextOf (h : LinkHeap) (m v : Nat) (hn : nextOf h m = some v) :
    ∃ n, h m = some n ∧ n.next = v := by
  unfold nextOf at hn
  cases hh : h m with
  | none => simp [hh] at hn
  | some n => exact ⟨n, rfl, by simpa [hh] using hn⟩

theorem heap_of_prevOf (h : LinkHeap) (m v : Nat) (hn : prevOf h m = some v) :
    ∃ n, h m = some n ∧ n.prev = v := by
  unfold prevOf at hn
  cases hh : h m with
  | none => simp [hh] at hn
  | some n => exact ⟨n, rfl, by simpa [hh] using hn⟩

/-- The link statements of a remove on a record whose neighbours `p` and `n` are
allocated: afterwards `p` and `n` point to each other and no other link is changed. -/
theorem wrap_remove_links_compute (h : LinkHeap) (x p n : Nat) (nd nx pp : Links)
    (hx : h x = some nd) (hndp : nd.prev = p) (hndn : nd.next = n)
    (hn : h n = some nx) (hp : h p = some pp) (hnx : n ≠ x) :
    ∃ h2, wrap_remove_links h x = some h2 ∧
      nextOf h2 p = some n ∧ prevOf h2 n = some p ∧
      (∀ m, m ≠ p → nextOf h2 m = nextOf h m) ∧
      (∀ m, m ≠ n → prevOf h2 m = prevOf h m) := by
  subst hndp
  subst hndn
  have e1 : set_prev h nd.next nd.prev =
      some (Function.update h nd.next (some { nx with prev := nd.prev })) := by
    simp [set_prev, hn]
  have e2 : Function.update h nd.next (some { nx with prev := nd.prev }) x = some nd := by
    rw [Function.update_noteq hnx.symm]; exact hx
  obtain ⟨pv, hpv_h, hpvp⟩ : ∃ pv,
      Function.update h nd.next (some { nx with prev := nd.prev }) nd.prev = some pv ∧
      pv.prev = if nd.prev = nd.next then nd.prev else pp.prev := by
    by_cases hc : nd.prev = nd.next
    · refine ⟨{ nx with prev := nd.prev }, ?_, by simp [hc]⟩
      rw [hc]; simp
    · exact ⟨pp, by rw [Function.update_noteq hc]; exact hp, by simp [hc]⟩
  have e3 : wrap_remove_links h x =
      some (Function.update (Function.update h nd.next (some { nx with prev := nd.prev }))
        nd.prev (some { pv with next := nd.next })) := by
    simp only [wrap_remove_links, hx, e1, e2, set_next, hpv_h]
  refine ⟨_, e3, ?_, ?_, ?_, ?_⟩
  · simp [nextOf_update]
  · simp only [prevOf_update]
    by_cases hc : nd.next = nd.prev
    · simp [hc, hpvp]
    · simp [hc]
  · intro m hm
    simp only [nextOf_update, hm, ↓reduceIte]
    by_cases hc : m = nd.next
    · subst hc; simp [nextOf, hn]
    · simp [hc]
  · intro m hm
    simp only [prevOf_update, hm, ↓reduceIte]
    by_cases hc : m = nd.prev
    · subst hc
      simp [hpvp, hm, prevOf, hp]
    · simp [hc]

/-- The link statements of a remove on a member of a well-formed registry: they are
defined and exactly that record leaves the sequence. -/
theorem wrap_remove_links_spec (h : LinkHeap) (head x : Nat) (pre post : List Nat)
    (hreg : IsRegistry h head (pre ++ x :: post)) :
    ∃ h2, wrap_remove_links h x = some h2 ∧ IsRegistry h2 head (pre ++ post) := by
  obtain ⟨hnd, hp⟩ := hreg
  have hhead : head ∉ pre ++ x :: post := (List.nodup_cons.mp hnd).1
  have hnd2 : (pre ++ x :: post).Nodup := (List.nodup_cons.mp hnd).2
  obtain ⟨hxp, hxn⟩ := path_mid h x head pre post head hp
  obtain ⟨nd, hnd_x, hndn⟩ := heap_of_nextOf h x _ hxn
  have hndp : nd.prev = lastOf head pre := by
    obtain ⟨nd2, e, e2⟩ := heap_of_prevOf h x _ hxp
    rw [hnd_x] at e
    cases e
    exact e2
  have hpmem : lastOf head pre ∈ head :: (pre ++ x :: post) := by
    rcases List.mem_cons.mp (lastOf_mem head pre) with e | e
    · rw [e]; simp
    · exact List.mem_cons_of_mem _ (List.mem_append_left _ e)
  have hnmem : post.headD head ∈ head :: (pre ++ x :: post) := by
    cases post with
    | nil => simp
    | cons z zs => simp
  have hxmid : x ∈ pre ++ x :: post := by simp
  have hnx : post.headD head ≠ x := by
    intro e
    cases post with
    | nil =>
      simp only [List.headD_nil] at e
      exact hhead (by rw [e]; exact hxmid)
    | cons z zs =>
      simp only [List.headD_cons] at e
      have h3 := (List.nodup_append.mp hnd2).2.1
      have := (List.nodup_cons.mp h3).1
      exact this (by simp [e])
  obtain ⟨_, hnv, _⟩ := path_next_back h _ head head hp _ hnmem
  obtain ⟨nx, hnx_h, _⟩ := heap_of_nextOf h _ _ hnv
  obtain ⟨_, hpv, _⟩ := path_next_back h _ head head hp _ hpmem
  obtain ⟨pp, hpp_h, _⟩ := heap_of_nextOf h _ _ hpv
  obtain ⟨h2, e3, q1, q2, q3, q4⟩ := wrap_remove_links_compute h x (lastOf head pre)
    (post.headD head) nd nx pp hnd_x hndp hndn hnx_h hpp_h hnx
  refine ⟨h2, e3, ?_, ?_⟩
  · have hsub : List.Sublist (head :: (pre ++ post)) (head :: (pre ++ x :: post)) := by
      apply List.Sublist.cons₂
      apply List.Sublist.append_left
      exact List.sublist_cons_self x post
    exact List.Nodup.sublist hsub hnd
  · exact path_remove h h2 x head pre post head hp hnd hhead q1 q2 q3 q4

/-- The traversal loop visits the records of a path in order. -/
theorem traverse_path (h : LinkHeap) (head : Nat) (xs : List Nat) :
    ∀ a, Path h a xs head → (∀ m ∈ xs, m ≠ head) →
      ∃ f, nextOf h a = some f ∧ traverse h head (xs.length + 1) f = some xs := by
  induction xs with
  | nil =>
    intro a hp _
    exact ⟨head, hp.1, by simp [traverse]⟩
  | cons x xs ih =>
    intro a hp hne
    obtain ⟨p1, _, p3⟩ := hp
    obtain ⟨f, hf, ht⟩ := ih x p3 (fun m hm => hne m (List.mem_cons_of_mem _ hm))
    obtain ⟨n, hn, hnn⟩ := heap_of_nextOf h x f hf
    refine ⟨x, p1, ?_⟩
    have hx : x ≠ head := hne x (by simp)
    simp only [List.length_cons]
    rw [traverse]
    simp only [hx, ↓reduceIte, hn, hnn, ht, Option.map_some']

/-- A well-formed registry: links are mutually inverse at every node, the traversal loop
yields the sequence, an add appends, a remove deletes exactly the record, and an add
followed by the remove of the same record restores the sequence. -/
theorem registry_operations (h : LinkHeap) (head x : Nat) (xs : List Nat)
    (hreg : IsRegistry h head xs) :
    (∀ m ∈ head :: xs, ∃ n, h m = some n ∧ prevOf h n.next = some m ∧
      nextOf h n.prev = some m) ∧
    members h head (xs.length + 1) = some xs ∧
    (x ∉ head :: xs → ∃ h2, wrap_add_links h head x = some h2 ∧
      IsRegistry h2 head (xs ++ [x]) ∧
      ∃ h3, wrap_remove_links h2 x = some h3 ∧ IsRegistry h3 head xs) ∧
    (x ∈ xs → ∃ h2, wrap_remove_links h x = some h2 ∧ IsRegistry h2 head (xs.erase x)) := by
  have hnd := hreg.1
  have hp := hreg.2
  have hhead : ∀ m ∈ xs, m ≠ head := by
    intro m hm e
    exact (List.nodup_cons.mp hnd).1 (e ▸ hm)
  refine ⟨?_, ?_, ?_, ?_⟩
  · intro m hm
    obtain ⟨v, hv1, hv2⟩ := path_next_back h xs head head hp m hm
    have hm2 : m ∈ xs ++ [head] := by
      rcases List.mem_cons.mp hm with e | e
      · simp [e]
      · exact List.mem_append_left _ e
    obtain ⟨u, hu1, hu2⟩ := path_prev_forth h xs head head hp m hm2
    obtain ⟨n, hn, hnn⟩ := heap_of_nextOf h m v hv1
    obtain ⟨n2, hn2, hnp⟩ := heap_of_prevOf h m u hu1
    rw [hn] at hn2
    cases hn2
    exact ⟨n, hn, by rw [hnn]; exact hv2, by rw [hnp]; exact hu2⟩
  · obtain ⟨f, hf, ht⟩ := traverse_path h head xs head hp hhead
    obtain ⟨s, hs, hsn⟩ := heap_of_nextOf h head f hf
    simp only [members, hs, hsn, ht]
  · intro hx
    obtain ⟨h2, e2, r2⟩ := wrap_add_links_spec h head x xs hreg hx
    have r2b : IsRegistry h2 head (xs ++ x :: []) := r2
    obtain ⟨h3, e3, r3⟩ := wrap_remove_links_spec h2 head x xs [] r2b
    exact ⟨h2, e2, r2, h3, e3, by simpa using r3⟩
  · intro hx
    obtain ⟨pre, post, hpre, hxs, her⟩ := List.exists_erase_eq hx
    rw [her]
    subst hxs
    exact wrap_remove_links_spec h head x pre post hreg

/-- The watch registry as `luaopen_easydbus_core` leaves it is the empty list. -/
theorem luaopen_ios_empty (a t : Nat) :
    IsRegistry (luaopen_registries a t).io_heap (luaopen_registries a t).ios [] := by
  refine ⟨by simp, ?_, ?_⟩ <;> simp [luaopen_registries, nextOf, prevOf]

/-- C21: `luaopen_easydbus_core` links the watch sentinel to itself, so the watch registry
starts as a well-formed empty list, but it never assigns `state->timers` and allocates no
timer sentinel: whatever value the pointer holds, the timer registry is no well-formed
list, its traversal is undefined, and the first `ev_timer_wrap_add` reads a record that
does not exist. -/
theorem luaopen_timers_not_linked (a t x fuel : Nat) :
    IsRegistry (luaopen_registries a t).io_heap (luaopen_registries a t).ios [] ∧
    members (luaopen_registries a t).io_heap (luaopen_registries a t).ios 1 = some [] ∧
    (∀ xs, ¬ IsRegistry (luaopen_registries a t).timer_heap
      (luaopen_registries a t).timers xs) ∧
    members (luaopen_registries a t).timer_heap (luaopen_registries a t).timers fuel = none ∧
    ev_timer_wrap_add_links (luaopen_registries a t).timer_heap
      (luaopen_registries a t).timers x = none := by
  refine ⟨luaopen_ios_empty a t, ?_, ?_, rfl, rfl⟩
  · simp [members, luaopen_registries, traverse]
  · intro xs hreg
    obtain ⟨v, hv, _⟩ := path_next_back _ xs _ _ hreg.2 (luaopen_registries a t).timers
      (by simp)
    simp [luaopen_registries, nextOf] at hv

theorem sb_addstring_overrun (b : sb) (c : String) (h : b.overrun = true) :
    (sb_addstring b c).overrun = true := by
  simp [sb_addstring, h]

theorem introspect_arg_overrun (b : sb) (sig : Option String) (tail : String)
    (h : b.overrun = true) : (introspect_arg b sig tail).overrun = true := by
  unfold introspect_arg
  cases sig with
  | none => exact h
  | some s =>
    by_cases hs : s = ""
    · simp [hs, h]
    · simp only [ne_eq, hs, not_false_eq_true, ↓reduceIte]
      exact sb_addstring_overrun _ _ (sb_addstring_overrun _ _ (sb_addstring_overrun _ _ h))

theorem introspect_method_overrun (b : sb) (e : Key × LVal) (h : b.overrun = true) :
    (introspect_method b e).overrun = true := by
  unfold introspect_method
  exact sb_addstring_overrun _ _ (introspect_arg_overrun _ _ _ (introspect_arg_overrun _ _ _
    (sb_addstring_overrun _ _ (sb_addstring_overrun _ _ (sb_addstring_overrun _ _ h)))))

theorem foldl_overrun {α : Type} (f : sb → α → sb)
    (hf : ∀ b e, b.overrun = true → (f b e).overrun = true) (l : List α) :
    ∀ b : sb, b.overrun = true → (l.foldl f b).overrun = true := by
  induction l with
  | nil => intro b h; exact h
  | cons x xs ih => intro b h; exact ih _ (hf b x h)

theorem introspect_interface_overrun (b : sb) (e : Key × LVal) (h : b.overrun = true) :
    (introspect_interface b e).overrun = true := by
  unfold introspect_interface
  by_cases hk : e.1.isString = true
  · simp only [hk, Bool.not_true, Bool.false_eq_true, ↓reduceIte]
    exact sb_addstring_overrun _ _ (foldl_overrun _ introspect_method_overrun _ _
      (sb_addstring_overrun _ _ (sb_addstring_overrun _ _ (sb_addstring_overrun _ _ h))))
  · simp [hk, h]

theorem introspect_node_overrun (b : sb) (e : Key × LVal) (h : b.overrun = true) :
    (introspect_node b e).overrun = true := by
  unfold introspect_node
  exact sb_addstring_overrun _ _ (sb_addstring_overrun _ _ (sb_addstring_overrun _ _ h))

/-- Once the interface loop has written beyond the buffer, the finished buffer is marked. -/
theorem introspect_buffer_overrun_of_interfaces (node : LVal)
    (h : ((pairsOf node).foldl introspect_interface
      (sb_addstring sb_init introspect_header)).overrun = true) :
    (introspect_buffer node).overrun = true := by
  unfold introspect_buffer
  exact sb_addstring_overrun _ _ (foldl_overrun _ introspect_node_overrun _ _
    (sb_addstring_overrun _ _ h))

theorem introspect_header_size : introspect_header.utf8ByteSize = 150 := by rfl

theorem introspect_standard_size : introspect_standard.utf8ByteSize = 364 := by rfl

/-- C5: the path `/big` is registered with one string-keyed interface whose name has 9000
bytes, so the document has to carry one `<interface>` block for it. When the name is
copied after the header (150 bytes) and the opening of the element (19 bytes) the buffer
is grown by one step only, to 8192 bytes, while the text ends at byte 9169: the name is
written beyond the buffer, and `introspect_handler` produces no document. -/
theorem introspect_interface_overruns :
    wellFormedNode longInterfaceNode = true ∧
    rawget (handlersOf longInterfaceRegistry 1) (strKey (some "/big")) = longInterfaceNode ∧
    registeredInterfaces longInterfaceNode = [⟨chunkOf 9000, []⟩] ∧
    (sb_addstring (sb_addstring (sb_addstring sb_init introspect_header)
      "  <interface name=\"") (chunkOf 9000)).offset = 9169 ∧
    (sb_addstring (sb_addstring (sb_addstring sb_init introspect_header)
      "  <interface name=\"") (chunkOf 9000)).len = 8192 ∧
    (sb_addstring (sb_addstring sb_init introspect_header)
      "  <interface name=\"").overrun = false ∧
    (sb_addstring (sb_addstring (sb_addstring sb_init introspect_header)
      "  <interface name=\"") (chunkOf 9000)).overrun = true ∧
    (introspect_buffer longInterfaceNode).overrun = true ∧
    introspect_handler longInterfaceRegistry [] 1 99 (some "/big") = none ∧
    introspect_document longInterfaceRegistry [] 1 99 (some "/big") = none := by
  have h19 : ("  <interface name=\"").utf8ByteSize = 19 := by rfl
  have hname : (sb_addstring (sb_addstring (sb_addstring sb_init introspect_header)
      "  <interface name=\"") (chunkOf 9000)).overrun = true := by
    simp [sb_addstring, sb_init, SB_STEP, utf8ByteSize_chunkOf, introspect_header_size, h19]
  have hpairs : pairsOf longInterfaceNode =
      [(.int 1, .table [] []), (.str (chunkOf 9000), .table [] [])] := rfl
  have hbuf : (introspect_buffer longInterfaceNode).overrun = true := by
    apply introspect_buffer_overrun_of_interfaces
    rw [hpairs]
    simp only [List.foldl_cons, List.foldl_nil]
    have hskip : introspect_interface (sb_addstring sb_init introspect_header)
        (Key.int 1, LVal.table [] []) = sb_addstring sb_init introspect_header := rfl
    rw [hskip]
    have hstr : lua_tostring (Key.toVal (.str (chunkOf 9000))) = some (chunkOf 9000) := rfl
    simp only [introspect_interface, Key.isString, Bool.not_true, Bool.false_eq_true,
      ↓reduceIte, hstr, cstr, Option.getD_some]
    exact sb_addstring_overrun _ _ (foldl_overrun _ introspect_method_overrun _ _
      (sb_addstring_overrun _ _ hname))
  have hnode : rawget (rawgeti (rawget longInterfaceRegistry (.light 1)) 2)
      (strKey (some "/big")) = longInterfaceNode := rfl
  have hnone : introspect_handler longInterfaceRegistry [] 1 99 (some "/big") = none := by
    simp only [introspect_handler, lua_pushlightuserdata, lua_pushstring,
      lua_rawget_registry_push, lua_rawgeti_push, lua_rawget_push, lua_istable_push,
      lua_val_push_top, hnode, hbuf]
    rfl
  refine ⟨rfl, rfl, rfl, ?_, ?_, ?_, hname, hbuf, hnone, ?_⟩
  · simp [sb_addstring, sb_init, SB_STEP, utf8ByteSize_chunkOf, introspect_header_size, h19]
  · simp [sb_addstring, sb_init, SB_STEP, utf8ByteSize_chunkOf, introspect_header_size, h19]
  · simp [sb_addstring, sb_init, SB_STEP, introspect_header_size, h19]
  · simp only [introspect_document, hnone]

/-- C6: the path `/parent` is registered without interfaces and with one recorded child
whose name has 9000 bytes, so the document has to be the header, the two standard blocks,
one `<node>` line for the child and `</node>`. When the name is copied the buffer is
grown by one step only, to 8192 bytes, while the text ends at byte 9528: the name is
written beyond the buffer, and `introspect_handler` sends no document. -/
theorem introspect_child_overruns :
    wellFormedNode longChildNode = true ∧
    rawget (handlersOf longChildRegistry 1) (strKey (some "/parent")) = longChildNode ∧
    registeredInterfaces longChildNode = [] ∧
    childNames longChildNode = [chunkOf 9000] ∧
    (sb_addstring (sb_addstring (sb_addstring (sb_addstring sb_init introspect_header)
      introspect_standard) "  <node name=\"") (chunkOf 9000)).offset = 9528 ∧
    (sb_addstring (sb_addstring (sb_addstring (sb_addstring sb_init introspect_header)
      introspect_standard) "  <node name=\"") (chunkOf 9000)).len = 8192 ∧
    (sb_addstring (sb_addstring (sb_addstring sb_init introspect_header)
      introspect_standard) "  <node name=\"").overrun = false ∧
    (introspect_buffer longChildNode).overrun = true ∧
    introspect_handler longChildRegistry [] 1 99 (some "/parent") = none ∧
    introspect_document longChildRegistry [] 1 99 (some "/parent") = none := by
  have h14 : ("  <node name=\"").utf8ByteSize = 14 := by rfl
  have hname : (sb_addstring (sb_addstring (sb_addstring (sb_addstring sb_init
      introspect_header) introspect_standard) "  <node name=\"") (chunkOf 9000)).overrun
      = true := by
    simp [sb_addstring, sb_init, SB_STEP, utf8ByteSize_chunkOf, introspect_header_size,
      introspect_standard_size, h14]
  have hpairs : pairsOf longChildNode =
      [(.int 1, .table [] [(.str (chunkOf 9000), .bool true)])] := rfl
  have hchildren : pairsOf (rawgeti longChildNode 1) = [(.str (chunkOf 9000), .bool true)] :=
    rfl
  have hbuf : (introspect_buffer longChildNode).overrun = true := by
    unfold introspect_buffer
    rw [hpairs, hchildren]
    simp only [List.foldl_cons, List.foldl_nil]
    have hskip : introspect_interface (sb_addstring sb_init introspect_header)
        (Key.int 1, LVal.table [] [(.str (chunkOf 9000), .bool true)])
        = sb_addstring sb_init introspect_header := rfl
    rw [hskip]
    have hstr : lua_tostring (Key.toVal (.str (chunkOf 9000))) = some (chunkOf 9000) := rfl
    simp only [introspect_node, hstr, cstr, Option.getD_some]
    exact sb_addstring_overrun _ _ (sb_addstring_overrun _ _ hname)
  have hnode : rawget (rawgeti (rawget longChildRegistry (.light 1)) 2)
      (strKey (some "/parent")) = longChildNode := rfl
  have hnone : introspect_handler longChildRegistry [] 1 99 (some "/parent") = none := by
    simp only [introspect_handler, lua_pushlightuserdata, lua_pushstring,
      lua_rawget_registry_push, lua_rawgeti_push, lua_rawget_push, lua_istable_push,
      lua_val_push_top, hnode, hbuf]
    rfl
  refine ⟨rfl, rfl, rfl, rfl, ?_, ?_, ?_, hbuf, hnone, ?_⟩
  · simp [sb_addstring, sb_init, SB_STEP, utf8ByteSize_chunkOf, introspect_header_size,
      introspect_standard_size, h14]
  · simp [sb_addstring, sb_init, SB_STEP, utf8ByteSize_chunkOf, introspect_header_size,
      introspect_standard_size, h14]
  · simp [sb_addstring, sb_init, SB_STEP, introspect_header_size,
      introspect_standard_size, h14]
  · simp only [introspect_document, hnone]

end Easydbus
